import Mathlib

/-!
# OAuth2 grant engine of `oauth2/main.go`

A shallow embedding of the authorization server in `src/oauth2/main.go`,
of the token validator and the registration handler of `src/jwt/main.go`,
of the key generator of `src/api-keys/main.go` and of the credential parser
of `src/basic-auth/main.go`.

Modelling conventions
* The MySQL database is a record of four tables, each a list of rows in
  insertion order.  `UNIQUE` and `FOREIGN KEY` constraints of the
  `CREATE TABLE` statements make an `INSERT` fail, and no statement of the
  program deletes a row.
* Every table is declared `COLLATE=utf8mb4_unicode_ci`, so MySQL compares the
  string columns `email`, `client_id` and `code` (in `WHERE col = ?`, in a
  `UNIQUE` index and in a `FOREIGN KEY`) by their weight strings, the field
  `collate` of `Primitives`: `APP` finds the client `app`.  The column
  `token_hash` holds lower-case hexadecimal digests only
  (`hex.EncodeToString`), on which the collation is equality, and is compared
  by equality.  A comparison made by the Go code (`==`, `!=`) is equality.
* Clock readings (`time.Now()`) are whole seconds, the resolution of JWT
  numeric dates and of `TIMESTAMP` columns; every reading is an input.
* bcrypt, SHA-256, HMAC and the URL helpers of the Go libraries are the
  fields of `Primitives`; random bytes, UUIDs and database failures are
  inputs of each handler call (`Ambient`).
* Go strings are modelled by Lean strings (Unicode text), except where the
  source counts or cuts bytes (`len`, a slice expression, a decoded base64
  payload): there a string is the list of its bytes.
* The functions of `encoding/base64` and `net/url` that the claims depend on
  are modelled after the Go standard library; the parsing of the authority
  of a URL is a parameter.
-/

namespace OAuth2

/-! ## Configuration (`const` block) -/

def jwtSecretKey : String := "KunciRahasiaSuperAmanUntukJWTIniHarusPanjangDanAcak"

def tokenIssuer : String := "aplikasi-oauth-saya.com"

/-- One hour, in seconds. -/
def accessTokenDuration : Nat := 1 * 3600

/-- Ten minutes, in seconds. -/
def authCodeDuration : Nat := 10 * 60

/-- Seven days, in seconds. -/
def refreshTokenDuration : Nat := 7 * 24 * 3600

/-! ## Model (`type` declarations) -/

structure User where
  ID : Int
  Email : String
  Password : String
  deriving DecidableEq, Repr

structure OAuthClient where
  ID : Int
  ClientID : String
  ClientSecretHash : String
  ClientName : String
  RedirectURIs : List String
  deriving DecidableEq, Repr

structure AuthCode where
  ID : Int
  Code : String
  ClientID : String
  UserID : Int
  RedirectURI : String
  Scopes : String
  ExpiresAt : Nat
  Used : Bool
  deriving DecidableEq, Repr

structure RefreshToken where
  ID : Int
  Token : String
  UserID : Int
  ClientID : String
  Scopes : String
  ExpiresAt : Nat
  Revoked : Bool
  deriving DecidableEq, Repr

/-- The fields of `jwt.RegisteredClaims` that the program sets or that the
parser validates by default (`exp`, `nbf`); a missing date is `none`. -/
structure RegisteredClaims where
  Issuer : String
  Subject : String
  ExpiresAt : Option Nat
  NotBefore : Option Nat
  IssuedAt : Option Nat
  deriving DecidableEq, Repr

structure JWTClaims where
  UserID : Int
  Email : String
  ClientID : String
  Scopes : List String
  Registered : RegisteredClaims
  deriving DecidableEq, Repr

/-- A token string that splits into three decodable segments: the `alg`
entry of its header, its claims (of the Go type `C`) and its signature.
Strings that do not decode are rejected by the parser before the key
function runs. -/
structure TokenString (C : Type) where
  alg : String
  claims : C
  signature : String
  deriving DecidableEq, Repr

/-- The signing methods registered by the JWT library.  Only the first three
have the Go type `*jwt.SigningMethodHMAC`. -/
inductive SigningMethod where
  | HS256
  | HS384
  | HS512
  | other (alg : String)
  deriving DecidableEq, Repr

/-- Names of the registered methods that are not HMAC methods. -/
def nonHMACMethods : List String :=
  ["RS256", "RS384", "RS512", "PS256", "PS384", "PS512",
   "ES256", "ES384", "ES512", "EdDSA", "none"]

/-- Library lookup `jwt.GetSigningMethod(alg)`. -/
def GetSigningMethod (alg : String) : Option SigningMethod :=
  if alg = "HS256" then some .HS256
  else if alg = "HS384" then some .HS384
  else if alg = "HS512" then some .HS512
  else if alg ∈ nonHMACMethods then some (.other alg)
  else none

/-- The type assertion `token.Method.(*jwt.SigningMethodHMAC)`. -/
def SigningMethod.isSigningMethodHMAC : SigningMethod → Bool
  | .HS256 => true
  | .HS384 => true
  | .HS512 => true
  | .other _ => false

/-- Library primitives the program calls into. -/
structure Primitives where
  /-- Result of `bcrypt.CompareHashAndPassword(hash, password) == nil`,
  arguments in the order of `checkPassword(password, hash)`. -/
  bcryptCompare : String → String → Bool
  /-- Result of `bcrypt.GenerateFromPassword(password, 14)` for the salt drawn
  in that call; `none` when the library reports an error. -/
  bcryptGenerate : Nat → String → Option String
  /-- Hex digest of SHA-256. -/
  sha256Hex : String → String
  /-- MAC of the signing input (header and claims segments) under a key, for
  the hash of the given HMAC method. -/
  hmac : SigningMethod → String → String × JWTClaims → String
  /-- Result of `url.QueryEscape`. -/
  queryEscape : String → String
  /-- Whether `url.ParseRequestURI` accepts the string. -/
  parseRequestURI : String → Bool
  /-- Whether `url.Parse` accepts the string. -/
  urlParse : String → Bool
  /-- Rendering of a parsed URL after `q.Set` of the listed pairs, in order,
  on its query and `RawQuery = q.Encode()`. -/
  urlWithQuery : String → List (String × String) → String
  /-- Weight string of a value under `utf8mb4_unicode_ci`, the collation of
  every table: MySQL takes two strings as equal, in `WHERE col = ?`, in a
  `UNIQUE` index and in a `FOREIGN KEY`, exactly when their weight strings
  are equal (letter case and trailing spaces, among others, are not told
  apart). -/
  collate : String → String

/-! ## Database -/

/-- Errors returned by the database driver and by the libraries. -/
inductive GoError where
  | noRows
  | duplicateEntry
  | foreignKey
  | dbFailure
  | bcrypt
  | rand
  | signing
  deriving DecidableEq, Repr

/-- The four tables created by `initDB`. -/
structure DB where
  user : List User
  oauth_clients : List OAuthClient
  oauth_auth_codes : List AuthCode
  oauth_refresh_tokens : List RefreshToken
  deriving DecidableEq, Repr

/-- Whether the named database call fails for a reason outside the data
(connection lost, statement timeout, column limit). -/
structure Faults where
  createUser : Bool := false
  getUserByEmail : Bool := false
  createOAuthClient : Bool := false
  selectClientRowID : Bool := false
  getOAuthClient : Bool := false
  storeAuthCode : Bool := false
  getAuthCode : Bool := false
  markAuthCodeAsUsed : Bool := false
  selectUserByID : Bool := false
  storeRefreshToken : Bool := false
  getRefreshToken : Bool := false
  revokeRefreshToken : Bool := false
  signedString : Bool := false
  deriving DecidableEq, Repr

/-- The source `crypto/rand.Reader`: either the read fails, or it yields
the bytes `byte 0, byte 1, ...`. -/
structure RandSource where
  fails : Bool
  byte : Nat → Fin 256

/-- What one handler call takes from its surroundings. -/
structure Ambient where
  faults : Faults
  rand : RandSource
  /-- Value of `uuid.New().String()`. -/
  uuid : String
  /-- Salt drawn by `bcrypt.GenerateFromPassword`. -/
  salt : Nat
  /-- Reading of `time.Now()` in the expiry test of the token handler. -/
  nowCheck : Nat
  /-- Reading of `time.Now()` for `expirationTime` in `generateAccessToken`. -/
  nowExp : Nat
  /-- Reading of `time.Now()` for `IssuedAt` in `generateAccessToken`. -/
  nowIat : Nat
  /-- Reading of `time.Now()` in `storeAuthCode` or `storeRefreshToken`. -/
  nowStore : Nat

/-! ## Helper functions -/

def hashPassword (P : Primitives) (salt : Nat) (password : String) : Except GoError String :=
  match P.bcryptGenerate salt password with
  | some h => .ok h
  | none => .error .bcrypt

def checkPassword (P : Primitives) (password hash : String) : Bool :=
  P.bcryptCompare password hash

/-- Alphabet of `base64.URLEncoding`. -/
def encodeURL : List Char :=
  "ABCDEFGHIJKLMNOPQRSTUVWXYZabcdefghijklmnopqrstuvwxyz0123456789-_".data

/-- Character of a six-bit value. -/
def b64 (n : Nat) : Char := encodeURL.getD n '='

/-- Padded encoding `base64.URLEncoding.EncodeToString`. -/
def EncodeToString : List (Fin 256) → List Char
  | [] => []
  | [a] => [b64 (a.val / 4), b64 (a.val % 4 * 16), '=', '=']
  | [a, b] =>
      [b64 (a.val / 4), b64 (a.val % 4 * 16 + b.val / 16), b64 (b.val % 16 * 4), '=']
  | a :: b :: c :: rest =>
      b64 (a.val / 4) :: b64 (a.val % 4 * 16 + b.val / 16) ::
        b64 (b.val % 16 * 4 + c.val / 64) :: b64 (c.val % 64) :: EncodeToString rest

def generateSecureRandomString (rand : RandSource) (length : Nat) : Except GoError String :=
  if rand.fails then .error .rand
  else .ok (String.mk (EncodeToString ((List.range length).map rand.byte)))

def hashStringSHA256 (P : Primitives) (s : String) : String :=
  P.sha256Hex s

/-- Go `strings.Split` on a one-character separator, on character lists. -/
def splitChars (sep : Char) : List Char → List (List Char)
  | [] => [[]]
  | c :: cs =>
      if c = sep then [] :: splitChars sep cs
      else
        match splitChars sep cs with
        | [] => [[c]]
        | w :: ws => (c :: w) :: ws

/-- Go `strings.Split(s, sep)` for a one-character separator. -/
def stringsSplit (s : String) (sep : Char) : List String :=
  (splitChars sep s.data).map String.mk

/-- Go `strings.Join(elems, sep)`. -/
def stringsJoin (elems : List String) (sep : String) : String :=
  sep.intercalate elems

/-! ## Database functions (CRUD) -/

def createUser (P : Primitives) (amb : Ambient) (db : DB) (email password : String) :
    Except GoError (User × DB) :=
  match hashPassword P amb.salt password with
  | .error e => .error e
  | .ok hashedPassword =>
    if amb.faults.createUser then .error .dbFailure
    else if db.user.any (fun u => P.collate u.Email = P.collate email) then .error .duplicateEntry
    else
      let id : Int := db.user.length + 1
      .ok ({ ID := id, Email := email, Password := "" },
           { db with user := db.user ++ [{ ID := id, Email := email, Password := hashedPassword }] })

def getUserByEmail (P : Primitives) (amb : Ambient) (db : DB) (email : String) :
    Except GoError User :=
  if amb.faults.getUserByEmail then .error .dbFailure
  else
    match db.user.find? (fun u => P.collate u.Email = P.collate email) with
    | some u => .ok u
    | none => .error .noRows

/-- Returns the client, the raw secret and the database. -/
def createOAuthClient (P : Primitives) (amb : Ambient) (db : DB) (name : String)
    (redirectURIs : List String) : Except GoError (OAuthClient × String × DB) :=
  let clientID := amb.uuid
  match generateSecureRandomString amb.rand 32 with
  | .error e => .error e
  | .ok rawClientSecret =>
    match hashPassword P amb.salt rawClientSecret with
    | .error e => .error e
    | .ok clientSecretHash =>
      if amb.faults.createOAuthClient then .error .dbFailure
      else if db.oauth_clients.any (fun c => P.collate c.ClientID = P.collate clientID) then
        .error .duplicateEntry
      else
        let rowID : Int := db.oauth_clients.length + 1
        let id : Int := if amb.faults.selectClientRowID then 0 else rowID
        .ok ({ ID := id, ClientID := clientID, ClientSecretHash := "", ClientName := name,
               RedirectURIs := redirectURIs },
             rawClientSecret,
             { db with oauth_clients := db.oauth_clients ++
                [{ ID := rowID, ClientID := clientID, ClientSecretHash := clientSecretHash,
                   ClientName := name, RedirectURIs := redirectURIs }] })

def getOAuthClient (P : Primitives) (amb : Ambient) (db : DB) (clientID : String) :
    Except GoError OAuthClient :=
  if amb.faults.getOAuthClient then .error .dbFailure
  else
    match db.oauth_clients.find? (fun c => P.collate c.ClientID = P.collate clientID) with
    | some c => .ok c
    | none => .error .noRows

def storeAuthCode (P : Primitives) (amb : Ambient) (db : DB) (code clientID : String)
    (userID : Int) (redirectURI scopes : String) : Except GoError DB :=
  let expiresAt := amb.nowStore + authCodeDuration
  if amb.faults.storeAuthCode then .error .dbFailure
  else if db.oauth_auth_codes.any (fun a => P.collate a.Code = P.collate code) then
    .error .duplicateEntry
  else if !(db.user.any (fun u => u.ID = userID)) then .error .foreignKey
  else if !(db.oauth_clients.any (fun c => P.collate c.ClientID = P.collate clientID)) then
    .error .foreignKey
  else
    .ok { db with oauth_auth_codes := db.oauth_auth_codes ++
            [{ ID := db.oauth_auth_codes.length + 1, Code := code, ClientID := clientID,
               UserID := userID, RedirectURI := redirectURI, Scopes := scopes,
               ExpiresAt := expiresAt, Used := false }] }

def getAuthCode (P : Primitives) (amb : Ambient) (db : DB) (code : String) :
    Except GoError AuthCode :=
  if amb.faults.getAuthCode then .error .dbFailure
  else
    match db.oauth_auth_codes.find? (fun a => P.collate a.Code = P.collate code) with
    | some a => .ok a
    | none => .error .noRows

/-- Effect of `UPDATE oauth_auth_codes SET used = TRUE WHERE code = ?` on one row. -/
def AuthCode.setUsedWhere (P : Primitives) (code : String) (a : AuthCode) : AuthCode :=
  if P.collate a.Code = P.collate code then { a with Used := true } else a

def markAuthCodeAsUsed (P : Primitives) (amb : Ambient) (db : DB) (code : String) :
    Except GoError DB :=
  if amb.faults.markAuthCodeAsUsed then .error .dbFailure
  else .ok { db with oauth_auth_codes := db.oauth_auth_codes.map (AuthCode.setUsedWhere P code) }

def storeRefreshToken (P : Primitives) (amb : Ambient) (db : DB) (rawToken : String)
    (userID : Int) (clientID scopes : String) : Except GoError DB :=
  let tokenHash := hashStringSHA256 P rawToken
  let expiresAt := amb.nowStore + refreshTokenDuration
  if amb.faults.storeRefreshToken then .error .dbFailure
  else if db.oauth_refresh_tokens.any (fun t => t.Token = tokenHash) then .error .duplicateEntry
  else if !(db.user.any (fun u => u.ID = userID)) then .error .foreignKey
  else if !(db.oauth_clients.any (fun c => P.collate c.ClientID = P.collate clientID)) then
    .error .foreignKey
  else
    .ok { db with oauth_refresh_tokens := db.oauth_refresh_tokens ++
            [{ ID := db.oauth_refresh_tokens.length + 1, Token := tokenHash, UserID := userID,
               ClientID := clientID, Scopes := scopes, ExpiresAt := expiresAt,
               Revoked := false }] }

def getRefreshToken (P : Primitives) (amb : Ambient) (db : DB) (rawToken : String) :
    Except GoError RefreshToken :=
  let tokenHash := hashStringSHA256 P rawToken
  if amb.faults.getRefreshToken then .error .dbFailure
  else
    match db.oauth_refresh_tokens.find? (fun t => t.Token = tokenHash) with
    | some t => .ok t
    | none => .error .noRows

/-- Effect of `UPDATE oauth_refresh_tokens SET revoked = TRUE WHERE token_hash = ?`
on one row. -/
def RefreshToken.setRevokedWhere (tokenHash : String) (t : RefreshToken) : RefreshToken :=
  if t.Token = tokenHash then { t with Revoked := true } else t

def revokeRefreshToken (P : Primitives) (amb : Ambient) (db : DB) (rawToken : String) :
    Except GoError DB :=
  let tokenHash := hashStringSHA256 P rawToken
  if amb.faults.revokeRefreshToken then .error .dbFailure
  else .ok { db with oauth_refresh_tokens :=
               db.oauth_refresh_tokens.map (RefreshToken.setRevokedWhere tokenHash) }

/-- The inline query `SELECT id, email FROM user WHERE id = ?` of the token
handler; only the two selected columns are filled in. -/
def selectUserByID (amb : Ambient) (db : DB) (id : Int) : Except GoError User :=
  if amb.faults.selectUserByID then .error .dbFailure
  else
    match db.user.find? (fun u => u.ID = id) with
    | some u => .ok { ID := u.ID, Email := u.Email, Password := "" }
    | none => .error .noRows

/-! ## JWT functions -/

def generateAccessToken (P : Primitives) (amb : Ambient) (userID : Int) (email clientID : String)
    (scopes : List String) : Except GoError (TokenString JWTClaims) :=
  let expirationTime := amb.nowExp + accessTokenDuration
  let claims : JWTClaims :=
    { UserID := userID, Email := email, ClientID := clientID, Scopes := scopes,
      Registered :=
        { Issuer := tokenIssuer, Subject := toString userID, ExpiresAt := some expirationTime,
          NotBefore := none, IssuedAt := some amb.nowIat } }
  if amb.faults.signedString then .error .signing
  else .ok { alg := "HS256", claims := claims,
             signature := P.hmac SigningMethod.HS256 jwtSecretKey ("HS256", claims) }

inductive JWTError where
  | unavailable
  | unverifiable
  | signatureInvalid
  | expired
  | notValidYet
  | invalid
  deriving DecidableEq, Repr

/-- The key function passed to `jwt.ParseWithClaims`. -/
def keyFunc (method : SigningMethod) : Except JWTError String :=
  if !method.isSigningMethodHMAC then .error .unverifiable
  else .ok jwtSecretKey

/-- The `*jwt.Token` returned by the parser. -/
structure ParsedToken (C : Type) where
  claims : C
  Valid : Bool
  deriving DecidableEq, Repr

/-- Library function `jwt.ParseWithClaims` with default options, read at clock
time `now`, for claims of type `C` with embedded registered claims: method
lookup by the header, key function, signature check with the method named by
the header, then `exp` (token valid while `now` is before it) and `nbf`. -/
def ParseWithClaims {C : Type} (hmac : SigningMethod → String → String × C → String)
    (registered : C → RegisteredClaims) (now : Nat) (tokenString : TokenString C)
    (keyFunc : SigningMethod → Except JWTError String) : Except JWTError (ParsedToken C) :=
  match GetSigningMethod tokenString.alg with
  | none => .error .unavailable
  | some method =>
    match keyFunc method with
    | .error e => .error e
    | .ok key =>
      if tokenString.signature ≠ hmac method key (tokenString.alg, tokenString.claims) then
        .error .signatureInvalid
      else if (match (registered tokenString.claims).ExpiresAt with
               | some exp => !decide (now < exp)
               | none => false) then .error .expired
      else if (match (registered tokenString.claims).NotBefore with
               | some nbf => decide (now < nbf)
               | none => false) then .error .notValidYet
      else .ok { claims := tokenString.claims, Valid := true }

def validateAccessToken (P : Primitives) (now : Nat) (tokenString : TokenString JWTClaims) :
    Except JWTError JWTClaims :=
  match ParseWithClaims P.hmac JWTClaims.Registered now tokenString keyFunc with
  | .error e => .error e
  | .ok token =>
    if !token.Valid then .error .invalid
    else .ok token.claims

/-! ## HTTP handlers -/

/-- Body of the JSON answer of the token endpoint: the map literal of lines
669 to 675 has its five keys in every call, so that no member is ever left
out of the object; `refresh_token` is the value of `newRefreshTokenValue`,
the empty string when the call minted no refresh token. -/
structure TokenResponse where
  access_token : TokenString JWTClaims
  token_type : String
  expires_in : Int
  refresh_token : String
  scope : String
  deriving DecidableEq, Repr

/-- What a handler writes to the `http.ResponseWriter`.  Error bodies are
the fixed text of the source; the detail some of them append (`err.Error()`,
the offending URI) and quotation marks inside the text are left out. -/
inductive Response where
  /-- Call `http.Error(w, body, code)`. -/
  | httpError (body : String) (code : Nat)
  /-- Status 200 with the token JSON. -/
  | tokenJSON (body : TokenResponse)
  /-- Status 201 with a JSON object. -/
  | createdJSON (body : List (String × String))
  /-- The login template executed on its data. -/
  | loginPage (data : List (String × String))
  /-- Call `http.Redirect(w, r, location, code)`. -/
  | redirect (location : String) (code : Nat)
  /-- The handler dereferenced a nil pointer. -/
  | nilDereference
  /-- The handler returned without writing. -/
  | nothing
  deriving DecidableEq, Repr

/-- Decoded JSON body of `/register-user`. -/
structure Credentials where
  Email : String
  Password : String
  deriving DecidableEq, Repr

/-- Decoded JSON body of `/register-client`. -/
structure ClientRegistration where
  ClientName : String
  RedirectURIs : List String
  deriving DecidableEq, Repr

/-- The values `/oauth/authorize` reads: from the query string on GET, from
the form on POST. -/
structure AuthorizeRequest where
  Method : String
  client_id : String
  response_type : String
  redirect_uri : String
  scope : String
  state : String
  error : String
  email : String
  password : String
  deriving DecidableEq, Repr

/-- The form values `/oauth/token` reads; `parseFormError` says that
`r.ParseForm()` failed. -/
structure TokenRequest where
  parseFormError : Bool
  grant_type : String
  client_id : String
  client_secret : String
  code : String
  redirect_uri : String
  refresh_token : String
  deriving DecidableEq, Repr

/-- Handler of `/register-user`; `none` is a body that does not decode. -/
def registerUserHandler (P : Primitives) (amb : Ambient) (db : DB) (body : Option Credentials) :
    Response × DB :=
  match body with
  | none => (.httpError "Request body tidak valid" 400, db)
  | some creds =>
    if creds.Email = "" ∨ creds.Password = "" then
      (.httpError "Email dan password diperlukan" 400, db)
    else
      match createUser P amb db creds.Email creds.Password with
      | .error e =>
        if e = .duplicateEntry then (.httpError "Email sudah terdaftar" 409, db)
        else (.httpError "Gagal mendaftarkan pengguna" 500, db)
      | .ok (user, db1) =>
        (.createdJSON [("id", toString user.ID), ("email", user.Email)], db1)

/-- Handler of `/register-client`; `none` is a body that does not decode. -/
def registerClientHandler (P : Primitives) (amb : Ambient) (db : DB)
    (body : Option ClientRegistration) : Response × DB :=
  match body with
  | none => (.httpError "Request body tidak valid" 400, db)
  | some reqBody =>
    if reqBody.ClientName = "" ∨ reqBody.RedirectURIs.length = 0 then
      (.httpError "Nama klien dan minimal satu redirect URI diperlukan" 400, db)
    else if reqBody.RedirectURIs.any (fun uri => !P.parseRequestURI uri) then
      (.httpError "Redirect URI tidak valid" 400, db)
    else
      match createOAuthClient P amb db reqBody.ClientName reqBody.RedirectURIs with
      | .error _ => (.httpError "Gagal mendaftarkan klien" 500, db)
      | .ok (client, rawSecret, db1) =>
        (.createdJSON [("client_id", client.ClientID), ("client_secret", rawSecret),
                       ("client_name", client.ClientName)], db1)

/-- Handler of `/oauth/authorize`. -/
def authorizeHandler (P : Primitives) (amb : Ambient) (db : DB) (r : AuthorizeRequest) :
    Response × DB :=
  if r.Method = "GET" then
    let clientID := r.client_id
    let responseType := r.response_type
    let redirectURI := r.redirect_uri
    if clientID = "" ∨ responseType = "" ∨ redirectURI = "" then
      (.httpError "Parameter client_id, response_type, dan redirect_uri diperlukan" 400, db)
    else if responseType ≠ "code" then
      (.httpError "response_type harus code" 400, db)
    else
      match getOAuthClient P amb db clientID with
      | .error _ => (.httpError "client_id tidak valid" 400, db)
      | .ok client =>
        let validRedirectURI := client.RedirectURIs.any (fun uri => uri = redirectURI)
        if !validRedirectURI then
          (.httpError "redirect_uri tidak valid untuk klien ini" 400, db)
        else
          (.loginPage [("ClientID", clientID), ("ClientName", client.ClientName),
                       ("ResponseType", responseType), ("RedirectURI", redirectURI),
                       ("Scope", r.scope), ("State", r.state), ("Error", r.error)], db)
  else if r.Method = "POST" then
    let postClientID := r.client_id
    let postResponseType := r.response_type
    let postRedirectURI := r.redirect_uri
    let postScope := r.scope
    let postState := r.state
    let loginFailed : Response :=
      .redirect ("/oauth/authorize?response_type=" ++ postResponseType ++ "&client_id=" ++
        postClientID ++ "&redirect_uri=" ++ P.queryEscape postRedirectURI ++ "&scope=" ++
        P.queryEscape postScope ++ "&state=" ++ P.queryEscape postState ++ "&error=" ++
        P.queryEscape "Email atau password salah.") 302
    match getUserByEmail P amb db r.email with
    | .error _ => (loginFailed, db)
    | .ok user =>
      if !checkPassword P r.password user.Password then (loginFailed, db)
      else
        match generateSecureRandomString amb.rand 32 with
        | .error _ => (.httpError "Gagal membuat authorization code" 500, db)
        | .ok authCodeVal =>
          match storeAuthCode P amb db authCodeVal postClientID user.ID postRedirectURI postScope with
          | .error _ => (.httpError "Gagal menyimpan authorization code" 500, db)
          | .ok db1 =>
            if !P.urlParse postRedirectURI then (.nilDereference, db1)
            else
              let q := [("code", authCodeVal)] ++
                (if postState ≠ "" then [("state", postState)] else [])
              (.redirect (P.urlWithQuery postRedirectURI q) 302, db1)
  else (.nothing, db)

/-- Lines 638 to 675 of the token handler: mint the access token, mint and
store a refresh token for the `authorization_code` grant, write the JSON. -/
def issueTokens (P : Primitives) (amb : Ambient) (db : DB) (grantType clientID : String)
    (user : User) (scopes : List String) : Response × DB :=
  match generateAccessToken P amb user.ID user.Email clientID scopes with
  | .error _ => (.httpError "Gagal membuat access token" 500, db)
  | .ok accessToken =>
    let expiresIn : Int := accessTokenDuration
    if grantType = "authorization_code" then
      match generateSecureRandomString amb.rand 32 with
      | .error _ => (.httpError "Gagal membuat refresh token" 500, db)
      | .ok newRefreshTokenValue =>
        match storeRefreshToken P amb db newRefreshTokenValue user.ID clientID
            (stringsJoin scopes ",") with
        | .error _ => (.httpError "Gagal menyimpan refresh token" 500, db)
        | .ok db1 =>
          (.tokenJSON { access_token := accessToken, token_type := "Bearer",
                        expires_in := expiresIn, refresh_token := newRefreshTokenValue,
                        scope := stringsJoin scopes " " }, db1)
    else
      (.tokenJSON { access_token := accessToken, token_type := "Bearer",
                    expires_in := expiresIn, refresh_token := "",
                    scope := stringsJoin scopes " " }, db)

/-- Lines 596 to 601: read the code and test it; `none` is the rejection. -/
def checkAuthCode (P : Primitives) (amb : Ambient) (db : DB)
    (code clientID redirectURI : String) : Option AuthCode :=
  match getAuthCode P amb db code with
  | .error _ => none
  | .ok authCode =>
    if authCode.Used ∨ amb.nowCheck > authCode.ExpiresAt ∨ authCode.ClientID ≠ clientID ∨
        authCode.RedirectURI ≠ redirectURI then none
    else some authCode

/-- Lines 603 to 675 for a code that passed the test: mark it used, read the
user, issue the tokens. -/
def finishAuthCodeGrant (P : Primitives) (amb : Ambient) (db : DB) (r : TokenRequest)
    (authCode : AuthCode) : Response × DB :=
  match markAuthCodeAsUsed P amb db r.code with
  | .error _ => (.httpError "Gagal menandai authorization code sebagai terpakai" 500, db)
  | .ok db1 =>
    match selectUserByID amb db1 authCode.UserID with
    | .error _ => (.httpError "Gagal mengambil data pengguna" 500, db1)
    | .ok user =>
      let scopes := stringsSplit authCode.Scopes ','
      issueTokens P amb db1 r.grant_type r.client_id user scopes

/-- Lines 616 to 622: read the refresh token and test it. -/
def checkRefreshToken (P : Primitives) (amb : Ambient) (db : DB)
    (refreshTokenValue clientID : String) : Option RefreshToken :=
  match getRefreshToken P amb db refreshTokenValue with
  | .error _ => none
  | .ok rt =>
    if rt.Revoked ∨ amb.nowCheck > rt.ExpiresAt ∨ rt.ClientID ≠ clientID then none
    else some rt

/-- Lines 626 to 675 for a refresh token that passed the test: read the user,
issue the access token. -/
def finishRefreshGrant (P : Primitives) (amb : Ambient) (db : DB) (r : TokenRequest)
    (rt : RefreshToken) : Response × DB :=
  match selectUserByID amb db rt.UserID with
  | .error _ => (.httpError "Gagal mengambil data pengguna dari refresh token" 500, db)
  | .ok user =>
    let scopes := stringsSplit rt.Scopes ','
    issueTokens P amb db r.grant_type r.client_id user scopes

def invalidClientID : Response := .httpError "client_id tidak valid" 401

def invalidClientSecret : Response := .httpError "client_secret tidak valid" 401

def invalidAuthCode : Response :=
  .httpError "Authorization code tidak valid, kedaluwarsa, atau sudah digunakan" 400

def invalidRefreshToken : Response :=
  .httpError "Refresh token tidak valid, kedaluwarsa, atau dicabut" 400

def unsupportedGrantType : Response := .httpError "grant_type tidak didukung" 400

/-- Handler of `/oauth/token`. -/
def tokenHandler (P : Primitives) (amb : Ambient) (db : DB) (r : TokenRequest) : Response × DB :=
  if r.parseFormError then (.httpError "Gagal mem-parsing form data" 400, db)
  else
    let grantType := r.grant_type
    let clientID := r.client_id
    let clientSecret := r.client_secret
    match getOAuthClient P amb db clientID with
    | .error _ => (invalidClientID, db)
    | .ok client =>
      if !checkPassword P clientSecret client.ClientSecretHash then (invalidClientSecret, db)
      else if grantType = "authorization_code" then
        match checkAuthCode P amb db r.code clientID r.redirect_uri with
        | none => (invalidAuthCode, db)
        | some authCode => finishAuthCodeGrant P amb db r authCode
      else if grantType = "refresh_token" then
        match checkRefreshToken P amb db r.refresh_token clientID with
        | none => (invalidRefreshToken, db)
        | some rt => finishRefreshGrant P amb db r rt
      else (unsupportedGrantType, db)

/-! ## Runs of the server -/

/-- One state-changing call: a request to one of the routes, or a call of
`revokeRefreshToken`. -/
inductive Op where
  | registerUser (amb : Ambient) (body : Option Credentials)
  | registerClient (amb : Ambient) (body : Option ClientRegistration)
  | authorize (amb : Ambient) (r : AuthorizeRequest)
  | token (amb : Ambient) (r : TokenRequest)
  | revoke (amb : Ambient) (rawToken : String)

/-- Database after one call. -/
def step (P : Primitives) (db : DB) : Op → DB
  | .registerUser amb body => (registerUserHandler P amb db body).2
  | .registerClient amb body => (registerClientHandler P amb db body).2
  | .authorize amb r => (authorizeHandler P amb db r).2
  | .token amb r => (tokenHandler P amb db r).2
  | .revoke amb rawToken =>
    match revokeRefreshToken P amb db rawToken with
    | .ok db1 => db1
    | .error _ => db

/-- Database after a sequence of calls. -/
def run (P : Primitives) (db : DB) (ops : List Op) : DB :=
  ops.foldl (step P) db

/-- Stand-ins for the library primitives, for evaluating the handlers on
concrete inputs: a hash is the secret behind a tag, a MAC is the method, key
and signed fields behind tags, a weight string is the text in lower case
(letters `A` to `Z`) without its trailing spaces. -/
def stubPrimitives : Primitives where
  bcryptCompare := fun password hash => hash = "bcrypt:" ++ password
  bcryptGenerate := fun _ password => some ("bcrypt:" ++ password)
  sha256Hex := fun s => "sha256:" ++ s
  hmac := fun method key input =>
    (match method with
      | .HS256 => "mac256:"
      | .HS384 => "mac384:"
      | .HS512 => "mac512:"
      | .other a => a) ++ key ++ ":" ++ input.1 ++ ":" ++ input.2.Email ++ ":" ++
      input.2.ClientID ++ ":" ++ toString input.2.UserID
  queryEscape := fun s => s
  parseRequestURI := fun s => s ≠ ""
  urlParse := fun s => s ≠ ""
  urlWithQuery := fun base q =>
    base ++ "?" ++ "&".intercalate (q.map (fun kv => kv.1 ++ "=" ++ kv.2))
  collate := fun s =>
    String.mk ((s.data.map Char.toLower).reverse.dropWhile (fun c => c = ' ')).reverse

/-! ## Predicates of the statements -/

/-- The request's client is registered and its secret verifies against the
stored hash: the handler passes line 585. -/
def Authenticated (P : Primitives) (amb : Ambient) (db : DB) (r : TokenRequest) : Prop :=
  ∃ client, getOAuthClient P amb db r.client_id = .ok client ∧
    checkPassword P r.client_secret client.ClientSecretHash = true

/-- The code of the request is known (the lookup `WHERE code = ?` does not
fail and finds a row, the first whose code the collation of the table takes
as equal to the submitted one), unused, not past its expiry at the clock
reading of the request, and bound to the client and the redirect URI of the
request (line 598, Go string comparisons). -/
def Redeemable (P : Primitives) (amb : Ambient) (db : DB) (r : TokenRequest) : Prop :=
  amb.faults.getAuthCode = false ∧
    ∃ a, db.oauth_auth_codes.find? (fun a => P.collate a.Code = P.collate r.code) = some a ∧
      a.Used = false ∧
      ¬ amb.nowCheck > a.ExpiresAt ∧ a.ClientID = r.client_id ∧
      a.RedirectURI = r.redirect_uri

/-- A record whose stored hash is the SHA-256 hex digest of the request's raw
refresh token is found (the lookup does not fail), is not revoked, is not
past its expiry at the clock reading of the request, and is bound to the
client of the request. -/
def RefreshValid (P : Primitives) (amb : Ambient) (db : DB) (r : TokenRequest) : Prop :=
  amb.faults.getRefreshToken = false ∧
    ∃ t, db.oauth_refresh_tokens.find? (fun t => t.Token = P.sha256Hex r.refresh_token) =
        some t ∧
      t.Revoked = false ∧ ¬ amb.nowCheck > t.ExpiresAt ∧ t.ClientID = r.client_id

/-- The response is the token JSON. -/
def Response.isToken : Response → Bool
  | .tokenJSON _ => true
  | _ => false

/-- The row found for `code` is used, or its expiry is before time `t`. -/
def CodeDead (P : Primitives) (db : DB) (code : String) (t : Nat) : Prop :=
  ∃ a, db.oauth_auth_codes.find? (fun a => P.collate a.Code = P.collate code) = some a ∧
    (a.Used = true ∨ t > a.ExpiresAt)

/-- The row found for the hash `tokenHash` is revoked. -/
def HashRevoked (db : DB) (tokenHash : String) : Prop :=
  ∃ t, db.oauth_refresh_tokens.find? (fun t => t.Token = tokenHash) = some t ∧
    t.Revoked = true

/-- How one call can change the code table: not at all, by one appended
row, or by one `UPDATE` of the used flag. -/
def CodesEvolve (P : Primitives) (xs ys : List AuthCode) : Prop :=
  ys = xs ∨ (∃ a, ys = xs ++ [a]) ∨ ∃ code, ys = xs.map (AuthCode.setUsedWhere P code)

/-- How one call can change the refresh-token table: not at all, by one
appended row, or by one `UPDATE` of the revoked flag. -/
def TokensEvolve (xs ys : List RefreshToken) : Prop :=
  ys = xs ∨ (∃ t, ys = xs ++ [t]) ∨ ∃ h, ys = xs.map (RefreshToken.setRevokedWhere h)

/-! ## Sample data -/

/-- A call with no failure, with clock reading `now` throughout. -/
def sampleAmbient (now : Nat) : Ambient :=
  { faults := {}, rand := { fails := false, byte := fun i => Fin.ofNat i },
    uuid := "7c9e6679-7425-40de-944b-e07fc1f90ae7", salt := 0,
    nowCheck := now, nowExp := now, nowIat := now, nowStore := now }

/-- An unused code issued at time 1000. -/
def sampleCode : AuthCode :=
  { ID := 1, Code := "code-1", ClientID := "app", UserID := 1,
    RedirectURI := "https://app.example/cb", Scopes := "read,write",
    ExpiresAt := 1600, Used := false }

/-- The record of the raw refresh token `rt-1`, issued at time 1000. -/
def sampleRefreshToken : RefreshToken :=
  { ID := 1, Token := "sha256:rt-1", UserID := 1, ClientID := "app",
    Scopes := "read,write", ExpiresAt := 605800, Revoked := false }

/-- One user, one client with one redirect URI, one code and one refresh
token. -/
def sampleDB : DB :=
  { user := [{ ID := 1, Email := "user@example.com", Password := "bcrypt:password123" }],
    oauth_clients :=
      [{ ID := 1, ClientID := "app", ClientSecretHash := "bcrypt:s3cret", ClientName := "App",
         RedirectURIs := ["https://app.example/cb"] }],
    oauth_auth_codes := [sampleCode],
    oauth_refresh_tokens := [sampleRefreshToken] }

/-- The exchange of `code-1` by its client with the redirect URI of issuance. -/
def sampleCodeRequest : TokenRequest :=
  { parseFormError := false, grant_type := "authorization_code", client_id := "app",
    client_secret := "s3cret", code := "code-1", redirect_uri := "https://app.example/cb",
    refresh_token := "" }

/-- The exchange of the refresh token `rt-1` by its client. -/
def sampleRefreshRequest : TokenRequest :=
  { parseFormError := false, grant_type := "refresh_token", client_id := "app",
    client_secret := "s3cret", code := "", redirect_uri := "", refresh_token := "rt-1" }

/-- A later login of the same user and a later refresh between the two
exchanges of `code-1`. -/
def sampleOpsBetween : List Op :=
  [.authorize (sampleAmbient 1250)
      { Method := "POST", client_id := "app", response_type := "code",
        redirect_uri := "https://app.example/cb", scope := "read", state := "xyz",
        error := "", email := "user@example.com", password := "password123" },
   .token (sampleAmbient 1260) sampleRefreshRequest]

/-- A call with no failure whose random bytes differ from those of
`sampleAmbient`. -/
def otherAmbient (now : Nat) : Ambient :=
  { sampleAmbient now with rand := { fails := false, byte := fun i => Fin.ofNat (i + 100) } }

/-- The exchange of `code-1` with a redirect URI other than that of issuance. -/
def wrongRedirectRequest : TokenRequest :=
  { sampleCodeRequest with redirect_uri := "https://evil.example/cb" }

/-- A login form submitted with the credentials of the sample user, the
registered client `app` and a redirect URI that is not registered for it. -/
def unregisteredRedirectLogin : AuthorizeRequest :=
  { Method := "POST", client_id := "app", response_type := "code",
    redirect_uri := "https://evil.example/cb", scope := "read", state := "xyz",
    error := "", email := "user@example.com", password := "password123" }

/-- Claims of user 1 for client `app`, expiring at time 5000. -/
def sampleClaims : JWTClaims :=
  { UserID := 1, Email := "user@example.com", ClientID := "app", Scopes := ["read"],
    Registered := { Issuer := tokenIssuer, Subject := "1", ExpiresAt := some 5000,
                    NotBefore := none, IssuedAt := some 1000 } }

/-- Two token requests served concurrently, in the schedule where both
handlers have run the lookup and test of lines 596 to 601 before either runs
the update of line 603 and the rest: the two responses and the final database;
`none` when one of the two tests rejects. -/
def bothTestThenBothFinish (P : Primitives) (amb1 amb2 : Ambient) (db : DB)
    (r1 r2 : TokenRequest) : Option (Response × Response × DB) :=
  match checkAuthCode P amb1 db r1.code r1.client_id r1.redirect_uri,
      checkAuthCode P amb2 db r2.code r2.client_id r2.redirect_uri with
  | some a1, some a2 =>
    let out1 := finishAuthCodeGrant P amb1 db r1 a1
    let out2 := finishAuthCodeGrant P amb2 out1.2 r2 a2
    some (out1.1, out2.1, out2.2)
  | _, _ => none

/-- Status line of a response; `none` when the handler died before writing. -/
def Response.status : Response → Option Nat
  | .httpError _ code => some code
  | .tokenJSON _ => some 200
  | .createdJSON _ => some 201
  | .loginPage _ => some 200
  | .redirect _ code => some code
  | .nilDereference => none
  | .nothing => some 200

/-- The response is the login form. -/
def Response.isLoginPage : Response → Bool
  | .loginPage _ => true
  | _ => false

/-- The parameters of a GET authorize request pass every test of lines 478
to 503: `client_id`, `response_type` and `redirect_uri` are present,
`response_type` is `code`, the client lookup `WHERE client_id = ?` does not
fail and finds a client (the first whose id the collation of the table takes
as equal to the submitted one), and `redirect_uri` is one of the redirect
URIs of that client (a Go string comparison). -/
def AuthorizeValid (P : Primitives) (amb : Ambient) (db : DB) (r : AuthorizeRequest) :
    Prop :=
  r.client_id ≠ "" ∧ r.response_type ≠ "" ∧ r.redirect_uri ≠ "" ∧ r.response_type = "code" ∧
    amb.faults.getOAuthClient = false ∧
    ∃ c, db.oauth_clients.find? (fun c => P.collate c.ClientID = P.collate r.client_id) = some c ∧
      r.redirect_uri ∈ c.RedirectURIs

/-- The login of a form submission fails: the user lookup fails or finds no
user for the email, or the password does not verify against the stored hash. -/
def LoginFails (P : Primitives) (amb : Ambient) (db : DB) (r : AuthorizeRequest) : Prop :=
  ∀ u, getUserByEmail P amb db r.email = .ok u → checkPassword P r.password u.Password = false

/-- The exchange of `code-1` by a client id that is not registered. -/
def unknownClientRequest : TokenRequest :=
  { sampleCodeRequest with client_id := "nobody" }

/-- The exchange of `code-1` by its client with a wrong secret. -/
def wrongSecretRequest : TokenRequest :=
  { sampleCodeRequest with client_secret := "guess" }

/-- A request of the sample client with a grant type the server does not
support. -/
def passwordGrantRequest : TokenRequest :=
  { sampleCodeRequest with grant_type := "password" }

/-- A call at time `now` in which the named lookups fail because the
database is unreachable. -/
def lookupDownAmbient (now : Nat) (client code refresh : Bool) : Ambient :=
  { sampleAmbient now with
    faults := { getOAuthClient := client, getAuthCode := code, getRefreshToken := refresh } }

/-- A call at time `now` in which the update of the used flag fails. -/
def updateDownAmbient (now : Nat) : Ambient :=
  { sampleAmbient now with faults := { markAuthCodeAsUsed := true } }

/-- The authorize request of the sample client with its registered redirect
URI. -/
def sampleAuthorizeGet : AuthorizeRequest :=
  { Method := "GET", client_id := "app", response_type := "code",
    redirect_uri := "https://app.example/cb", scope := "read", state := "xyz",
    error := "", email := "", password := "" }

/-- A login form submitted for an email that has no user, whose `client_id`
field contains an ampersand. -/
def ampersandLogin : AuthorizeRequest :=
  { Method := "POST", client_id := "app&state=forged", response_type := "code",
    redirect_uri := "https://app.example/cb", scope := "read", state := "xyz",
    error := "", email := "nobody@example.com", password := "password123" }

/-! ## Library `encoding/base64` -/

/-- Alphabet of `base64.StdEncoding`. -/
def encodeStd : List Char :=
  "ABCDEFGHIJKLMNOPQRSTUVWXYZabcdefghijklmnopqrstuvwxyz0123456789+/".data

/-- Padded encoding `Encoding.EncodeToString` of the encoding with the given
alphabet. -/
def encodeWith (alphabet : List Char) : List (Fin 256) → List Char
  | [] => []
  | [a] => [alphabet.getD (a.val / 4) '=', alphabet.getD (a.val % 4 * 16) '=', '=', '=']
  | [a, b] =>
      [alphabet.getD (a.val / 4) '=', alphabet.getD (a.val % 4 * 16 + b.val / 16) '=',
       alphabet.getD (b.val % 16 * 4) '=', '=']
  | a :: b :: c :: rest =>
      alphabet.getD (a.val / 4) '=' :: alphabet.getD (a.val % 4 * 16 + b.val / 16) '=' ::
        alphabet.getD (b.val % 16 * 4 + c.val / 64) '=' :: alphabet.getD (c.val % 64) '=' ::
        encodeWith alphabet rest

/-- The table `decodeMap` of an encoding: the six-bit value of a character of
its alphabet, `none` for every other character. -/
def decodeMap : List Char → Char → Option Nat
  | [], _ => none
  | a :: rest, c => if c = a then some 0 else (decodeMap rest c).map (fun n => n + 1)

/-- The quanta of `Encoding.Decode` for a padded encoding, on input without
line breaks: four characters of the alphabet give three bytes; the last
quantum may end in one or two padding characters and gives two bytes or one;
anything else, and anything after padding, is a `CorruptInputError`.  Bits of
the last character that belong to no byte are dropped (the encoding is not
strict). -/
def decodeQuanta (alphabet : List Char) : List Char → Option (List (Fin 256))
  | [] => some []
  | a :: b :: c :: d :: rest =>
    match decodeMap alphabet a, decodeMap alphabet b with
    | some x, some y =>
      if c = '=' then
        if d = '=' ∧ rest = [] then some [Fin.ofNat (x * 4 + y / 16)] else none
      else
        match decodeMap alphabet c with
        | none => none
        | some z =>
          if d = '=' then
            if rest = [] then
              some [Fin.ofNat (x * 4 + y / 16), Fin.ofNat (y % 16 * 16 + z / 4)]
            else none
          else
            match decodeMap alphabet d with
            | none => none
            | some w =>
              (decodeQuanta alphabet rest).map (fun l =>
                Fin.ofNat (x * 4 + y / 16) :: Fin.ofNat (y % 16 * 16 + z / 4) ::
                  Fin.ofNat (z % 4 * 64 + w) :: l)
    | _, _ => none
  | _ => none

/-- Decoding `Encoding.DecodeString` of a padded encoding: carriage returns
and line feeds are skipped wherever they stand. -/
def DecodeString (alphabet : List Char) (s : List Char) : Option (List (Fin 256)) :=
  decodeQuanta alphabet (s.filter (fun c => c ≠ '\n' ∧ c ≠ '\r'))

/-- The bytes of a Go string that holds the given text (UTF-8). -/
def goBytes (s : List Char) : List (Fin 256) :=
  (s.flatMap String.utf8EncodeChar).map (fun b => Fin.ofNat b.toNat)

/-- An alphabet of 64 characters, none of them the padding character or a
line break, whose table `decodeMap` inverts it. -/
def GoodAlphabet (alphabet : List Char) : Prop :=
  ∀ n, n < 64 → decodeMap alphabet (alphabet.getD n '=') = some n ∧
    alphabet.getD n '=' ≠ '=' ∧ alphabet.getD n '=' ≠ '\n' ∧ alphabet.getD n '=' ≠ '\r'

/-! ## Library `net/url`: which strings parse -/

inductive URLError where
  | invalidControlCharacter
  | emptyURL
  | missingProtocolScheme
  | invalidURIForRequest
  | colonInFirstPathSegment
  | invalidAuthority
  | invalidEscape
  deriving DecidableEq, Repr

/-- Function `stringContainsCTLByte`.  The tests of this library are on
bytes; every byte of a character outside ASCII is at least 0x80 and falls in
the same case of each test as the character does here. -/
def stringContainsCTLByte (s : List Char) : Bool :=
  s.any (fun b => b.toNat < 0x20 || b.toNat == 0x7f)

/-- The loop of `getScheme` from index `i`, on what is left of `rawURL`. -/
def getSchemeFrom (rawURL : List Char) : Nat → List Char → Except URLError (List Char × List Char)
  | _, [] => .ok ([], rawURL)
  | i, c :: cs =>
    if c.isAlpha then getSchemeFrom rawURL (i + 1) cs
    else if c.isDigit ∨ c = '+' ∨ c = '-' ∨ c = '.' then
      if i = 0 then .ok ([], rawURL) else getSchemeFrom rawURL (i + 1) cs
    else if c = ':' then
      if i = 0 then .error .missingProtocolScheme else .ok (rawURL.take i, cs)
    else .ok ([], rawURL)

/-- Function `getScheme`: the scheme and the rest after its colon. -/
def getScheme (rawURL : List Char) : Except URLError (List Char × List Char) :=
  getSchemeFrom rawURL 0 rawURL

def ishex (c : Char) : Bool :=
  c.isDigit || ('a' ≤ c && c ≤ 'f') || ('A' ≤ c && c ≤ 'F')

/-- Whether `unescape(s, mode)` returns no error, for the modes of a path and
of a fragment: every percent sign is followed by two hexadecimal digits. -/
def unescapeOK : List Char → Bool
  | [] => true
  | c :: rest =>
    if c = '%' then
      match rest with
      | a :: b :: rest2 => ishex a && ishex b && unescapeOK rest2
      | _ => false
    else unescapeOK rest

/-- Go `strings.Cut(s, sep)` for a one-character separator. -/
def stringsCut (s : List Char) (sep : Char) : List Char × List Char × Bool :=
  match s.span (fun c => c ≠ sep) with
  | (before, _ :: after) => (before, after, true)
  | (_, []) => (s, [], false)

/-- The checks of function `parse(rawURL, viaRequest)`: the error it
returns, if any.  The URL it builds is left out; `parseAuthority` says
whether the library function of that name accepts an authority. -/
def parse (parseAuthority : List Char → Bool) (rawURL : List Char) (viaRequest : Bool) :
    Except URLError Unit :=
  if stringContainsCTLByte rawURL then .error .invalidControlCharacter
  else if rawURL = [] ∧ viaRequest then .error .emptyURL
  else if rawURL = ['*'] then .ok ()
  else
    match getScheme rawURL with
    | .error e => .error e
    | .ok (scheme, rest) =>
      let rest : List Char :=
        if rest.getLast? = some '?' ∧ rest.count '?' = 1 then rest.dropLast
        else (stringsCut rest '?').1
      if rest.head? ≠ some '/' ∧ scheme ≠ [] then .ok ()
      else if rest.head? ≠ some '/' ∧ viaRequest then .error .invalidURIForRequest
      else if rest.head? ≠ some '/' ∧ ':' ∈ (stringsCut rest '/').1 then
        .error .colonInFirstPathSegment
      else if (scheme ≠ [] ∨ (!viaRequest ∧ rest.take 3 ≠ ['/', '/', '/'])) ∧
          rest.take 2 = ['/', '/'] then
        let authority := (stringsCut (rest.drop 2) '/').1
        let rest := (rest.drop 2).drop authority.length
        if !parseAuthority authority then .error .invalidAuthority
        else if !unescapeOK rest then .error .invalidEscape
        else .ok ()
      else if !unescapeOK rest then .error .invalidEscape
      else .ok ()

/-- Whether `url.ParseRequestURI(rawURL)` returns no error. -/
def ParseRequestURI (parseAuthority : List Char → Bool) (rawURL : String) : Bool :=
  match parse parseAuthority rawURL.data true with
  | .ok _ => true
  | .error _ => false

/-- Whether `url.Parse(rawURL)` returns no error: the fragment is cut off at
the first number sign and checked after the rest. -/
def Parse (parseAuthority : List Char → Bool) (rawURL : String) : Bool :=
  match parse parseAuthority (stringsCut rawURL.data '#').1 false with
  | .error _ => false
  | .ok _ => unescapeOK (stringsCut rawURL.data '#').2.1

/-- The stand-ins of `stubPrimitives` with the two parsers of `net/url` in
place of theirs. -/
def netURLPrimitives (parseAuthority : List Char → Bool) : Primitives :=
  { stubPrimitives with
    parseRequestURI := ParseRequestURI parseAuthority
    urlParse := Parse parseAuthority }

/-- A login form submitted with the credentials of the sample user for the
sample client and its registered redirect URI. -/
def sampleLogin : AuthorizeRequest :=
  { Method := "POST", client_id := "app", response_type := "code",
    redirect_uri := "https://app.example/cb", scope := "read", state := "xyz",
    error := "", email := "user@example.com", password := "password123" }

/-- The login form of `sampleLogin` with a redirect URI that `url.Parse`
rejects ("missing protocol scheme"). -/
def colonRedirectLogin : AuthorizeRequest :=
  { sampleLogin with redirect_uri := ":" }

/-- A registration whose only redirect URI is a bare path. -/
def barePathRegistration : ClientRegistration :=
  { ClientName := "Other", RedirectURIs := ["/cb"] }

/-- A registration whose second redirect URI is a relative path. -/
def relativePathRegistration : ClientRegistration :=
  { ClientName := "Other", RedirectURIs := ["https://other.example/cb", "cb"] }

/-- A registration whose only redirect URI is an absolute URI. -/
def absoluteRegistration : ClientRegistration :=
  { ClientName := "Other", RedirectURIs := ["https://other.example/cb"] }

/-- A call at time `now` in which the signing of the access token fails. -/
def signingDownAmbient (now : Nat) : Ambient :=
  { sampleAmbient now with faults := { signedString := true } }

/-- The sample database with the given scope string on its code. -/
def scopeDB (scopes : String) : DB :=
  { sampleDB with oauth_auth_codes := [{ sampleCode with Scopes := scopes }] }

/-- No step after the code test fails in this call: no database or library
failure, the user of the code exists, and the hash of the refresh token to
be minted is not stored yet. -/
def NoLaterFailure (P : Primitives) (amb : Ambient) (db : DB) (a : AuthCode) : Prop :=
  amb.faults.markAuthCodeAsUsed = false ∧ amb.faults.selectUserByID = false ∧
    amb.faults.signedString = false ∧ amb.rand.fails = false ∧
    amb.faults.storeRefreshToken = false ∧ (∃ u ∈ db.user, u.ID = a.UserID) ∧
    ∀ raw, generateSecureRandomString amb.rand 32 = .ok raw →
      ∀ t ∈ db.oauth_refresh_tokens, t.Token ≠ hashStringSHA256 P raw

end OAuth2

/-! # The token validator of `jwt/main.go` -/

namespace JWTDemo

open OAuth2 (RegisteredClaims SigningMethod JWTError TokenString ParseWithClaims)

def jwtSecretKey : String := "KunciRahasiaSuperKuatDanPanjangUntukJWT"

structure Claims where
  UserID : Int
  Email : String
  Registered : RegisteredClaims
  deriving DecidableEq, Repr

/-- The key function of `validateJWT`, under the comment "Pastikan metode
signing adalah yang diharapkan (HS256)". -/
def keyFunc (method : SigningMethod) : Except JWTError String :=
  if !method.isSigningMethodHMAC then .error .unverifiable
  else .ok jwtSecretKey

def validateJWT (hmac : SigningMethod → String → String × Claims → String) (now : Nat)
    (tokenString : TokenString Claims) : Except JWTError Claims :=
  match ParseWithClaims hmac Claims.Registered now tokenString keyFunc with
  | .error e => .error e
  | .ok token =>
    if !token.Valid then .error .invalid
    else .ok token.claims

/-- Claims of user 1 in the JWT demo, expiring at time 5000. -/
def sampleClaims : Claims :=
  { UserID := 1, Email := "user@example.com",
    Registered := { Issuer := "aplikasi-saya.com", Subject := "", ExpiresAt := some 5000,
                    NotBefore := none, IssuedAt := some 1000 } }

/-- Errors of `addUser`, by the text the handler looks for. -/
inductive AddUserError where
  /-- Text "error hashing password". -/
  | hashing
  /-- Text "sudah digunakan", for a driver error that says "Duplicate entry". -/
  | alreadyUsed
  /-- Text "error menambahkan pengguna", for every other driver error. -/
  | insert
  deriving DecidableEq, Repr

/-- Function `addUser` on the table `user`. -/
def addUser (P : OAuth2.Primitives) (amb : OAuth2.Ambient) (users : List OAuth2.User)
    (email password : String) : Except AddUserError (OAuth2.User × List OAuth2.User) :=
  match P.bcryptGenerate amb.salt password with
  | none => .error .hashing
  | some hashedPassword =>
    if amb.faults.createUser then .error .insert
    else if users.any (fun u => P.collate u.Email = P.collate email) then .error .alreadyUsed
    else
      let id : Int := users.length + 1
      .ok ({ ID := id, Email := email, Password := "" },
           users ++ [{ ID := id, Email := email, Password := hashedPassword }])

/-- Handler of `/register`; `none` is a body that does not decode.  The Go
expression `len(creds.Password)` is the number of bytes of the string. -/
def registerHandler (P : OAuth2.Primitives) (amb : OAuth2.Ambient) (users : List OAuth2.User)
    (body : Option OAuth2.Credentials) : OAuth2.Response × List OAuth2.User :=
  match body with
  | none => (.httpError "Request body tidak valid." 400, users)
  | some creds =>
    if creds.Email = "" ∨ creds.Password = "" then
      (.httpError "Email dan password diperlukan." 400, users)
    else if creds.Password.utf8ByteSize < 6 then
      (.httpError "Password minimal harus 6 karakter." 400, users)
    else
      match addUser P amb users creds.Email creds.Password with
      | .error e =>
        if e = .alreadyUsed then (.httpError "sudah digunakan" 409, users)
        else (.httpError "Error internal server saat registrasi." 500, users)
      | .ok (user, users1) =>
        (.createdJSON [("message", "Pengguna '" ++ user.Email ++ "' berhasil dibuat."),
                       ("user_id", toString user.ID), ("email", user.Email)], users1)

/-- The answer of `registerHandler` to a password that fails the length check. -/
def passwordTooShort : OAuth2.Response := .httpError "Password minimal harus 6 karakter." 400

end JWTDemo

/-! # The key generator of `api-keys/main.go` -/

namespace APIKeys

open OAuth2 (RandSource GoError EncodeToString goBytes)

def apiKeyPrefixLength : Nat := 8

/-- Function `generateAPIKey(prefix, length)`.  A Go string is its sequence of
bytes here, since `len` and the slice expression of the source count bytes. -/
def generateAPIKey (rand : RandSource) (keyPrefix : List (Fin 256)) (length : Int) :
    Except GoError (List (Fin 256) × List (Fin 256)) :=
  let length : Int := if length ≤ 0 then 32 else length
  if rand.fails then .error .rand
  else
    let randomBytes := (List.range length.toNat).map rand.byte
    let apiKey := keyPrefix ++ goBytes ['_'] ++ goBytes (EncodeToString randomBytes)
    let keyPrefixForDB :=
      if apiKey.length > apiKeyPrefixLength then apiKey.take apiKeyPrefixLength else apiKey
    .ok (apiKey, keyPrefixForDB)

end APIKeys

/-! # The credential parser of `basic-auth/main.go` -/

namespace BasicAuth

open OAuth2 (DecodeString encodeStd encodeWith goBytes)

/-- What the middleware does with a request: an `http.Error`, with or without
the header `WWW-Authenticate`, or the call of the next handler. -/
inductive Response where
  | httpError (wwwAuthenticate : Bool) (body : String) (code : Nat)
  | next
  deriving DecidableEq, Repr

/-- Go `strings.SplitN(s, sep, 2)` for a separator of one element. -/
def stringsSplitN2 {α : Type} [DecidableEq α] (s : List α) (sep : α) : List (List α) :=
  match s.span (fun c => c ≠ sep) with
  | (before, _ :: after) => [before, after]
  | (_, []) => [s]

/-- Go `strings.ToLower`: on ASCII the letters `A` to `Z` are mapped; outside
ASCII the mapping is the table `unicode.ToLower`, a parameter. -/
def stringsToLower (unicodeToLower : Char → Char) (s : List Char) : List Char :=
  s.map (fun c => if c.toNat < 128 then c.toLower else unicodeToLower c)

def headerMissing : Response := .httpError true "Header otorisasi tidak ditemukan." 401

def invalidType : Response :=
  .httpError true "Tipe otorisasi tidak valid. Harap gunakan Basic Auth." 401

def invalidBase64 : Response :=
  .httpError false "Format kredensial tidak valid (base64 decode error)." 400

def missingCredentials : Response :=
  .httpError false "email atau password tidak ada dalam kredensial." 400

def userNotFound : Response :=
  .httpError true "Kredensial tidak valid (pengguna tidak ditemukan)." 401

def wrongPassword : Response :=
  .httpError true "Kredensial tidak valid (password salah)." 401

/-- Function `basicAuthMiddleware`, from the value of the header
`Authorization` to the response written or the call of the next handler.
The decoded payload and its two parts, `email` and `password`, are sequences
of bytes.  `findUserByemail` gives the stored password hash of the user with
an email, `none` when the lookup returns an error; `verifyPassword` is the
bcrypt comparison. -/
def basicAuthMiddleware (unicodeToLower : Char → Char)
    (findUserByemail : List (Fin 256) → Option String)
    (verifyPassword : List (Fin 256) → String → Bool) (authHeader : String) : Response :=
  if authHeader = "" then headerMissing
  else
    let parts := stringsSplitN2 authHeader.data ' '
    if parts.length ≠ 2 ∨ stringsToLower unicodeToLower (parts.getD 0 []) ≠ "basic".data then
      invalidType
    else
      match DecodeString encodeStd (parts.getD 1 []) with
      | none => invalidBase64
      | some payload =>
        let pair := stringsSplitN2 payload (58 : Fin 256)
        if pair.length ≠ 2 ∨ pair.getD 0 [] = [] ∨ pair.getD 1 [] = [] then
          missingCredentials
        else
          let email := pair.getD 0 []
          let password := pair.getD 1 []
          match findUserByemail email with
          | none => userNotFound
          | some hash => if !verifyPassword password hash then wrongPassword else .next

/-- The header a client sends for an email and a password: the scheme word, a
space, and the padded standard base64 encoding of `email:password`. -/
def basicHeader (scheme : String) (email password : List (Fin 256)) : String :=
  scheme ++ " " ++ String.mk (encodeWith encodeStd (email ++ [58] ++ password))

/-- A user table with the one user `user@example.com`. -/
def sampleFindUser (email : List (Fin 256)) : Option String :=
  if email = goBytes "user@example.com".data then some "bcrypt:pass:word" else none

/-- A password verifies against the hash that is `bcrypt:` followed by it. -/
def sampleVerifyPassword (password : List (Fin 256)) (hash : String) : Bool :=
  goBytes hash.data = goBytes "bcrypt:".data ++ password

end BasicAuth

/-! # Theorems -/

namespace OAuth2

/-! ## Effect of the database functions on the tables -/

theorem storeRefreshToken_ok {P : Primitives} {amb : Ambient} {db db1 : DB} {raw : String}
    {uid : Int} {cid sc : String} (h : storeRefreshToken P amb db raw uid cid sc = .ok db1) :
    db1.oauth_auth_codes = db.oauth_auth_codes ∧
      ∃ t, db1.oauth_refresh_tokens = db.oauth_refresh_tokens ++ [t] := by
  unfold storeRefreshToken at h
  simp only [] at h
  split_ifs at h
  cases h
  exact ⟨rfl, _, rfl⟩

theorem storeAuthCode_ok {P : Primitives} {amb : Ambient} {db db1 : DB} {code cid : String}
    {uid : Int}
    {uri sc : String} (h : storeAuthCode P amb db code cid uid uri sc = .ok db1) :
    db1.oauth_refresh_tokens = db.oauth_refresh_tokens ∧
      ∃ a, db1.oauth_auth_codes = db.oauth_auth_codes ++ [a] := by
  unfold storeAuthCode at h
  simp only [] at h
  split_ifs at h
  cases h
  exact ⟨rfl, _, rfl⟩

theorem markAuthCodeAsUsed_ok {P : Primitives} {amb : Ambient} {db db1 : DB} {code : String}
    (h : markAuthCodeAsUsed P amb db code = .ok db1) :
    db1.oauth_refresh_tokens = db.oauth_refresh_tokens ∧
      db1.oauth_auth_codes = db.oauth_auth_codes.map (AuthCode.setUsedWhere P code) := by
  unfold markAuthCodeAsUsed at h
  split_ifs at h
  cases h
  exact ⟨rfl, rfl⟩

theorem revokeRefreshToken_ok {P : Primitives} {amb : Ambient} {db db1 : DB} {raw : String}
    (h : revokeRefreshToken P amb db raw = .ok db1) :
    db1.oauth_auth_codes = db.oauth_auth_codes ∧
      db1.oauth_refresh_tokens =
        db.oauth_refresh_tokens.map (RefreshToken.setRevokedWhere (hashStringSHA256 P raw)) := by
  unfold revokeRefreshToken at h
  simp only [] at h
  split_ifs at h
  cases h
  exact ⟨rfl, rfl⟩

theorem createUser_ok {P : Primitives} {amb : Ambient} {db db1 : DB} {email pw : String}
    {u : User} (h : createUser P amb db email pw = .ok (u, db1)) :
    db1.oauth_auth_codes = db.oauth_auth_codes ∧
      db1.oauth_refresh_tokens = db.oauth_refresh_tokens := by
  unfold createUser at h
  split at h
  · cases h
  · split_ifs at h
    simp only [Except.ok.injEq, Prod.mk.injEq] at h
    obtain ⟨-, rfl⟩ := h
    exact ⟨rfl, rfl⟩

theorem createOAuthClient_ok {P : Primitives} {amb : Ambient} {db db1 : DB} {name : String}
    {uris : List String} {c : OAuthClient} {sec : String}
    (h : createOAuthClient P amb db name uris = .ok (c, sec, db1)) :
    db1.oauth_auth_codes = db.oauth_auth_codes ∧
      db1.oauth_refresh_tokens = db.oauth_refresh_tokens := by
  unfold createOAuthClient at h
  simp only [] at h
  split at h
  · cases h
  · split at h
    · cases h
    · split_ifs at h <;>
      · simp only [Except.ok.injEq, Prod.mk.injEq] at h
        obtain ⟨-, -, rfl⟩ := h
        exact ⟨rfl, rfl⟩

/-! ## Effect of the handlers on the tables -/

theorem registerUserHandler_tables (P : Primitives) (amb : Ambient) (db : DB)
    (body : Option Credentials) :
    (registerUserHandler P amb db body).2.oauth_auth_codes = db.oauth_auth_codes ∧
      (registerUserHandler P amb db body).2.oauth_refresh_tokens = db.oauth_refresh_tokens := by
  unfold registerUserHandler
  split
  · exact ⟨rfl, rfl⟩
  · split_ifs
    · exact ⟨rfl, rfl⟩
    · split
      · split_ifs <;> exact ⟨rfl, rfl⟩
      · rename_i h
        exact createUser_ok h

theorem registerClientHandler_tables (P : Primitives) (amb : Ambient) (db : DB)
    (body : Option ClientRegistration) :
    (registerClientHandler P amb db body).2.oauth_auth_codes = db.oauth_auth_codes ∧
      (registerClientHandler P amb db body).2.oauth_refresh_tokens =
        db.oauth_refresh_tokens := by
  unfold registerClientHandler
  split
  · exact ⟨rfl, rfl⟩
  · split_ifs
    · exact ⟨rfl, rfl⟩
    · exact ⟨rfl, rfl⟩
    · split
      · exact ⟨rfl, rfl⟩
      · rename_i h
        exact createOAuthClient_ok h

theorem authorizeHandler_tables (P : Primitives) (amb : Ambient) (db : DB)
    (r : AuthorizeRequest) :
    (authorizeHandler P amb db r).2.oauth_refresh_tokens = db.oauth_refresh_tokens ∧
      ((authorizeHandler P amb db r).2.oauth_auth_codes = db.oauth_auth_codes ∨
        ∃ a, (authorizeHandler P amb db r).2.oauth_auth_codes = db.oauth_auth_codes ++ [a]) := by
  unfold authorizeHandler
  simp only []
  split
  · split
    · exact ⟨rfl, Or.inl rfl⟩
    · split
      · exact ⟨rfl, Or.inl rfl⟩
      · split
        · exact ⟨rfl, Or.inl rfl⟩
        · split <;> exact ⟨rfl, Or.inl rfl⟩
  · split
    · split
      · exact ⟨rfl, Or.inl rfl⟩
      · split
        · exact ⟨rfl, Or.inl rfl⟩
        · split
          · exact ⟨rfl, Or.inl rfl⟩
          · split
            · exact ⟨rfl, Or.inl rfl⟩
            · rename_i h
              obtain ⟨h1, a, h2⟩ := storeAuthCode_ok h
              split <;> exact ⟨h1, Or.inr ⟨a, h2⟩⟩
    · exact ⟨rfl, Or.inl rfl⟩

theorem issueTokens_tables (P : Primitives) (amb : Ambient) (db : DB) (g cid : String)
    (u : User) (sc : List String) :
    (issueTokens P amb db g cid u sc).2.oauth_auth_codes = db.oauth_auth_codes ∧
      ((issueTokens P amb db g cid u sc).2.oauth_refresh_tokens = db.oauth_refresh_tokens ∨
        ∃ t, (issueTokens P amb db g cid u sc).2.oauth_refresh_tokens =
          db.oauth_refresh_tokens ++ [t]) := by
  unfold issueTokens
  split
  · exact ⟨rfl, Or.inl rfl⟩
  · simp only []
    split_ifs
    · split
      · exact ⟨rfl, Or.inl rfl⟩
      · split
        · exact ⟨rfl, Or.inl rfl⟩
        · rename_i h
          obtain ⟨h1, t, h2⟩ := storeRefreshToken_ok h
          exact ⟨h1, Or.inr ⟨t, h2⟩⟩
    · exact ⟨rfl, Or.inl rfl⟩

theorem finishAuthCodeGrant_tables (P : Primitives) (amb : Ambient) (db : DB)
    (r : TokenRequest) (a : AuthCode) :
    ((finishAuthCodeGrant P amb db r a).2.oauth_auth_codes = db.oauth_auth_codes ∨
      (finishAuthCodeGrant P amb db r a).2.oauth_auth_codes =
        db.oauth_auth_codes.map (AuthCode.setUsedWhere P r.code)) ∧
      ((finishAuthCodeGrant P amb db r a).2.oauth_refresh_tokens = db.oauth_refresh_tokens ∨
        ∃ t, (finishAuthCodeGrant P amb db r a).2.oauth_refresh_tokens =
          db.oauth_refresh_tokens ++ [t]) := by
  unfold finishAuthCodeGrant
  split
  · exact ⟨Or.inl rfl, Or.inl rfl⟩
  · rename_i db1 h
    obtain ⟨h1, h2⟩ := markAuthCodeAsUsed_ok h
    split
    · exact ⟨Or.inr h2, Or.inl h1⟩
    · simp only []
      obtain ⟨h3, h4⟩ := issueTokens_tables P amb db1 r.grant_type r.client_id ‹User›
        (stringsSplit a.Scopes ',')
      refine ⟨Or.inr (h3.trans h2), ?_⟩
      rw [← h1]
      exact h4

theorem getOAuthClient_ok {P : Primitives} {amb : Ambient} {db : DB} {id : String}
    {c : OAuthClient}
    (h : getOAuthClient P amb db id = .ok c) :
    amb.faults.getOAuthClient = false ∧
      db.oauth_clients.find? (fun c => P.collate c.ClientID = P.collate id) = some c := by
  unfold getOAuthClient at h
  split at h
  · cases h
  · rename_i hf
    split at h
    · rename_i c1 hc1
      cases h
      exact ⟨by simpa using hf, hc1⟩
    · cases h

theorem tokenHandler_client_error {P : Primitives} {amb : Ambient} {db : DB} {r : TokenRequest}
    {e : GoError} (hp : r.parseFormError = false)
    (he : getOAuthClient P amb db r.client_id = .error e) :
    tokenHandler P amb db r = (invalidClientID, db) := by
  simp [tokenHandler, hp, he]

theorem tokenHandler_secret_error {P : Primitives} {amb : Ambient} {db : DB} {r : TokenRequest}
    {c : OAuthClient} (hp : r.parseFormError = false)
    (hc : getOAuthClient P amb db r.client_id = .ok c)
    (hs : checkPassword P r.client_secret c.ClientSecretHash = false) :
    tokenHandler P amb db r = (invalidClientSecret, db) := by
  simp [tokenHandler, hp, hc, hs]

theorem tokenHandler_code_none {P : Primitives} {amb : Ambient} {db : DB}
    {r : TokenRequest} (hp : r.parseFormError = false) (ha : Authenticated P amb db r)
    (hg : r.grant_type = "authorization_code")
    (h : checkAuthCode P amb db r.code r.client_id r.redirect_uri = none) :
    tokenHandler P amb db r = (invalidAuthCode, db) := by
  obtain ⟨c, hc, hs⟩ := ha
  simp [tokenHandler, hp, hc, hs, hg, h]

theorem tokenHandler_code_some {P : Primitives} {amb : Ambient} {db : DB}
    {r : TokenRequest} {a : AuthCode} (hp : r.parseFormError = false)
    (ha : Authenticated P amb db r) (hg : r.grant_type = "authorization_code")
    (h : checkAuthCode P amb db r.code r.client_id r.redirect_uri = some a) :
    tokenHandler P amb db r = finishAuthCodeGrant P amb db r a := by
  obtain ⟨c, hc, hs⟩ := ha
  simp [tokenHandler, hp, hc, hs, hg, h]

theorem tokenHandler_refresh_none {P : Primitives} {amb : Ambient} {db : DB}
    {r : TokenRequest} (hp : r.parseFormError = false) (ha : Authenticated P amb db r)
    (hg : r.grant_type = "refresh_token")
    (h : checkRefreshToken P amb db r.refresh_token r.client_id = none) :
    tokenHandler P amb db r = (invalidRefreshToken, db) := by
  obtain ⟨c, hc, hs⟩ := ha
  simp [tokenHandler, hp, hc, hs, hg, h]

/-! ## The branches of the token handler -/

theorem tokenHandler_parse_error {P : Primitives} {amb : Ambient} {db : DB} {r : TokenRequest}
    (hp : r.parseFormError = true) :
    tokenHandler P amb db r = (.httpError "Gagal mem-parsing form data" 400, db) := by
  simp [tokenHandler, hp]

theorem tokenHandler_refresh_some {P : Primitives} {amb : Ambient} {db : DB}
    {r : TokenRequest} {t : RefreshToken} (hp : r.parseFormError = false)
    (ha : Authenticated P amb db r) (hg : r.grant_type = "refresh_token")
    (h : checkRefreshToken P amb db r.refresh_token r.client_id = some t) :
    tokenHandler P amb db r = finishRefreshGrant P amb db r t := by
  obtain ⟨c, hc, hs⟩ := ha
  simp [tokenHandler, hp, hc, hs, hg, h]

theorem tokenHandler_unsupported {P : Primitives} {amb : Ambient} {db : DB}
    {r : TokenRequest} (hp : r.parseFormError = false) (ha : Authenticated P amb db r)
    (h1 : r.grant_type ≠ "authorization_code") (h2 : r.grant_type ≠ "refresh_token") :
    tokenHandler P amb db r = (unsupportedGrantType, db) := by
  obtain ⟨c, hc, hs⟩ := ha
  simp [tokenHandler, hp, hc, hs, h1, h2]

/-- Either the request is rejected before the grant is looked at, or its
client is authenticated. -/
theorem tokenHandler_early (P : Primitives) (amb : Ambient) (db : DB) (r : TokenRequest) :
    (r.parseFormError = true ∧
        tokenHandler P amb db r = (.httpError "Gagal mem-parsing form data" 400, db)) ∨
      (r.parseFormError = false ∧ ¬ Authenticated P amb db r ∧
        (tokenHandler P amb db r = (invalidClientID, db) ∨
          tokenHandler P amb db r = (invalidClientSecret, db))) ∨
      (r.parseFormError = false ∧ Authenticated P amb db r) := by
  cases hp : r.parseFormError with
  | true => exact Or.inl ⟨rfl, tokenHandler_parse_error hp⟩
  | false =>
    right
    cases hget : getOAuthClient P amb db r.client_id with
    | error e =>
      refine Or.inl ⟨rfl, ?_, Or.inl (tokenHandler_client_error hp hget)⟩
      rintro ⟨c, hc, -⟩
      rw [hget] at hc
      cases hc
    | ok c =>
      cases hs : checkPassword P r.client_secret c.ClientSecretHash with
      | false =>
        refine Or.inl ⟨rfl, ?_, Or.inr (tokenHandler_secret_error hp hget hs)⟩
        rintro ⟨c1, hc1, hs1⟩
        rw [hget] at hc1
        cases hc1
        rw [hs] at hs1
        cases hs1
      | true => exact Or.inr ⟨rfl, c, hget, hs⟩

/-- The outcomes of the token handler: one of the six rejections with the
database unchanged, or the continuation of one of the two grants. -/
theorem tokenHandler_outcomes (P : Primitives) (amb : Ambient) (db : DB) (r : TokenRequest) :
    (tokenHandler P amb db r).2 = db ∧ (tokenHandler P amb db r).1.isToken = false ∨
      (∃ a, r.grant_type = "authorization_code" ∧
        checkAuthCode P amb db r.code r.client_id r.redirect_uri = some a ∧
        tokenHandler P amb db r = finishAuthCodeGrant P amb db r a) ∨
      ∃ t, r.grant_type = "refresh_token" ∧
        checkRefreshToken P amb db r.refresh_token r.client_id = some t ∧
        tokenHandler P amb db r = finishRefreshGrant P amb db r t := by
  rcases tokenHandler_early P amb db r with ⟨-, h⟩ | ⟨-, -, h | h⟩ | ⟨hp, ha⟩
  · rw [h]; exact Or.inl ⟨rfl, rfl⟩
  · rw [h]; exact Or.inl ⟨rfl, rfl⟩
  · rw [h]; exact Or.inl ⟨rfl, rfl⟩
  · by_cases h1 : r.grant_type = "authorization_code"
    · cases hc : checkAuthCode P amb db r.code r.client_id r.redirect_uri with
      | none =>
        rw [tokenHandler_code_none hp ha h1 hc]
        exact Or.inl ⟨rfl, rfl⟩
      | some a => exact Or.inr (Or.inl ⟨a, h1, rfl, tokenHandler_code_some hp ha h1 hc⟩)
    · by_cases h2 : r.grant_type = "refresh_token"
      · cases hc : checkRefreshToken P amb db r.refresh_token r.client_id with
        | none =>
          rw [tokenHandler_refresh_none hp ha h2 hc]
          exact Or.inl ⟨rfl, rfl⟩
        | some t => exact Or.inr (Or.inr ⟨t, h2, rfl, tokenHandler_refresh_some hp ha h2 hc⟩)
      · rw [tokenHandler_unsupported hp ha h1 h2]
        exact Or.inl ⟨rfl, rfl⟩

theorem finishRefreshGrant_tables (P : Primitives) (amb : Ambient) (db : DB)
    (r : TokenRequest) (t : RefreshToken) (hg : r.grant_type = "refresh_token") :
    (finishRefreshGrant P amb db r t).2 = db := by
  have hne : ¬ ("refresh_token" = "authorization_code") := by decide
  unfold finishRefreshGrant
  split
  · rfl
  · simp only [hg]
    unfold issueTokens
    split
    · rfl
    · simp only [if_neg hne]

theorem tokenHandler_tables (P : Primitives) (amb : Ambient) (db : DB) (r : TokenRequest) :
    ((tokenHandler P amb db r).2.oauth_auth_codes = db.oauth_auth_codes ∨
      (tokenHandler P amb db r).2.oauth_auth_codes =
        db.oauth_auth_codes.map (AuthCode.setUsedWhere P r.code)) ∧
      ((tokenHandler P amb db r).2.oauth_refresh_tokens = db.oauth_refresh_tokens ∨
        ∃ t, (tokenHandler P amb db r).2.oauth_refresh_tokens =
          db.oauth_refresh_tokens ++ [t]) := by
  rcases tokenHandler_outcomes P amb db r with ⟨h, -⟩ | ⟨a, -, -, h⟩ | ⟨t, hg, -, h⟩
  · rw [h]; exact ⟨Or.inl rfl, Or.inl rfl⟩
  · rw [h]; exact finishAuthCodeGrant_tables P amb db r a
  · rw [h, finishRefreshGrant_tables P amb db r t hg]
    exact ⟨Or.inl rfl, Or.inl rfl⟩

theorem step_codes (P : Primitives) (db : DB) (op : Op) :
    CodesEvolve P db.oauth_auth_codes (step P db op).oauth_auth_codes := by
  cases op with
  | registerUser amb body => exact Or.inl (registerUserHandler_tables P amb db body).1
  | registerClient amb body => exact Or.inl (registerClientHandler_tables P amb db body).1
  | authorize amb r =>
    rcases (authorizeHandler_tables P amb db r).2 with h | h
    · exact Or.inl h
    · exact Or.inr (Or.inl h)
  | token amb r =>
    rcases (tokenHandler_tables P amb db r).1 with h | h
    · exact Or.inl h
    · exact Or.inr (Or.inr ⟨_, h⟩)
  | revoke amb raw =>
    show CodesEvolve P _ (match revokeRefreshToken P amb db raw with
      | .ok db1 => db1
      | .error _ => db).oauth_auth_codes
    split
    · rename_i h
      exact Or.inl (revokeRefreshToken_ok h).1
    · exact Or.inl rfl

theorem step_tokens (P : Primitives) (db : DB) (op : Op) :
    TokensEvolve db.oauth_refresh_tokens (step P db op).oauth_refresh_tokens := by
  cases op with
  | registerUser amb body => exact Or.inl (registerUserHandler_tables P amb db body).2
  | registerClient amb body => exact Or.inl (registerClientHandler_tables P amb db body).2
  | authorize amb r => exact Or.inl (authorizeHandler_tables P amb db r).1
  | token amb r =>
    rcases (tokenHandler_tables P amb db r).2 with h | h
    · exact Or.inl h
    · exact Or.inr (Or.inl h)
  | revoke amb raw =>
    show TokensEvolve _ (match revokeRefreshToken P amb db raw with
      | .ok db1 => db1
      | .error _ => db).oauth_refresh_tokens
    split
    · rename_i h
      exact Or.inr (Or.inr ⟨_, (revokeRefreshToken_ok h).2⟩)
    · exact Or.inl rfl

/-! ## Spent codes stay spent -/

theorem find_setUsedWhere {P : Primitives} (code c : String) (xs : List AuthCode) :
    (xs.map (AuthCode.setUsedWhere P code)).find? (fun a => P.collate a.Code = P.collate c) =
      (xs.find? (fun a => P.collate a.Code = P.collate c)).map (AuthCode.setUsedWhere P code) := by
  induction xs with
  | nil => rfl
  | cons x xs ih =>
    have hx : (AuthCode.setUsedWhere P code x).Code = x.Code := by
      unfold AuthCode.setUsedWhere
      split <;> rfl
    simp only [List.map_cons, List.find?_cons, hx]
    split
    · rfl
    · exact ih

theorem setUsedWhere_dead {P : Primitives} (code : String) (t : Nat) (a : AuthCode)
    (h : a.Used = true ∨ t > a.ExpiresAt) :
    (AuthCode.setUsedWhere P code a).Used = true ∨
      t > (AuthCode.setUsedWhere P code a).ExpiresAt := by
  unfold AuthCode.setUsedWhere
  split
  · exact Or.inl rfl
  · exact h

theorem codeDead_of_evolve {P : Primitives} {db db1 : DB} {c : String} {t : Nat}
    (he : CodesEvolve P db.oauth_auth_codes db1.oauth_auth_codes) (h : CodeDead P db c t) :
    CodeDead P db1 c t := by
  obtain ⟨a, hf, ha⟩ := h
  rcases he with he | ⟨b, he⟩ | ⟨code, he⟩
  · exact ⟨a, by rw [he]; exact hf, ha⟩
  · refine ⟨a, ?_, ha⟩
    rw [he, List.find?_append, hf]
    rfl
  · refine ⟨AuthCode.setUsedWhere P code a, ?_, setUsedWhere_dead code t a ha⟩
    rw [he, find_setUsedWhere, hf]
    rfl

theorem run_codeDead (P : Primitives) (ops : List Op) :
    ∀ (db : DB) (c : String) (t : Nat), CodeDead P db c t → CodeDead P (run P db ops) c t := by
  induction ops with
  | nil => intro db c t h; exact h
  | cons op ops ih =>
    intro db c t h
    exact ih (step P db op) c t (codeDead_of_evolve (step_codes P db op) h)

/-- Two code values that the collation takes as equal find the same row. -/
theorem codeDead_congr {P : Primitives} {db : DB} {c1 c2 : String} {t : Nat}
    (h : P.collate c1 = P.collate c2) (hd : CodeDead P db c1 t) : CodeDead P db c2 t := by
  unfold CodeDead at hd ⊢
  rw [← h]
  exact hd

theorem checkAuthCode_dead {P : Primitives} {amb : Ambient} {db : DB} {c : String} {t : Nat}
    (h : CodeDead P db c t) (ht : t ≤ amb.nowCheck) (cid uri : String) :
    checkAuthCode P amb db c cid uri = none := by
  obtain ⟨a, hf, ha⟩ := h
  unfold checkAuthCode getAuthCode
  split
  · rfl
  · rename_i authCode hget
    split at hget
    · cases hget
    · rw [hf] at hget
      cases hget
      rw [if_pos]
      rcases ha with ha | ha
      · exact Or.inl ha
      · exact Or.inr (Or.inl (by omega))

/-- A token request for a dead code is never answered with a token and
leaves the database as it is; from an authenticated client it is answered
with the invalid-code rejection. -/
theorem tokenHandler_dead (P : Primitives) {amb : Ambient} {db : DB} {r : TokenRequest}
    {t : Nat} (hg : r.grant_type = "authorization_code") (h : CodeDead P db r.code t)
    (ht : t ≤ amb.nowCheck) :
    (tokenHandler P amb db r).1.isToken = false ∧ (tokenHandler P amb db r).2 = db ∧
      (r.parseFormError = false → Authenticated P amb db r →
        (tokenHandler P amb db r).1 = invalidAuthCode) := by
  have hc := checkAuthCode_dead h ht r.client_id r.redirect_uri
  rcases tokenHandler_early P amb db r with ⟨hp, h1⟩ | ⟨-, hna, h1 | h1⟩ | ⟨hp, ha⟩
  · rw [h1]
    refine ⟨rfl, rfl, fun hp1 => ?_⟩
    rw [hp] at hp1
    cases hp1
  · rw [h1]
    exact ⟨rfl, rfl, fun _ ha => absurd ha hna⟩
  · rw [h1]
    exact ⟨rfl, rfl, fun _ ha => absurd ha hna⟩
  · rw [tokenHandler_code_none hp ha hg hc]
    exact ⟨rfl, rfl, fun _ _ => rfl⟩

theorem issueTokens_response (P : Primitives) (amb : Ambient) (db : DB) (g cid : String)
    (u : User) (sc : List String) :
    (issueTokens P amb db g cid u sc).1.isToken = true ∨
      ∃ msg, (issueTokens P amb db g cid u sc).1 = .httpError msg 500 := by
  unfold issueTokens
  split
  · exact Or.inr ⟨_, rfl⟩
  · simp only []
    split
    · split
      · exact Or.inr ⟨_, rfl⟩
      · split
        · exact Or.inr ⟨_, rfl⟩
        · exact Or.inl rfl
    · exact Or.inl rfl

theorem finishAuthCodeGrant_response (P : Primitives) (amb : Ambient) (db : DB)
    (r : TokenRequest) (a : AuthCode) :
    (finishAuthCodeGrant P amb db r a).1.isToken = true ∨
      ∃ msg, (finishAuthCodeGrant P amb db r a).1 = .httpError msg 500 := by
  unfold finishAuthCodeGrant
  split
  · exact Or.inr ⟨_, rfl⟩
  · split
    · exact Or.inr ⟨_, rfl⟩
    · exact issueTokens_response P amb _ _ _ _ _

/-! ## What a successful exchange has done -/

theorem find_setUsedWhere_self {P : Primitives} {code : String} {xs : List AuthCode}
    {a : AuthCode}
    (h : xs.find? (fun b => P.collate b.Code = P.collate code) = some a) :
    ∃ b, (xs.map (AuthCode.setUsedWhere P code)).find?
        (fun b => P.collate b.Code = P.collate code) = some b ∧
      b.Used = true := by
  refine ⟨AuthCode.setUsedWhere P code a, ?_, ?_⟩
  · rw [find_setUsedWhere, h]
    rfl
  · have := List.find?_some h
    simp only [decide_eq_true_eq] at this
    unfold AuthCode.setUsedWhere
    rw [if_pos this]

theorem checkAuthCode_some {P : Primitives} {amb : Ambient} {db : DB} {c cid uri : String}
    {a : AuthCode}
    (h : checkAuthCode P amb db c cid uri = some a) :
    amb.faults.getAuthCode = false ∧
      db.oauth_auth_codes.find? (fun b => P.collate b.Code = P.collate c) = some a ∧
      a.Used = false ∧
      ¬ amb.nowCheck > a.ExpiresAt ∧ a.ClientID = cid ∧ a.RedirectURI = uri := by
  unfold checkAuthCode getAuthCode at h
  split at h
  · cases h
  · rename_i authCode hget
    split at h
    · cases h
    · rename_i hcond
      cases h
      split at hget
      · cases hget
      · rename_i hfault
        split at hget
        · rename_i b hb
          cases hget
          simp only [not_or, not_not, Bool.not_eq_true] at hcond hfault
          exact ⟨hfault, hb, hcond.1, hcond.2.1, hcond.2.2.1, hcond.2.2.2⟩
        · cases hget

theorem finishAuthCodeGrant_token {P : Primitives} {amb : Ambient} {db : DB}
    {r : TokenRequest} {a : AuthCode}
    (h : (finishAuthCodeGrant P amb db r a).1.isToken = true) :
    (finishAuthCodeGrant P amb db r a).2.oauth_auth_codes =
      db.oauth_auth_codes.map (AuthCode.setUsedWhere P r.code) := by
  rcases (finishAuthCodeGrant_tables P amb db r a).1 with h1 | h1
  · revert h h1
    unfold finishAuthCodeGrant
    split
    · intro h; cases h
    · rename_i db1 hm
      split
      · intro h; cases h
      · simp only []
        intro _ _
        rw [(issueTokens_tables P amb db1 _ _ _ _).1]
        exact (markAuthCodeAsUsed_ok hm).2
  · exact h1

theorem finishRefreshGrant_response (P : Primitives) (amb : Ambient) (db : DB)
    (r : TokenRequest) (t : RefreshToken) :
    (finishRefreshGrant P amb db r t).1.isToken = true ∨
      ∃ msg, (finishRefreshGrant P amb db r t).1 = .httpError msg 500 := by
  unfold finishRefreshGrant
  split
  · exact Or.inr ⟨_, rfl⟩
  · exact issueTokens_response P amb _ _ _ _ _

/-- After a token request with the `authorization_code` grant was answered
with a token, the code it presented is dead. -/
theorem tokenHandler_token_dead {P : Primitives} {amb : Ambient} {db : DB} {r : TokenRequest}
    (hg : r.grant_type = "authorization_code")
    (h : (tokenHandler P amb db r).1.isToken = true) :
    CodeDead P (tokenHandler P amb db r).2 r.code 0 := by
  have hne : ¬ ("authorization_code" = "refresh_token") := by decide
  rcases tokenHandler_outcomes P amb db r with ⟨-, h1⟩ | ⟨a, -, hc, h1⟩ | ⟨t, hg2, -, -⟩
  · rw [h1] at h
    cases h
  · obtain ⟨-, hf, -⟩ := checkAuthCode_some hc
    obtain ⟨b, hb, hu⟩ := find_setUsedWhere_self hf
    rw [h1] at h ⊢
    refine ⟨b, ?_, Or.inl hu⟩
    rw [finishAuthCodeGrant_token h]
    exact hb
  · rw [hg] at hg2
    exact absurd hg2 hne

/-! ## Claims on the authorization-code grant -/

/-- C1: once a token request with the `authorization_code` grant has been
answered with a token, every later token request presenting the same code
(or a value that the collation of the code table takes as equal to it),
after any sequence of calls, with any client, redirect URI and clock reading,
is not answered with a token and changes nothing; when its client
authenticates it is answered with the invalid-code rejection. -/
theorem auth_code_redeemed_once (P : Primitives) (amb1 : Ambient) (db : DB) (r1 : TokenRequest)
    (ops : List Op) (amb2 : Ambient) (r2 : TokenRequest)
    (hg1 : r1.grant_type = "authorization_code")
    (hok : (tokenHandler P amb1 db r1).1.isToken = true)
    (hg2 : r2.grant_type = "authorization_code")
    (hcode : P.collate r2.code = P.collate r1.code) :
    (tokenHandler P amb2 (run P (tokenHandler P amb1 db r1).2 ops) r2).1.isToken = false ∧
      (tokenHandler P amb2 (run P (tokenHandler P amb1 db r1).2 ops) r2).2 =
        run P (tokenHandler P amb1 db r1).2 ops ∧
      (r2.parseFormError = false →
        Authenticated P amb2 (run P (tokenHandler P amb1 db r1).2 ops) r2 →
        (tokenHandler P amb2 (run P (tokenHandler P amb1 db r1).2 ops) r2).1 =
          invalidAuthCode) := by
  have h1 := tokenHandler_token_dead hg1 hok
  have h2 := codeDead_congr hcode.symm (run_codeDead P ops _ _ _ h1)
  exact tokenHandler_dead P hg2 h2 (Nat.zero_le _)

theorem auth_code_redeemed_once_witness :
    sampleCodeRequest.grant_type = "authorization_code" ∧
      (tokenHandler stubPrimitives (sampleAmbient 1200) sampleDB sampleCodeRequest).1.isToken
        = true ∧
      (tokenHandler stubPrimitives (sampleAmbient 1300)
        (run stubPrimitives
          (tokenHandler stubPrimitives (sampleAmbient 1200) sampleDB sampleCodeRequest).2
          sampleOpsBetween) sampleCodeRequest).1 = invalidAuthCode :=
  ⟨rfl, rfl,
    (auth_code_redeemed_once stubPrimitives (sampleAmbient 1200) sampleDB sampleCodeRequest
      sampleOpsBetween (sampleAmbient 1300) sampleCodeRequest rfl rfl rfl rfl).2.2 rfl
      ⟨_, rfl, rfl⟩⟩

/-- C5: a token request whose `client_id` names no registered client (no row
of the client table has an id that the collation of the table takes as equal
to it, so that `WHERE client_id = ?` finds nothing), or whose `client_secret`
does not verify against the stored hash of the client found, is answered
with one of the two invalid-client rejections (status 401) and leaves the
database unchanged; the answer is the same whatever `grant_type`, `code`,
`redirect_uri` and `refresh_token` are. -/
theorem invalid_client_rejected_first (P : Primitives) (amb : Ambient) (db : DB)
    (r : TokenRequest) (hp : r.parseFormError = false)
    (h : (∀ c ∈ db.oauth_clients, P.collate c.ClientID ≠ P.collate r.client_id) ∨
      ∃ c, db.oauth_clients.find? (fun c => P.collate c.ClientID = P.collate r.client_id) =
          some c ∧
        checkPassword P r.client_secret c.ClientSecretHash = false) :
    ((tokenHandler P amb db r).1 = invalidClientID ∨
        (tokenHandler P amb db r).1 = invalidClientSecret) ∧
      (tokenHandler P amb db r).2 = db ∧
      ∀ g code uri rt,
        tokenHandler P amb db
            { r with grant_type := g, code := code, redirect_uri := uri, refresh_token := rt } =
          tokenHandler P amb db r := by
  cases hget : getOAuthClient P amb db r.client_id with
  | error e =>
    refine ⟨Or.inl ?_, ?_, ?_⟩
    · rw [tokenHandler_client_error hp hget]
    · rw [tokenHandler_client_error hp hget]
    · intro g code uri rt
      rw [tokenHandler_client_error hp hget]
      exact tokenHandler_client_error hp hget
  | ok c =>
    obtain ⟨-, hfind⟩ := getOAuthClient_ok hget
    have hs : checkPassword P r.client_secret c.ClientSecretHash = false := by
      rcases h with h | ⟨c1, hc1, hs⟩
      · have hmem := List.mem_of_find?_eq_some hfind
        have hid := List.find?_some hfind
        simp only [decide_eq_true_eq] at hid
        exact absurd hid (h c hmem)
      · rw [hfind] at hc1
        cases hc1
        exact hs
    refine ⟨Or.inr ?_, ?_, ?_⟩
    · rw [tokenHandler_secret_error hp hget hs]
    · rw [tokenHandler_secret_error hp hget hs]
    · intro g code uri rt
      rw [tokenHandler_secret_error hp hget hs]
      exact tokenHandler_secret_error hp hget hs

theorem invalid_client_rejected_first_witness :
    (tokenHandler stubPrimitives (sampleAmbient 1200) sampleDB
        { sampleCodeRequest with client_secret := "guess" }).1 = invalidClientSecret ∧
      (tokenHandler stubPrimitives (sampleAmbient 1200) sampleDB
        { sampleCodeRequest with client_secret := "guess" }).2 = sampleDB ∧
      (∀ c ∈ sampleDB.oauth_clients,
        stubPrimitives.collate c.ClientID ≠ stubPrimitives.collate "nobody") ∧
      tokenHandler stubPrimitives (sampleAmbient 1200) sampleDB
        { sampleCodeRequest with client_id := "nobody" } = (invalidClientID, sampleDB) ∧
      sampleDB.oauth_clients.find? (fun c =>
        stubPrimitives.collate c.ClientID = stubPrimitives.collate "APP") =
        sampleDB.oauth_clients.head? ∧
      tokenHandler stubPrimitives (sampleAmbient 1200) sampleDB
        { sampleCodeRequest with client_id := "APP", client_secret := "guess" } =
        (invalidClientSecret, sampleDB) ∧
      (tokenHandler stubPrimitives (sampleAmbient 1200) sampleDB
        { sampleRefreshRequest with client_id := "APP" }).1 = invalidRefreshToken := by
  have h := invalid_client_rejected_first stubPrimitives (sampleAmbient 1200) sampleDB
    { sampleCodeRequest with client_secret := "guess" } rfl
    (Or.inr ⟨_, rfl, rfl⟩)
  have hno : ∀ c ∈ sampleDB.oauth_clients,
      stubPrimitives.collate c.ClientID ≠ stubPrimitives.collate "nobody" := by
    decide
  exact ⟨rfl, h.2.1, hno, rfl, rfl, rfl, rfl⟩

theorem checkAuthCode_eq_none {P : Primitives} {amb : Ambient} {db : DB} {r : TokenRequest} :
    checkAuthCode P amb db r.code r.client_id r.redirect_uri = none ↔
      ¬ Redeemable P amb db r := by
  constructor
  · rintro h ⟨hf, a, hget, hu, he, hc, hr⟩
    simp [checkAuthCode, getAuthCode, hf, hget, hu, he, hc, hr] at h
  · intro h
    cases hc : checkAuthCode P amb db r.code r.client_id r.redirect_uri with
    | none => rfl
    | some a =>
      exfalso
      apply h
      obtain ⟨hf, hfind, h1, h2, h3, h4⟩ := checkAuthCode_some hc
      exact ⟨hf, a, hfind, h1, h2, h3, h4⟩

theorem finishAuthCodeGrant_success {P : Primitives} {amb : Ambient} {db : DB}
    {r : TokenRequest} {a : AuthCode} {c : OAuthClient}
    (hg : r.grant_type = "authorization_code")
    (hc : db.oauth_clients.find? (fun c => P.collate c.ClientID = P.collate r.client_id) = some c)
    (hn : NoLaterFailure P amb db a) :
    (finishAuthCodeGrant P amb db r a).1.isToken = true := by
  obtain ⟨h1, h2, h3, h4, h5, ⟨u, hu, hid⟩, h7⟩ := hn
  have hfind : ∃ u1, db.user.find? (fun u => u.ID = a.UserID) = some u1 := by
    cases hf : db.user.find? (fun u => u.ID = a.UserID) with
    | some u1 => exact ⟨u1, rfl⟩
    | none =>
      rw [List.find?_eq_none] at hf
      exact absurd (by simpa using hid) (hf u hu)
  obtain ⟨u1, hu1⟩ := hfind
  have hu1id : u1.ID = a.UserID := by simpa using List.find?_some hu1
  have hu1mem := List.mem_of_find?_eq_some hu1
  have hcid : P.collate c.ClientID = P.collate r.client_id := by
    simpa using List.find?_some hc
  have hcmem := List.mem_of_find?_eq_some hc
  have hfresh := h7 (String.mk (EncodeToString ((List.range 32).map amb.rand.byte)))
    (by simp [generateSecureRandomString, h4])
  have hany : (db.oauth_refresh_tokens.any fun t =>
      decide (t.Token = hashStringSHA256 P
        (String.mk (EncodeToString ((List.range 32).map amb.rand.byte))))) = false := by
    rw [List.any_eq_false]
    intro t ht
    simpa using hfresh t ht
  have huany : (db.user.any fun u => decide (u.ID = u1.ID)) = true := by
    rw [List.any_eq_true]
    exact ⟨u1, hu1mem, by simp⟩
  have hcany : (db.oauth_clients.any fun c =>
      decide (P.collate c.ClientID = P.collate r.client_id)) = true := by
    rw [List.any_eq_true]
    exact ⟨c, hcmem, by simpa using hcid⟩
  simp [finishAuthCodeGrant, markAuthCodeAsUsed, h1, selectUserByID, h2, hu1, issueTokens,
    generateAccessToken, h3, hg, generateSecureRandomString, h4, storeRefreshToken, h5, hany,
    huany, hcany, Response.isToken]

/-- C3: for a token request with the `authorization_code` grant from an
authenticated client, the handler answers with the invalid-code rejection
exactly when the code is not redeemable (unknown, used, past its expiry,
bound to another client or to another redirect URI); then the database is
unchanged and no token is issued.  A token is issued only for a redeemable
code, and is issued for every redeemable code when no later step of the call
fails.  A code is known when the query `WHERE code = ?` finds a row, which
under the collation of the table is a row whose code has the weight string
of the submitted one; the client id and the redirect URI are compared by the
Go code, as strings. -/
theorem auth_code_redeemed_iff (P : Primitives) (amb : Ambient) (db : DB) (r : TokenRequest)
    (hp : r.parseFormError = false) (ha : Authenticated P amb db r)
    (hg : r.grant_type = "authorization_code") :
    ((tokenHandler P amb db r).1 = invalidAuthCode ↔ ¬ Redeemable P amb db r) ∧
      (¬ Redeemable P amb db r →
        (tokenHandler P amb db r).2 = db ∧ (tokenHandler P amb db r).1.isToken = false) ∧
      ((tokenHandler P amb db r).1.isToken = true → Redeemable P amb db r) ∧
      (∀ a, db.oauth_auth_codes.find? (fun a => P.collate a.Code = P.collate r.code) = some a →
        Redeemable P amb db r → NoLaterFailure P amb db a →
        (tokenHandler P amb db r).1.isToken = true) := by
  have hnone : ¬ Redeemable P amb db r → tokenHandler P amb db r = (invalidAuthCode, db) :=
    fun h => tokenHandler_code_none hp ha hg (checkAuthCode_eq_none.mpr h)
  have hsome : Redeemable P amb db r →
      ∃ a, db.oauth_auth_codes.find? (fun a => P.collate a.Code = P.collate r.code) = some a ∧
      tokenHandler P amb db r = finishAuthCodeGrant P amb db r a := by
    intro h
    cases hc : checkAuthCode P amb db r.code r.client_id r.redirect_uri with
    | none => exact absurd h (checkAuthCode_eq_none.mp hc)
    | some a =>
      obtain ⟨hf, hfind, -⟩ := checkAuthCode_some hc
      exact ⟨a, hfind, tokenHandler_code_some hp ha hg hc⟩
  refine ⟨⟨?_, fun h => by rw [hnone h]⟩, fun h => by rw [hnone h]; exact ⟨rfl, rfl⟩, ?_, ?_⟩
  · intro h hred
    obtain ⟨a, -, ht⟩ := hsome hred
    rw [ht] at h
    rcases finishAuthCodeGrant_response P amb db r a with h1 | ⟨msg, h1⟩
    · rw [h] at h1
      cases h1
    · rw [h] at h1
      cases h1
  · intro h
    by_contra hred
    rw [hnone hred] at h
    cases h
  · intro a hget hred hn
    obtain ⟨a1, hget1, ht⟩ := hsome hred
    rw [hget] at hget1
    cases hget1
    rw [ht]
    obtain ⟨c, hc, -⟩ := ha
    exact finishAuthCodeGrant_success hg (getOAuthClient_ok hc).2 hn

theorem auth_code_redeemed_iff_witness :
    Authenticated stubPrimitives (sampleAmbient 1200) sampleDB sampleCodeRequest ∧
      Redeemable stubPrimitives (sampleAmbient 1200) sampleDB sampleCodeRequest ∧
      (tokenHandler stubPrimitives (sampleAmbient 1200) sampleDB sampleCodeRequest).1.isToken
        = true ∧
      Redeemable stubPrimitives (sampleAmbient 1200) sampleDB
        { sampleCodeRequest with code := "CODE-1 " } ∧
      (tokenHandler stubPrimitives (sampleAmbient 1200) sampleDB
        { sampleCodeRequest with code := "CODE-1 " }).1.isToken = true ∧
      ¬ Redeemable stubPrimitives (sampleAmbient 1200) sampleDB
        { sampleCodeRequest with code := "code-2" } ∧
      (tokenHandler stubPrimitives (sampleAmbient 1200) sampleDB
        { sampleCodeRequest with code := "code-2" }).1 = invalidAuthCode ∧
      Authenticated stubPrimitives (sampleAmbient 1200) sampleDB
        { sampleCodeRequest with client_id := "APP" } ∧
      (tokenHandler stubPrimitives (sampleAmbient 1200) sampleDB
        { sampleCodeRequest with client_id := "APP" }).1 = invalidAuthCode := by
  have ha : Authenticated stubPrimitives (sampleAmbient 1200) sampleDB sampleCodeRequest :=
    ⟨_, rfl, rfl⟩
  have hr : Redeemable stubPrimitives (sampleAmbient 1200) sampleDB sampleCodeRequest :=
    ⟨rfl, _, rfl, rfl, by decide, rfl, rfl⟩
  have hn : NoLaterFailure stubPrimitives (sampleAmbient 1200) sampleDB sampleCode := by
    refine ⟨rfl, rfl, rfl, rfl, rfl, ⟨_, List.mem_singleton.mpr rfl, rfl⟩, ?_⟩
    intro raw h t ht
    have hraw : raw = "AAECAwQFBgcICQoLDA0ODxAREhMUFRYXGBkaGxwdHh8=" := by
      have h2 : (Except.ok "AAECAwQFBgcICQoLDA0ODxAREhMUFRYXGBkaGxwdHh8=" :
          Except GoError String) = Except.ok raw := h
      injection h2 with h3
      exact h3.symm
    have ht2 : t = sampleRefreshToken := List.mem_singleton.mp ht
    subst hraw ht2
    decide
  have hr2 : Redeemable stubPrimitives (sampleAmbient 1200) sampleDB
      { sampleCodeRequest with code := "CODE-1 " } :=
    ⟨rfl, sampleCode, by decide, rfl, by decide, rfl, rfl⟩
  have hr3 : ¬ Redeemable stubPrimitives (sampleAmbient 1200) sampleDB
      { sampleCodeRequest with code := "code-2" } := by
    rintro ⟨-, a, hfind, -⟩
    have hnone : sampleDB.oauth_auth_codes.find? (fun a =>
        stubPrimitives.collate a.Code = stubPrimitives.collate "code-2") = none := by decide
    rw [hnone] at hfind
    cases hfind
  have ha2 : Authenticated stubPrimitives (sampleAmbient 1200) sampleDB
      { sampleCodeRequest with client_id := "APP" } :=
    ⟨_, rfl, rfl⟩
  exact ⟨ha, hr,
    (auth_code_redeemed_iff stubPrimitives (sampleAmbient 1200) sampleDB sampleCodeRequest
      rfl ha rfl).2.2.2 _ rfl hr hn, hr2, rfl, hr3, rfl, ha2, rfl⟩

/-! ## Claims on the refresh-token grant -/

theorem checkRefreshToken_some {P : Primitives} {amb : Ambient} {db : DB} {raw cid : String}
    {t : RefreshToken} (h : checkRefreshToken P amb db raw cid = some t) :
    amb.faults.getRefreshToken = false ∧
      db.oauth_refresh_tokens.find? (fun t => t.Token = P.sha256Hex raw) = some t ∧
      t.Revoked = false ∧ ¬ amb.nowCheck > t.ExpiresAt ∧ t.ClientID = cid := by
  unfold checkRefreshToken getRefreshToken hashStringSHA256 at h
  simp only [] at h
  split at h
  · cases h
  · rename_i rt hget
    split at h
    · cases h
    · rename_i hcond
      cases h
      split at hget
      · cases hget
      · rename_i hfault
        split at hget
        · rename_i b hb
          cases hget
          simp only [not_or, not_not, Bool.not_eq_true] at hcond hfault
          exact ⟨hfault, hb, hcond.1, hcond.2.1, hcond.2.2⟩
        · cases hget

theorem checkRefreshToken_eq_none {P : Primitives} {amb : Ambient} {db : DB}
    {r : TokenRequest} :
    checkRefreshToken P amb db r.refresh_token r.client_id = none ↔
      ¬ RefreshValid P amb db r := by
  constructor
  · rintro h ⟨hf, t, hget, hu, he, hc⟩
    simp [checkRefreshToken, getRefreshToken, hashStringSHA256, hf, hget, hu, he, hc] at h
  · intro h
    cases hc : checkRefreshToken P amb db r.refresh_token r.client_id with
    | none => rfl
    | some t =>
      obtain ⟨hf, hfind, h1, h2, h3⟩ := checkRefreshToken_some hc
      exact absurd ⟨hf, t, hfind, h1, h2, h3⟩ h

/-- C8: for a token request with the `refresh_token` grant from an
authenticated client, the handler answers with the invalid-refresh-token
rejection exactly when no valid record is found for the SHA-256 hex digest of
the presented token (not stored, revoked, past its expiry, or bound to another
client); then the database is unchanged and no token is issued.  A token is
issued only for a valid refresh token, and is issued for every valid one when
the user is read and the access token is signed without failure. -/
theorem refresh_token_valid_iff (P : Primitives) (amb : Ambient) (db : DB) (r : TokenRequest)
    (hp : r.parseFormError = false) (ha : Authenticated P amb db r)
    (hg : r.grant_type = "refresh_token") :
    ((tokenHandler P amb db r).1 = invalidRefreshToken ↔ ¬ RefreshValid P amb db r) ∧
      (¬ RefreshValid P amb db r →
        (tokenHandler P amb db r).2 = db ∧ (tokenHandler P amb db r).1.isToken = false) ∧
      ((tokenHandler P amb db r).1.isToken = true → RefreshValid P amb db r) ∧
      (∀ t, db.oauth_refresh_tokens.find? (fun t => t.Token = P.sha256Hex r.refresh_token) =
          some t →
        RefreshValid P amb db r → amb.faults.selectUserByID = false →
        amb.faults.signedString = false → (∃ u ∈ db.user, u.ID = t.UserID) →
        (tokenHandler P amb db r).1.isToken = true) := by
  have hnone : ¬ RefreshValid P amb db r →
      tokenHandler P amb db r = (invalidRefreshToken, db) :=
    fun h => tokenHandler_refresh_none hp ha hg (checkRefreshToken_eq_none.mpr h)
  have hsome : RefreshValid P amb db r →
      ∃ t, db.oauth_refresh_tokens.find? (fun t => t.Token = P.sha256Hex r.refresh_token) =
          some t ∧
        tokenHandler P amb db r = finishRefreshGrant P amb db r t := by
    intro h
    cases hc : checkRefreshToken P amb db r.refresh_token r.client_id with
    | none => exact absurd h (checkRefreshToken_eq_none.mp hc)
    | some t =>
      obtain ⟨hf, hfind, -⟩ := checkRefreshToken_some hc
      exact ⟨t, hfind, tokenHandler_refresh_some hp ha hg hc⟩
  refine ⟨⟨?_, fun h => by rw [hnone h]⟩, fun h => by rw [hnone h]; exact ⟨rfl, rfl⟩, ?_, ?_⟩
  · intro h hred
    obtain ⟨t, -, ht⟩ := hsome hred
    rw [ht] at h
    rcases finishRefreshGrant_response P amb db r t with h1 | ⟨msg, h1⟩
    · rw [h] at h1
      cases h1
    · rw [h] at h1
      cases h1
  · intro h
    by_contra hred
    rw [hnone hred] at h
    cases h
  · intro t hget hred h2 h3 hu
    obtain ⟨t1, hget1, ht⟩ := hsome hred
    rw [hget] at hget1
    cases hget1
    rw [ht]
    obtain ⟨u, hu, hid⟩ := hu
    have hfind : ∃ u1, db.user.find? (fun u => u.ID = t.UserID) = some u1 := by
      cases hf : db.user.find? (fun u => u.ID = t.UserID) with
      | some u1 => exact ⟨u1, rfl⟩
      | none =>
        rw [List.find?_eq_none] at hf
        exact absurd (by simpa using hid) (hf u hu)
    obtain ⟨u1, hu1⟩ := hfind
    have hne : ¬ ("refresh_token" = "authorization_code") := by decide
    simp [finishRefreshGrant, selectUserByID, h2, hu1, issueTokens, generateAccessToken, h3,
      hg, hne, Response.isToken]

theorem refresh_token_valid_iff_witness :
    Authenticated stubPrimitives (sampleAmbient 1200) sampleDB sampleRefreshRequest ∧
      RefreshValid stubPrimitives (sampleAmbient 1200) sampleDB sampleRefreshRequest ∧
      (tokenHandler stubPrimitives (sampleAmbient 1200) sampleDB
        sampleRefreshRequest).1.isToken = true := by
  have ha : Authenticated stubPrimitives (sampleAmbient 1200) sampleDB sampleRefreshRequest :=
    ⟨_, rfl, rfl⟩
  have hr : RefreshValid stubPrimitives (sampleAmbient 1200) sampleDB sampleRefreshRequest :=
    ⟨rfl, _, rfl, rfl, by decide, rfl⟩
  exact ⟨ha, hr,
    (refresh_token_valid_iff stubPrimitives (sampleAmbient 1200) sampleDB sampleRefreshRequest
      rfl ha rfl).2.2.2 _ rfl hr rfl rfl ⟨_, List.mem_singleton.mpr rfl, rfl⟩⟩

/-! ## Revoked refresh tokens stay revoked -/

theorem setRevokedWhere_token (h : String) (t : RefreshToken) :
    (RefreshToken.setRevokedWhere h t).Token = t.Token := by
  unfold RefreshToken.setRevokedWhere
  split <;> rfl

theorem setRevokedWhere_of_revoked (h : String) {t : RefreshToken} (ht : t.Revoked = true) :
    RefreshToken.setRevokedWhere h t = t := by
  unfold RefreshToken.setRevokedWhere
  split
  · cases t
    simp only [RefreshToken.mk.injEq, true_and]
    exact ht.symm
  · rfl

theorem find_setRevokedWhere (h c : String) (xs : List RefreshToken) :
    (xs.map (RefreshToken.setRevokedWhere h)).find? (fun t => t.Token = c) =
      (xs.find? (fun t => t.Token = c)).map (RefreshToken.setRevokedWhere h) := by
  induction xs with
  | nil => rfl
  | cons x xs ih =>
    simp only [List.map_cons, List.find?_cons, setRevokedWhere_token]
    split
    · rfl
    · exact ih

theorem hashRevoked_of_evolve {db db1 : DB} {c : String}
    (he : TokensEvolve db.oauth_refresh_tokens db1.oauth_refresh_tokens)
    (h : HashRevoked db c) : HashRevoked db1 c := by
  obtain ⟨t, hf, ht⟩ := h
  refine ⟨t, ?_, ht⟩
  rcases he with he | ⟨b, he⟩ | ⟨code, he⟩
  · rw [he]; exact hf
  · rw [he, List.find?_append, hf]
    rfl
  · rw [he, find_setRevokedWhere, hf, Option.map_some', setRevokedWhere_of_revoked code ht]

theorem run_hashRevoked (P : Primitives) (ops : List Op) :
    ∀ (db : DB) (c : String), HashRevoked db c → HashRevoked (run P db ops) c := by
  induction ops with
  | nil => intro db c h; exact h
  | cons op ops ih =>
    intro db c h
    exact ih (step P db op) c (hashRevoked_of_evolve (step_tokens P db op) h)

theorem checkRefreshToken_revoked {P : Primitives} (amb : Ambient) {db : DB} {raw : String}
    (h : HashRevoked db (P.sha256Hex raw)) (cid : String) :
    checkRefreshToken P amb db raw cid = none := by
  obtain ⟨t, hf, ht⟩ := h
  cases hc : checkRefreshToken P amb db raw cid with
  | none => rfl
  | some t1 =>
    obtain ⟨-, hfind, hr, -⟩ := checkRefreshToken_some hc
    rw [hf] at hfind
    cases hfind
    rw [ht] at hr
    cases hr

/-- A `refresh_token` exchange presenting a token whose record is revoked is
never answered with a token and changes nothing; from an authenticated client
it is answered with the invalid-refresh-token rejection. -/
theorem tokenHandler_revoked (P : Primitives) {amb : Ambient} {db : DB} {r : TokenRequest}
    (hg : r.grant_type = "refresh_token") (h : HashRevoked db (P.sha256Hex r.refresh_token)) :
    (tokenHandler P amb db r).1.isToken = false ∧ (tokenHandler P amb db r).2 = db ∧
      (r.parseFormError = false → Authenticated P amb db r →
        (tokenHandler P amb db r).1 = invalidRefreshToken) := by
  have hc := checkRefreshToken_revoked amb h r.client_id
  rcases tokenHandler_early P amb db r with ⟨hp, h1⟩ | ⟨-, hna, h1 | h1⟩ | ⟨hp, ha⟩
  · rw [h1]
    refine ⟨rfl, rfl, fun hp1 => ?_⟩
    rw [hp] at hp1
    cases hp1
  · rw [h1]
    exact ⟨rfl, rfl, fun _ ha => absurd ha hna⟩
  · rw [h1]
    exact ⟨rfl, rfl, fun _ ha => absurd ha hna⟩
  · rw [tokenHandler_refresh_none hp ha hg hc]
    exact ⟨rfl, rfl, fun _ _ => rfl⟩

theorem revoke_hashRevoked {P : Primitives} {amb : Ambient} {db db1 : DB} {raw : String}
    (hs : ∃ t ∈ db.oauth_refresh_tokens, t.Token = P.sha256Hex raw)
    (h : revokeRefreshToken P amb db raw = .ok db1) : HashRevoked db1 (P.sha256Hex raw) := by
  obtain ⟨t, ht, htok⟩ := hs
  have hfind : ∃ t1, db.oauth_refresh_tokens.find? (fun t => t.Token = P.sha256Hex raw) =
      some t1 := by
    cases hf : db.oauth_refresh_tokens.find? (fun t => t.Token = P.sha256Hex raw) with
    | some t1 => exact ⟨t1, rfl⟩
    | none =>
      rw [List.find?_eq_none] at hf
      exact absurd (by simpa using htok) (hf t ht)
  obtain ⟨t1, ht1⟩ := hfind
  have h1tok : t1.Token = P.sha256Hex raw := by simpa using List.find?_some ht1
  refine ⟨RefreshToken.setRevokedWhere (P.sha256Hex raw) t1, ?_, ?_⟩
  · rw [(revokeRefreshToken_ok h).2]
    show List.find? _ (List.map (RefreshToken.setRevokedWhere (P.sha256Hex raw)) _) = _
    rw [find_setRevokedWhere, ht1]
    rfl
  · unfold RefreshToken.setRevokedWhere
    rw [if_pos h1tok]

theorem step_keeps_revoked (P : Primitives) (db : DB) (op : Op) (i : Nat) (t : RefreshToken)
    (hi : db.oauth_refresh_tokens[i]? = some t) (ht : t.Revoked = true) :
    (step P db op).oauth_refresh_tokens[i]? = some t := by
  rcases step_tokens P db op with he | ⟨b, he⟩ | ⟨code, he⟩
  · rw [he]; exact hi
  · rw [he]
    have hlt : i < db.oauth_refresh_tokens.length := by
      by_contra hge
      rw [List.getElem?_eq_none (by omega)] at hi
      cases hi
    rw [List.getElem?_append_left hlt]
    exact hi
  · rw [he, List.getElem?_map, hi, Option.map_some', setRevokedWhere_of_revoked code ht]

/-- C9: after `revokeRefreshToken` has succeeded on a stored refresh token,
every later `refresh_token` exchange presenting that token, after any
sequence of calls, with any client and clock reading, is not answered with a
token, and is answered with the invalid-refresh-token rejection when its
client authenticates; and no call changes a record whose revoked flag is
true. -/
theorem revoked_refresh_token_rejected (P : Primitives) (amb0 : Ambient) (db db1 : DB)
    (raw : String) (ops : List Op) (amb2 : Ambient) (r2 : TokenRequest)
    (hs : ∃ t ∈ db.oauth_refresh_tokens, t.Token = P.sha256Hex raw)
    (hrev : revokeRefreshToken P amb0 db raw = .ok db1)
    (hg : r2.grant_type = "refresh_token") (hraw : r2.refresh_token = raw) :
    ((tokenHandler P amb2 (run P db1 ops) r2).1.isToken = false ∧
      (tokenHandler P amb2 (run P db1 ops) r2).2 = run P db1 ops ∧
      (r2.parseFormError = false → Authenticated P amb2 (run P db1 ops) r2 →
        (tokenHandler P amb2 (run P db1 ops) r2).1 = invalidRefreshToken)) ∧
      ∀ (db2 : DB) (op : Op) (i : Nat) (t : RefreshToken),
        db2.oauth_refresh_tokens[i]? = some t → t.Revoked = true →
        (step P db2 op).oauth_refresh_tokens[i]? = some t := by
  refine ⟨?_, fun db2 op i t => step_keeps_revoked P db2 op i t⟩
  have h1 := run_hashRevoked P ops _ _ (revoke_hashRevoked hs hrev)
  rw [← hraw] at h1
  exact tokenHandler_revoked P hg h1

theorem revoked_refresh_token_rejected_witness :
    (∃ t ∈ sampleDB.oauth_refresh_tokens, t.Token = stubPrimitives.sha256Hex "rt-1") ∧
      (tokenHandler stubPrimitives (sampleAmbient 1200) sampleDB
        sampleRefreshRequest).1.isToken = true ∧
      (tokenHandler stubPrimitives (sampleAmbient 1300)
        (run stubPrimitives
          { sampleDB with oauth_refresh_tokens := [{ sampleRefreshToken with Revoked := true }] }
          sampleOpsBetween) sampleRefreshRequest).1 = invalidRefreshToken :=
  ⟨⟨_, List.mem_singleton.mpr rfl, rfl⟩, rfl,
    (revoked_refresh_token_rejected stubPrimitives (sampleAmbient 1250) sampleDB _ "rt-1"
      sampleOpsBetween (sampleAmbient 1300) sampleRefreshRequest
      ⟨_, List.mem_singleton.mpr rfl, rfl⟩ rfl rfl rfl).1.2.2 rfl ⟨_, rfl, rfl⟩⟩

/-! ## Terminal and non-terminal rejections -/

/-- Every invalid-code rejection leaves the database unchanged. -/
theorem invalidAuthCode_unchanged {P : Primitives} {amb : Ambient} {db : DB} {r : TokenRequest}
    (h : (tokenHandler P amb db r).1 = invalidAuthCode) : (tokenHandler P amb db r).2 = db := by
  rcases tokenHandler_outcomes P amb db r with ⟨h1, -⟩ | ⟨a, -, -, h1⟩ | ⟨t, -, -, h1⟩
  · exact h1
  · rw [h1] at h
    rcases finishAuthCodeGrant_response P amb db r a with h2 | ⟨msg, h2⟩
    · rw [h] at h2
      cases h2
    · rw [h] at h2
      cases h2
  · rw [h1] at h
    rcases finishRefreshGrant_response P amb db r t with h2 | ⟨msg, h2⟩
    · rw [h] at h2
      cases h2
    · rw [h] at h2
      cases h2

/-- C10, counterexample: the exchange of `code-1` with a wrong redirect URI
is rejected as an invalid code, and the next exchange of the same code, with
the redirect URI of issuance, is answered with a token. -/
theorem invalid_grant_not_terminal :
    tokenHandler stubPrimitives (sampleAmbient 1200) sampleDB wrongRedirectRequest =
        (invalidAuthCode, sampleDB) ∧
      wrongRedirectRequest.code = sampleCodeRequest.code ∧
      (tokenHandler stubPrimitives (sampleAmbient 1210)
        (tokenHandler stubPrimitives (sampleAmbient 1200) sampleDB wrongRedirectRequest).2
        sampleCodeRequest).1.isToken = true :=
  ⟨rfl, rfl, rfl⟩

/-- C10, amended: an invalid-code rejection leaves the database unchanged;
when the code presented was found used, or found past its expiry, every
later token request presenting that code (or a value that the collation of
the code table takes as equal to it), after any sequence of calls and at
a clock reading that is not earlier, is not answered with a token, and is
answered with the invalid-code rejection when its client authenticates. -/
theorem used_or_expired_rejection_terminal (P : Primitives) (amb1 : Ambient) (db : DB)
    (r1 : TokenRequest) (ops : List Op) (amb2 : Ambient) (r2 : TokenRequest)
    (hrej : (tokenHandler P amb1 db r1).1 = invalidAuthCode)
    (hcause : CodeDead P db r1.code amb1.nowCheck)
    (hg2 : r2.grant_type = "authorization_code")
    (hcode : P.collate r2.code = P.collate r1.code)
    (hclock : amb1.nowCheck ≤ amb2.nowCheck) :
    (tokenHandler P amb1 db r1).2 = db ∧
      (tokenHandler P amb2 (run P (tokenHandler P amb1 db r1).2 ops) r2).1.isToken = false ∧
      (r2.parseFormError = false →
        Authenticated P amb2 (run P (tokenHandler P amb1 db r1).2 ops) r2 →
        (tokenHandler P amb2 (run P (tokenHandler P amb1 db r1).2 ops) r2).1 =
          invalidAuthCode) := by
  have h0 := invalidAuthCode_unchanged hrej
  refine ⟨h0, ?_⟩
  rw [h0]
  have h2 := codeDead_congr hcode.symm (run_codeDead P ops _ _ _ hcause)
  have h3 := tokenHandler_dead P hg2 h2 hclock
  exact ⟨h3.1, h3.2.2⟩

theorem used_or_expired_rejection_terminal_witness :
    (tokenHandler stubPrimitives (sampleAmbient 2000) sampleDB sampleCodeRequest).1 =
        invalidAuthCode ∧
      CodeDead stubPrimitives sampleDB sampleCodeRequest.code (sampleAmbient 2000).nowCheck ∧
      (tokenHandler stubPrimitives (sampleAmbient 2100)
        (run stubPrimitives
          (tokenHandler stubPrimitives (sampleAmbient 2000) sampleDB sampleCodeRequest).2
          sampleOpsBetween) sampleCodeRequest).1 = invalidAuthCode := by
  have hd : CodeDead stubPrimitives sampleDB sampleCodeRequest.code (sampleAmbient 2000).nowCheck :=
    ⟨sampleCode, rfl, Or.inr (by decide)⟩
  exact ⟨rfl, hd,
    (used_or_expired_rejection_terminal stubPrimitives (sampleAmbient 2000) sampleDB
      sampleCodeRequest sampleOpsBetween (sampleAmbient 2100) sampleCodeRequest rfl hd rfl rfl
      (by decide)).2.2 rfl ⟨_, rfl, rfl⟩⟩

/-! ## The login-form submission -/

/-- C2, at the failing input: the redirect URI `https://evil.example/cb` is
not registered for any client, the GET request with it is rejected, yet the
login-form submission (POST) with it and valid user credentials stores a
code bound to it and redirects the user agent there with the code. -/
theorem post_authorize_skips_redirect_check :
    (∀ c ∈ sampleDB.oauth_clients, "https://evil.example/cb" ∉ c.RedirectURIs) ∧
      authorizeHandler stubPrimitives (sampleAmbient 1200) sampleDB
          { unregisteredRedirectLogin with Method := "GET" } =
        (.httpError "redirect_uri tidak valid untuk klien ini" 400, sampleDB) ∧
      authorizeHandler stubPrimitives (sampleAmbient 1200) sampleDB unregisteredRedirectLogin =
        (.redirect
          "https://evil.example/cb?code=AAECAwQFBgcICQoLDA0ODxAREhMUFRYXGBkaGxwdHh8=&state=xyz"
          302,
         { sampleDB with oauth_auth_codes :=
            [sampleCode,
             { ID := 2, Code := "AAECAwQFBgcICQoLDA0ODxAREhMUFRYXGBkaGxwdHh8=",
               ClientID := "app", UserID := 1, RedirectURI := "https://evil.example/cb",
               Scopes := "read", ExpiresAt := 1800, Used := false }] }) := by
  refine ⟨?_, rfl, rfl⟩
  decide

/-! ## Concurrent redemption -/

/-- C4, at the failing schedule: two concurrent exchanges of `code-1` that
both run the test of lines 596 to 601 before either runs the update of line
603 are both answered with a token, while the same two requests served one
after the other give a token and then the invalid-code rejection. -/
theorem concurrent_redemption_both_succeed :
    (∃ body1 body2 db2,
        bothTestThenBothFinish stubPrimitives (sampleAmbient 1200) (otherAmbient 1200) sampleDB
            sampleCodeRequest sampleCodeRequest =
          some (.tokenJSON body1, .tokenJSON body2, db2)) ∧
      (tokenHandler stubPrimitives (sampleAmbient 1200) sampleDB
        sampleCodeRequest).1.isToken = true ∧
      (tokenHandler stubPrimitives (otherAmbient 1200)
        (tokenHandler stubPrimitives (sampleAmbient 1200) sampleDB sampleCodeRequest).2
        sampleCodeRequest).1 = invalidAuthCode :=
  ⟨⟨_, _, _, rfl⟩, rfl, rfl⟩

/-! ## Access tokens -/

/-- C6, at the failing input: for every MAC function, a token whose header
names HS384 and whose signature is the HS384 MAC under the configured key is
accepted by `validateAccessToken`, and a token whose header names HS512 and
whose signature is the HS512 MAC under the configured key is accepted by
`validateJWT`; a header naming a method outside the HMAC family is refused. -/
theorem validators_accept_other_hmac_algorithms :
    (∀ P : Primitives,
        validateAccessToken P 1200
            { alg := "HS384", claims := sampleClaims,
              signature := P.hmac .HS384 jwtSecretKey ("HS384", sampleClaims) } =
          .ok sampleClaims) ∧
      (∀ hmac : SigningMethod → String → String × JWTDemo.Claims → String,
        JWTDemo.validateJWT hmac 1200
            { alg := "HS512", claims := JWTDemo.sampleClaims,
              signature := hmac .HS512 JWTDemo.jwtSecretKey ("HS512", JWTDemo.sampleClaims) } =
          .ok JWTDemo.sampleClaims) ∧
      ∀ (P : Primitives) (sig : String),
        validateAccessToken P 1200 { alg := "none", claims := sampleClaims, signature := sig } =
          .error .unverifiable := by
  refine ⟨fun P => ?_, fun hmac => ?_, fun P sig => ?_⟩
  · simp [validateAccessToken, ParseWithClaims, GetSigningMethod, keyFunc,
      SigningMethod.isSigningMethodHMAC, sampleClaims]
  · simp [JWTDemo.validateJWT, ParseWithClaims, GetSigningMethod, JWTDemo.keyFunc,
      SigningMethod.isSigningMethodHMAC, JWTDemo.sampleClaims]
  · simp [validateAccessToken, ParseWithClaims, GetSigningMethod, keyFunc,
      SigningMethod.isSigningMethodHMAC, nonHMACMethods]

/-- C7: when signing does not fail, `generateAccessToken` returns a token
which `validateAccessToken` accepts at every clock reading before the token's
expiry, returning claims with the user id, email, client id and scope list
that were given. -/
theorem access_token_roundtrip (P : Primitives) (amb : Ambient) (userID : Int)
    (email clientID : String) (scopes : List String) (now : Nat)
    (hs : amb.faults.signedString = false) (hnow : now < amb.nowExp + accessTokenDuration) :
    ∃ tok claims, generateAccessToken P amb userID email clientID scopes = .ok tok ∧
      tok.claims.Registered.ExpiresAt = some (amb.nowExp + accessTokenDuration) ∧
      validateAccessToken P now tok = .ok claims ∧
      claims.UserID = userID ∧ claims.Email = email ∧ claims.ClientID = clientID ∧
      claims.Scopes = scopes := by
  have hgen : ∃ tok, generateAccessToken P amb userID email clientID scopes = .ok tok ∧
      tok.alg = "HS256" ∧
      tok.signature = P.hmac SigningMethod.HS256 jwtSecretKey ("HS256", tok.claims) ∧
      tok.claims.Registered.ExpiresAt = some (amb.nowExp + accessTokenDuration) ∧
      tok.claims.Registered.NotBefore = none ∧
      tok.claims.UserID = userID ∧ tok.claims.Email = email ∧
      tok.claims.ClientID = clientID ∧ tok.claims.Scopes = scopes := by
    simp [generateAccessToken, hs]
  obtain ⟨tok, hgen, halg, hsig, hexp, hnbf, h1, h2, h3, h4⟩ := hgen
  refine ⟨tok, tok.claims, hgen, hexp, ?_, h1, h2, h3, h4⟩
  simp [validateAccessToken, ParseWithClaims, GetSigningMethod, keyFunc,
    SigningMethod.isSigningMethodHMAC, halg, hexp, hnbf, hnow, ← hsig]

theorem access_token_roundtrip_witness :
    (4799 : Nat) < (sampleAmbient 1200).nowExp + accessTokenDuration ∧
      ∃ tok claims,
        generateAccessToken stubPrimitives (sampleAmbient 1200) 1 "user@example.com" "app"
            ["read", "write"] = .ok tok ∧
        tok.claims.Registered.ExpiresAt = some ((sampleAmbient 1200).nowExp + accessTokenDuration) ∧
        validateAccessToken stubPrimitives 4799 tok = .ok claims ∧
        claims.UserID = 1 ∧ claims.Email = "user@example.com" ∧ claims.ClientID = "app" ∧
        claims.Scopes = ["read", "write"] :=
  ⟨by decide,
    access_token_roundtrip stubPrimitives (sampleAmbient 1200) 1 "user@example.com" "app"
      ["read", "write"] 4799 rfl (by decide)⟩

/-! ## Rejections of the token handler -/

/-- C11, counterexample: the response to an unregistered `client_id` and the
response to the registered client with a wrong secret differ (in their
bodies). -/
theorem client_rejections_differ :
    (tokenHandler stubPrimitives (sampleAmbient 1200) sampleDB unknownClientRequest).1 =
        .httpError "client_id tidak valid" 401 ∧
      (tokenHandler stubPrimitives (sampleAmbient 1200) sampleDB wrongSecretRequest).1 =
        .httpError "client_secret tidak valid" 401 ∧
      (tokenHandler stubPrimitives (sampleAmbient 1200) sampleDB unknownClientRequest).1 ≠
        (tokenHandler stubPrimitives (sampleAmbient 1200) sampleDB wrongSecretRequest).1 := by
  refine ⟨rfl, rfl, ?_⟩
  decide

/-- C11, amended: a token request with an unregistered `client_id` (no row of
the client table has an id that the collation of the table takes as equal to
it) and a token request with a `client_id` for which `WHERE client_id = ?`
finds a client and a secret that does not verify against the hash of that
client (the lookup of the client not failing) are both answered with status
401 and leave the database unchanged, the first with the body of
`invalidClientID`, the second with the body of `invalidClientSecret`, two
different responses. -/
theorem client_rejections_same_status (P : Primitives) (amb1 amb2 : Ambient) (db : DB)
    (r1 r2 : TokenRequest) (hp1 : r1.parseFormError = false) (hp2 : r2.parseFormError = false)
    (h1 : ∀ c ∈ db.oauth_clients, P.collate c.ClientID ≠ P.collate r1.client_id)
    (hf : amb2.faults.getOAuthClient = false)
    (h2 : ∃ c, db.oauth_clients.find? (fun c => P.collate c.ClientID = P.collate r2.client_id) =
        some c ∧
      checkPassword P r2.client_secret c.ClientSecretHash = false) :
    tokenHandler P amb1 db r1 = (invalidClientID, db) ∧
      tokenHandler P amb2 db r2 = (invalidClientSecret, db) ∧
      (tokenHandler P amb1 db r1).1.status = some 401 ∧
      (tokenHandler P amb2 db r2).1.status = some 401 ∧
      (tokenHandler P amb1 db r1).1 ≠ (tokenHandler P amb2 db r2).1 := by
  have e1 : tokenHandler P amb1 db r1 = (invalidClientID, db) := by
    cases hget : getOAuthClient P amb1 db r1.client_id with
    | error e => exact tokenHandler_client_error hp1 hget
    | ok c =>
      obtain ⟨-, hfind⟩ := getOAuthClient_ok hget
      have hid := List.find?_some hfind
      simp only [decide_eq_true_eq] at hid
      exact absurd hid (h1 c (List.mem_of_find?_eq_some hfind))
  have e2 : tokenHandler P amb2 db r2 = (invalidClientSecret, db) := by
    obtain ⟨c, hc, hs⟩ := h2
    have hget : getOAuthClient P amb2 db r2.client_id = .ok c := by
      simp [getOAuthClient, hf, hc]
    exact tokenHandler_secret_error hp2 hget hs
  have hne : invalidClientID ≠ invalidClientSecret := by decide
  rw [e1, e2]
  exact ⟨rfl, rfl, rfl, rfl, hne⟩

theorem client_rejections_same_status_witness :
    (∀ c ∈ sampleDB.oauth_clients,
        stubPrimitives.collate c.ClientID ≠
          stubPrimitives.collate unknownClientRequest.client_id) ∧
      tokenHandler stubPrimitives (sampleAmbient 1200) sampleDB unknownClientRequest =
        (invalidClientID, sampleDB) ∧
      tokenHandler stubPrimitives (sampleAmbient 1200) sampleDB wrongSecretRequest =
        (invalidClientSecret, sampleDB) ∧
      tokenHandler stubPrimitives (sampleAmbient 1200) sampleDB
        { wrongSecretRequest with client_id := "APP" } = (invalidClientSecret, sampleDB) := by
  have h1 : ∀ c ∈ sampleDB.oauth_clients,
      stubPrimitives.collate c.ClientID ≠
        stubPrimitives.collate unknownClientRequest.client_id := by
    decide
  have h := client_rejections_same_status stubPrimitives (sampleAmbient 1200)
    (sampleAmbient 1200) sampleDB unknownClientRequest wrongSecretRequest rfl rfl h1 rfl
    ⟨_, rfl, rfl⟩
  have h3 := client_rejections_same_status stubPrimitives (sampleAmbient 1200)
    (sampleAmbient 1200) sampleDB unknownClientRequest
    { wrongSecretRequest with client_id := "APP" } rfl rfl h1 rfl ⟨_, rfl, rfl⟩
  exact ⟨h1, h.1, h.2.1, h3.2.1⟩

theorem checkAuthCode_fault {P : Primitives} {amb : Ambient} {db : DB} (code cid uri : String)
    (h : amb.faults.getAuthCode = true) : checkAuthCode P amb db code cid uri = none := by
  simp [checkAuthCode, getAuthCode, h]

theorem checkRefreshToken_fault {P : Primitives} {amb : Ambient} {db : DB} (raw cid : String)
    (h : amb.faults.getRefreshToken = true) : checkRefreshToken P amb db raw cid = none := by
  simp [checkRefreshToken, getRefreshToken, h]

/-- C12, counterexample: with the database unreachable, the request of the
registered sample client with its right secret is answered with the
invalid-client rejection, and, when only the code lookup or only the
refresh-token lookup fails, with the invalid-code and the
invalid-refresh-token rejection, although client, code and refresh token are
all stored and valid. -/
theorem store_failure_reported_as_validation_error :
    tokenHandler stubPrimitives (lookupDownAmbient 1200 true true true) sampleDB
        sampleCodeRequest = (invalidClientID, sampleDB) ∧
      tokenHandler stubPrimitives (lookupDownAmbient 1200 false true false) sampleDB
        sampleCodeRequest = (invalidAuthCode, sampleDB) ∧
      tokenHandler stubPrimitives (lookupDownAmbient 1200 false false true) sampleDB
        sampleRefreshRequest = (invalidRefreshToken, sampleDB) ∧
      (tokenHandler stubPrimitives (sampleAmbient 1200) sampleDB sampleCodeRequest).1.isToken =
        true ∧
      (tokenHandler stubPrimitives (sampleAmbient 1200) sampleDB
        sampleRefreshRequest).1.isToken = true :=
  ⟨rfl, rfl, rfl, rfl, rfl⟩

/-- C12, amended: a failure of the client lookup is answered as an
unregistered `client_id` (status 401), a failure of the code lookup as an
invalid code (status 400) and a failure of the refresh-token lookup as an
invalid refresh token (status 400), in each case with the database unchanged;
a failure of the update that marks the code used is answered with status
500. -/
theorem lookup_failure_is_validation_error (P : Primitives) (amb : Ambient) (db : DB)
    (r : TokenRequest) (hp : r.parseFormError = false) :
    (amb.faults.getOAuthClient = true → tokenHandler P amb db r = (invalidClientID, db)) ∧
      (Authenticated P amb db r → r.grant_type = "authorization_code" →
        amb.faults.getAuthCode = true → tokenHandler P amb db r = (invalidAuthCode, db)) ∧
      (Authenticated P amb db r → r.grant_type = "refresh_token" →
        amb.faults.getRefreshToken = true →
        tokenHandler P amb db r = (invalidRefreshToken, db)) ∧
      (Authenticated P amb db r → r.grant_type = "authorization_code" →
        Redeemable P amb db r → amb.faults.markAuthCodeAsUsed = true →
        tokenHandler P amb db r =
          (.httpError "Gagal menandai authorization code sebagai terpakai" 500, db)) := by
  refine ⟨?_, ?_, ?_, ?_⟩
  · intro hf
    have hget : getOAuthClient P amb db r.client_id = .error .dbFailure := by
      simp [getOAuthClient, hf]
    exact tokenHandler_client_error hp hget
  · intro ha hg hf
    exact tokenHandler_code_none hp ha hg (checkAuthCode_fault _ _ _ hf)
  · intro ha hg hf
    exact tokenHandler_refresh_none hp ha hg (checkRefreshToken_fault _ _ hf)
  · intro ha hg hr hf
    cases hc : checkAuthCode P amb db r.code r.client_id r.redirect_uri with
    | none => exact absurd hr (checkAuthCode_eq_none.mp hc)
    | some a =>
      rw [tokenHandler_code_some hp ha hg hc]
      simp [finishAuthCodeGrant, markAuthCodeAsUsed, hf]

theorem lookup_failure_is_validation_error_witness :
    sampleCodeRequest.parseFormError = false ∧
      tokenHandler stubPrimitives (lookupDownAmbient 1200 true true true) sampleDB
        sampleCodeRequest = (invalidClientID, sampleDB) ∧
      tokenHandler stubPrimitives (updateDownAmbient 1200) sampleDB sampleCodeRequest =
        (.httpError "Gagal menandai authorization code sebagai terpakai" 500, sampleDB) :=
  ⟨rfl,
    (lookup_failure_is_validation_error stubPrimitives (lookupDownAmbient 1200 true true true)
      sampleDB sampleCodeRequest rfl).1 rfl,
    rfl⟩

/-- C13: a token request from an authenticated client whose `grant_type` is
neither `authorization_code` nor `refresh_token` is answered with the
unsupported-grant rejection (status 400, no token) and leaves the database,
and so the code and refresh-token tables, unchanged. -/
theorem unsupported_grant_rejected (P : Primitives) (amb : Ambient) (db : DB) (r : TokenRequest)
    (hp : r.parseFormError = false) (ha : Authenticated P amb db r)
    (h1 : r.grant_type ≠ "authorization_code") (h2 : r.grant_type ≠ "refresh_token") :
    (tokenHandler P amb db r).1 = unsupportedGrantType ∧
      (tokenHandler P amb db r).1.status = some 400 ∧
      (tokenHandler P amb db r).1.isToken = false ∧
      (tokenHandler P amb db r).2 = db := by
  rw [tokenHandler_unsupported hp ha h1 h2]
  exact ⟨rfl, rfl, rfl, rfl⟩

theorem unsupported_grant_rejected_witness :
    Authenticated stubPrimitives (sampleAmbient 1200) sampleDB passwordGrantRequest ∧
      tokenHandler stubPrimitives (sampleAmbient 1200) sampleDB passwordGrantRequest =
        (unsupportedGrantType, sampleDB) ∧
      tokenHandler stubPrimitives (sampleAmbient 1200) sampleDB
        { sampleCodeRequest with grant_type := "" } = (unsupportedGrantType, sampleDB) := by
  have ha : Authenticated stubPrimitives (sampleAmbient 1200) sampleDB passwordGrantRequest :=
    ⟨_, rfl, rfl⟩
  have h := unsupported_grant_rejected stubPrimitives (sampleAmbient 1200) sampleDB
    passwordGrantRequest rfl ha (by decide) (by decide)
  exact ⟨ha, Prod.ext h.1 h.2.2.2, rfl⟩

/-! ## What a token response contains -/

theorem storeRefreshToken_record {P : Primitives} {amb : Ambient} {db db1 : DB} {raw : String}
    {uid : Int} {cid sc : String} (h : storeRefreshToken P amb db raw uid cid sc = .ok db1) :
    db1 = { db with oauth_refresh_tokens := db.oauth_refresh_tokens ++
      [{ ID := db.oauth_refresh_tokens.length + 1, Token := P.sha256Hex raw, UserID := uid,
         ClientID := cid, Scopes := sc, ExpiresAt := amb.nowStore + refreshTokenDuration,
         Revoked := false }] } := by
  unfold storeRefreshToken hashStringSHA256 at h
  simp only [] at h
  split at h
  · cases h
  · split at h
    · cases h
    · split at h
      · cases h
      · split at h
        · cases h
        · cases h
          rfl

theorem generateAccessToken_ok {P : Primitives} {amb : Ambient} {uid : Int}
    {email cid : String} {sc : List String} {tok : TokenString JWTClaims}
    (h : generateAccessToken P amb uid email cid sc = .ok tok) :
    tok.alg = "HS256" ∧
      tok.claims =
        { UserID := uid, Email := email, ClientID := cid, Scopes := sc,
          Registered :=
            { Issuer := tokenIssuer, Subject := toString uid,
              ExpiresAt := some (amb.nowExp + accessTokenDuration), NotBefore := none,
              IssuedAt := some amb.nowIat } } ∧
      tok.signature = P.hmac SigningMethod.HS256 jwtSecretKey ("HS256", tok.claims) := by
  unfold generateAccessToken at h
  simp only [] at h
  split at h
  · cases h
  · cases h
    exact ⟨rfl, rfl, rfl⟩

/-- A token response of lines 638 to 675: its members, and what was stored. -/
theorem issueTokens_token {P : Primitives} {amb : Ambient} {db db2 : DB} {g cid : String}
    {u : User} {sc : List String} {body : TokenResponse}
    (h : issueTokens P amb db g cid u sc = (.tokenJSON body, db2)) :
    generateAccessToken P amb u.ID u.Email cid sc = .ok body.access_token ∧
      body.token_type = "Bearer" ∧ body.expires_in = (accessTokenDuration : Int) ∧
      body.scope = stringsJoin sc " " ∧
      (g = "authorization_code" →
        generateSecureRandomString amb.rand 32 = .ok body.refresh_token ∧
        storeRefreshToken P amb db body.refresh_token u.ID cid (stringsJoin sc ",") = .ok db2) ∧
      (g ≠ "authorization_code" → body.refresh_token = "" ∧ db2 = db) := by
  unfold issueTokens at h
  split at h
  · cases h
  · rename_i tok htok
    simp only [] at h
    split at h
    · rename_i hg
      split at h
      · cases h
      · rename_i raw hraw
        split at h
        · cases h
        · rename_i db1 hst
          simp only [Prod.mk.injEq, Response.tokenJSON.injEq] at h
          obtain ⟨rfl, rfl⟩ := h
          exact ⟨htok, rfl, rfl, rfl, fun _ => ⟨hraw, hst⟩, fun hne => absurd hg hne⟩
    · rename_i hg
      simp only [Prod.mk.injEq, Response.tokenJSON.injEq] at h
      obtain ⟨rfl, rfl⟩ := h
      exact ⟨htok, rfl, rfl, rfl, fun h1 => absurd h1 hg, fun _ => ⟨rfl, rfl⟩⟩

theorem selectUserByID_ok {amb : Ambient} {db : DB} {id : Int} {user : User}
    (h : selectUserByID amb db id = .ok user) :
    user.ID = id ∧ ∃ u ∈ db.user, u.ID = id ∧ u.Email = user.Email := by
  unfold selectUserByID at h
  split at h
  · cases h
  · split at h
    · rename_i u hu
      cases h
      have hid : u.ID = id := by simpa using List.find?_some hu
      exact ⟨hid, u, List.mem_of_find?_eq_some hu, hid, rfl⟩
    · cases h

theorem finishAuthCodeGrant_steps {P : Primitives} {amb : Ambient} {db db2 : DB}
    {r : TokenRequest} {a : AuthCode} {body : TokenResponse}
    (h : finishAuthCodeGrant P amb db r a = (.tokenJSON body, db2)) :
    ∃ db1 user, markAuthCodeAsUsed P amb db r.code = .ok db1 ∧
      selectUserByID amb db1 a.UserID = .ok user ∧
      issueTokens P amb db1 r.grant_type r.client_id user (stringsSplit a.Scopes ',') =
        (.tokenJSON body, db2) := by
  unfold finishAuthCodeGrant at h
  split at h
  · cases h
  · rename_i db1 hm
    split at h
    · cases h
    · rename_i user hu
      exact ⟨db1, user, hm, hu, h⟩

theorem finishRefreshGrant_steps {P : Primitives} {amb : Ambient} {db db2 : DB}
    {r : TokenRequest} {t : RefreshToken} {body : TokenResponse}
    (h : finishRefreshGrant P amb db r t = (.tokenJSON body, db2)) :
    ∃ user, selectUserByID amb db t.UserID = .ok user ∧
      issueTokens P amb db r.grant_type r.client_id user (stringsSplit t.Scopes ',') =
        (.tokenJSON body, db2) := by
  unfold finishRefreshGrant at h
  split at h
  · cases h
  · rename_i user hu
    exact ⟨user, hu, h⟩

/-- Every token response comes from `issueTokens`, called for the user and
the scope string of the code or of the refresh token that passed the test. -/
theorem tokenHandler_token {P : Primitives} {amb : Ambient} {db db2 : DB} {r : TokenRequest}
    {body : TokenResponse} (h : tokenHandler P amb db r = (.tokenJSON body, db2)) :
    (∃ a db1 user, r.grant_type = "authorization_code" ∧
        checkAuthCode P amb db r.code r.client_id r.redirect_uri = some a ∧
        markAuthCodeAsUsed P amb db r.code = .ok db1 ∧
        selectUserByID amb db1 a.UserID = .ok user ∧
        issueTokens P amb db1 r.grant_type r.client_id user (stringsSplit a.Scopes ',') =
          (.tokenJSON body, db2)) ∨
      ∃ t user, r.grant_type = "refresh_token" ∧
        checkRefreshToken P amb db r.refresh_token r.client_id = some t ∧
        selectUserByID amb db t.UserID = .ok user ∧
        issueTokens P amb db r.grant_type r.client_id user (stringsSplit t.Scopes ',') =
          (.tokenJSON body, db2) := by
  rcases tokenHandler_outcomes P amb db r with ⟨-, h1⟩ | ⟨a, hg, hc, h1⟩ | ⟨t, hg, hc, h1⟩
  · rw [h] at h1
    cases h1
  · rw [h1] at h
    obtain ⟨db1, user, hm, hu, hi⟩ := finishAuthCodeGrant_steps h
    exact Or.inl ⟨a, db1, user, hg, hc, hm, hu, hi⟩
  · rw [h1] at h
    obtain ⟨user, hu, hi⟩ := finishRefreshGrant_steps h
    exact Or.inr ⟨t, user, hg, hc, hu, hi⟩

theorem EncodeToString_length (l : List (Fin 256)) :
    (EncodeToString l).length = 4 * ((l.length + 2) / 3) := by
  induction l using EncodeToString.induct with
  | case1 => rfl
  | case2 a => simp [EncodeToString]
  | case3 a b => simp [EncodeToString]
  | case4 a b c rest ih =>
    simp only [EncodeToString, List.length_cons, ih]
    omega

theorem generateSecureRandomString_length {rand : RandSource} {n : Nat} {s : String}
    (h : generateSecureRandomString rand n = .ok s) : s.length = 4 * ((n + 2) / 3) := by
  unfold generateSecureRandomString at h
  split at h
  · cases h
  · cases h
    simp [String.length, EncodeToString_length]

/-! ## Splitting and joining scope strings -/

theorem splitChars_ne_nil (c : Char) (l : List Char) : splitChars c l ≠ [] := by
  cases l with
  | nil => simp [splitChars]
  | cons x xs =>
    unfold splitChars
    split
    · simp
    · split <;> simp

theorem splitChars_join (c : Char) (l : List Char) :
    ∀ w ws, splitChars c l = w :: ws → w ++ (ws.map (fun x => c :: x)).flatten = l := by
  induction l with
  | nil =>
    intro w ws h
    simp only [splitChars, List.cons.injEq] at h
    obtain ⟨rfl, rfl⟩ := h
    rfl
  | cons x xs ih =>
    intro w ws h
    unfold splitChars at h
    split at h
    · rename_i hx
      simp only [List.cons.injEq] at h
      obtain ⟨rfl, rfl⟩ := h
      cases hs : splitChars c xs with
      | nil => exact absurd hs (splitChars_ne_nil c xs)
      | cons w1 ws1 =>
        have := ih w1 ws1 hs
        simp only [List.map_cons, List.flatten_cons, List.nil_append, List.cons_append, hx]
        rw [this]
    · split at h
      · rename_i hs
        exact absurd hs (splitChars_ne_nil c xs)
      · rename_i w1 ws1 hs
        simp only [List.cons.injEq] at h
        obtain ⟨rfl, rfl⟩ := h
        have := ih w1 ws1 hs
        simp only [List.cons_append]
        rw [this]

theorem intercalate_go_data (sep : String) (l : List (List Char)) :
    ∀ acc : String, (String.intercalate.go acc sep (l.map String.mk)).data =
      acc.data ++ (l.map (fun x => sep.data ++ x)).flatten := by
  induction l with
  | nil => intro acc; simp [String.intercalate.go]
  | cons x xs ih =>
    intro acc
    simp only [List.map_cons, String.intercalate.go, ih, String.data_append, List.flatten_cons,
      List.append_assoc]

/-- Go `strings.Join(strings.Split(s, ","), ",") == s`. -/
theorem stringsJoin_stringsSplit (s : String) : stringsJoin (stringsSplit s ',') "," = s := by
  unfold stringsJoin stringsSplit
  cases hs : splitChars ',' s.data with
  | nil => exact absurd hs (splitChars_ne_nil ',' s.data)
  | cons w ws =>
    have h := splitChars_join ',' s.data w ws hs
    apply String.ext
    simp only [List.map_cons, String.intercalate, intercalate_go_data]
    exact h

/-- Splitting, joining with the same separator and splitting again gives the
first list. -/
theorem stringsSplit_join_split (s : String) :
    stringsSplit (stringsJoin (stringsSplit s ',') ",") ',' = stringsSplit s ',' := by
  rw [stringsJoin_stringsSplit]

/-! ## Claims on what an exchange stores and returns -/

theorem markAuthCodeAsUsed_eq {P : Primitives} {amb : Ambient} {db db1 : DB} {code : String}
    (h : markAuthCodeAsUsed P amb db code = .ok db1) :
    db1 = { db with
      oauth_auth_codes := db.oauth_auth_codes.map (AuthCode.setUsedWhere P code) } := by
  unfold markAuthCodeAsUsed at h
  split at h
  · cases h
  · cases h
    rfl

theorem storeRefreshToken_fresh {P : Primitives} {amb : Ambient} {db db1 : DB} {raw : String}
    {uid : Int} {cid sc : String} (h : storeRefreshToken P amb db raw uid cid sc = .ok db1) :
    db.oauth_refresh_tokens.find? (fun t => t.Token = P.sha256Hex raw) = none := by
  unfold storeRefreshToken hashStringSHA256 at h
  simp only [] at h
  split at h
  · cases h
  · split at h
    · cases h
    · rename_i hany
      rw [List.find?_eq_none]
      intro x hx hp
      exact hany (List.any_eq_true.mpr ⟨x, hx, hp⟩)

/-- A token response to the `authorization_code` grant: the code redeemed,
the database after the call and the members of the response. -/
theorem code_exchange_result {P : Primitives} {amb : Ambient} {db db2 : DB} {r : TokenRequest}
    {body : TokenResponse} (hg : r.grant_type = "authorization_code")
    (h : tokenHandler P amb db r = (.tokenJSON body, db2)) :
    ∃ a, db.oauth_auth_codes.find? (fun a => P.collate a.Code = P.collate r.code) = some a ∧
      a.ClientID = r.client_id ∧
      db.oauth_refresh_tokens.find? (fun t => t.Token = P.sha256Hex body.refresh_token) =
        none ∧
      db2 = { db with
        oauth_auth_codes := db.oauth_auth_codes.map (AuthCode.setUsedWhere P r.code),
        oauth_refresh_tokens := db.oauth_refresh_tokens ++
          [{ ID := db.oauth_refresh_tokens.length + 1,
             Token := P.sha256Hex body.refresh_token, UserID := a.UserID,
             ClientID := a.ClientID, Scopes := a.Scopes,
             ExpiresAt := amb.nowStore + refreshTokenDuration, Revoked := false }] } ∧
      generateSecureRandomString amb.rand 32 = .ok body.refresh_token ∧
      (∃ u ∈ db.user, u.ID = a.UserID ∧
        generateAccessToken P amb a.UserID u.Email a.ClientID (stringsSplit a.Scopes ',') =
          .ok body.access_token) := by
  have hne : ¬ ("authorization_code" = "refresh_token") := by decide
  rcases tokenHandler_token h with ⟨a, db1, user, -, hc, hm, hu, hi⟩ | ⟨t, user, hg2, -⟩
  · obtain ⟨-, hfind, -, -, hcid, -⟩ := checkAuthCode_some hc
    obtain ⟨htok, -, -, -, hnew, -⟩ := issueTokens_token hi
    obtain ⟨hraw, hst⟩ := hnew hg
    have hrec := storeRefreshToken_record hst
    have hfresh := storeRefreshToken_fresh hst
    have hdb1 := markAuthCodeAsUsed_eq hm
    obtain ⟨huid, u, humem, huid2, hemail⟩ := selectUserByID_ok hu
    subst hdb1
    refine ⟨a, hfind, hcid, hfresh, ?_, hraw, u, humem, huid2, ?_⟩
    · rw [hrec, huid, stringsJoin_stringsSplit, hcid]
    · rw [hemail, hcid, ← huid]
      exact htok
  · rw [hg] at hg2
    exact absurd hg2 hne

/-- C14: a token response to the `authorization_code` grant adds exactly one
record to the refresh-token table and changes no other record of it: the
record holds the SHA-256 hex digest of the raw refresh token of the response
(which differs from the raw token whenever digests have 64 characters), the
user, client and scope string of the redeemed code, revoked = false and
expiry = clock reading + 7 days; the access token of the response carries
that user, that client and the list of that scope string. -/
theorem code_exchange_stores_one_refresh_token (P : Primitives) (amb : Ambient) (db db2 : DB)
    (r : TokenRequest) (body : TokenResponse) (hg : r.grant_type = "authorization_code")
    (h : tokenHandler P amb db r = (.tokenJSON body, db2)) :
    ∃ a, db.oauth_auth_codes.find? (fun a => P.collate a.Code = P.collate r.code) = some a ∧
      db2.oauth_refresh_tokens = db.oauth_refresh_tokens ++
        [{ ID := db.oauth_refresh_tokens.length + 1,
           Token := P.sha256Hex body.refresh_token, UserID := a.UserID,
           ClientID := a.ClientID, Scopes := a.Scopes,
           ExpiresAt := amb.nowStore + 7 * 24 * 3600, Revoked := false }] ∧
      ((∀ s, (P.sha256Hex s).length = 64) →
        P.sha256Hex body.refresh_token ≠ body.refresh_token) ∧
      body.access_token.claims.UserID = a.UserID ∧
      body.access_token.claims.ClientID = a.ClientID ∧
      body.access_token.claims.Scopes = stringsSplit a.Scopes ',' ∧
      a.ClientID = r.client_id := by
  obtain ⟨a, hfind, hcid, -, hdb, hraw, u, -, -, htok⟩ := code_exchange_result hg h
  obtain ⟨-, hclaims, -⟩ := generateAccessToken_ok htok
  refine ⟨a, hfind, ?_, ?_, ?_, ?_, ?_, hcid⟩
  · rw [hdb]
    rfl
  · intro hlen heq
    have h1 := hlen body.refresh_token
    rw [heq, generateSecureRandomString_length hraw] at h1
    omega
  · rw [hclaims]
  · rw [hclaims]
  · rw [hclaims]

theorem code_exchange_stores_one_refresh_token_witness :
    ∃ body db2 a,
      tokenHandler stubPrimitives (sampleAmbient 1200) sampleDB sampleCodeRequest =
        (.tokenJSON body, db2) ∧
      body.refresh_token = "AAECAwQFBgcICQoLDA0ODxAREhMUFRYXGBkaGxwdHh8=" ∧
      sampleDB.oauth_auth_codes.find? (fun a =>
        stubPrimitives.collate a.Code = stubPrimitives.collate sampleCodeRequest.code) = some a ∧
      db2.oauth_refresh_tokens = sampleDB.oauth_refresh_tokens ++
        [{ ID := sampleDB.oauth_refresh_tokens.length + 1,
           Token := stubPrimitives.sha256Hex body.refresh_token, UserID := a.UserID,
           ClientID := a.ClientID, Scopes := a.Scopes,
           ExpiresAt := (sampleAmbient 1200).nowStore + 7 * 24 * 3600, Revoked := false }] := by
  have hx : ∃ body db2,
      tokenHandler stubPrimitives (sampleAmbient 1200) sampleDB sampleCodeRequest =
        (.tokenJSON body, db2) ∧
      body.refresh_token = "AAECAwQFBgcICQoLDA0ODxAREhMUFRYXGBkaGxwdHh8=" :=
    ⟨_, _, rfl, rfl⟩
  obtain ⟨body, db2, h, hr⟩ := hx
  obtain ⟨a, ha, hrec, -⟩ := code_exchange_stores_one_refresh_token stubPrimitives
    (sampleAmbient 1200) sampleDB db2 sampleCodeRequest body rfl h
  exact ⟨body, db2, a, h, hr, ha, hrec⟩

/-- A token response to the `refresh_token` grant: the database is unchanged,
the response carries no refresh token, and the access token is minted for the
record found for the presented token. -/
theorem refresh_exchange_result {P : Primitives} {amb : Ambient} {db db2 : DB}
    {r : TokenRequest} {body : TokenResponse} (hg : r.grant_type = "refresh_token")
    (h : tokenHandler P amb db r = (.tokenJSON body, db2)) :
    db2 = db ∧ body.refresh_token = "" ∧
      ∃ t, db.oauth_refresh_tokens.find? (fun t => t.Token = P.sha256Hex r.refresh_token) =
          some t ∧
        t.Revoked = false ∧ t.ClientID = r.client_id ∧
        generateAccessToken P amb t.UserID body.access_token.claims.Email t.ClientID
          (stringsSplit t.Scopes ',') = .ok body.access_token := by
  have hne : ¬ ("refresh_token" = "authorization_code") := by decide
  have hne2 : r.grant_type ≠ "authorization_code" := by
    rw [hg]
    exact hne
  rcases tokenHandler_token h with ⟨a, db1, user, hg1, -⟩ | ⟨t, user, -, hc, hu, hi⟩
  · exact absurd hg1 hne2
  · obtain ⟨htok, -, -, -, -, hold⟩ := issueTokens_token hi
    obtain ⟨hempty, hdb⟩ := hold hne2
    obtain ⟨-, hfind, hrev, -, hcid⟩ := checkRefreshToken_some hc
    obtain ⟨huid, -⟩ := selectUserByID_ok hu
    obtain ⟨-, hclaims, -⟩ := generateAccessToken_ok htok
    refine ⟨hdb, hempty, t, hfind, hrev, hcid, ?_⟩
    rw [hclaims, hcid, ← huid]
    exact htok

/-! ## Records of the refresh-token table keep their fields -/

theorem find_record_of_evolve {xs ys : List RefreshToken} {c cid sc : String} {e : Nat}
    (he : TokensEvolve xs ys)
    (h : ∃ t, xs.find? (fun t => t.Token = c) = some t ∧ t.ClientID = cid ∧
      t.ExpiresAt = e ∧ t.Scopes = sc) :
    ∃ t, ys.find? (fun t => t.Token = c) = some t ∧ t.ClientID = cid ∧ t.ExpiresAt = e ∧
      t.Scopes = sc := by
  obtain ⟨t, hf, h1, h2, h3⟩ := h
  rcases he with he | ⟨b, he⟩ | ⟨code, he⟩
  · exact ⟨t, by rw [he]; exact hf, h1, h2, h3⟩
  · refine ⟨t, ?_, h1, h2, h3⟩
    rw [he, List.find?_append, hf]
    rfl
  · refine ⟨RefreshToken.setRevokedWhere code t, ?_, ?_, ?_, ?_⟩
    · rw [he, find_setRevokedWhere, hf]
      rfl
    · rw [← h1]
      unfold RefreshToken.setRevokedWhere
      split <;> rfl
    · rw [← h2]
      unfold RefreshToken.setRevokedWhere
      split <;> rfl
    · rw [← h3]
      unfold RefreshToken.setRevokedWhere
      split <;> rfl

theorem run_find_record (P : Primitives) (ops : List Op) :
    ∀ (db : DB) (c cid sc : String) (e : Nat),
      (∃ t, db.oauth_refresh_tokens.find? (fun t => t.Token = c) = some t ∧
        t.ClientID = cid ∧ t.ExpiresAt = e ∧ t.Scopes = sc) →
      ∃ t, (run P db ops).oauth_refresh_tokens.find? (fun t => t.Token = c) = some t ∧
        t.ClientID = cid ∧ t.ExpiresAt = e ∧ t.Scopes = sc := by
  induction ops with
  | nil => intro db c cid sc e h; exact h
  | cons op ops ih =>
    intro db c cid sc e h
    exact ih (step P db op) c cid sc e (find_record_of_evolve (step_tokens P db op) h)

/-- C15: a token response to the `refresh_token` grant leaves the whole
database, and so the refresh-token table, unchanged and carries one access
token and no refresh token; after any sequence of later calls the presented
token still passes the test of an exchange by the same client, provided the
lookup does not fail, the clock reading is not after the expiry of the record
and the record has not been revoked. -/
theorem refresh_exchange_keeps_store (P : Primitives) (amb : Ambient) (db db2 : DB)
    (r : TokenRequest) (body : TokenResponse) (hg : r.grant_type = "refresh_token")
    (h : tokenHandler P amb db r = (.tokenJSON body, db2)) :
    db2 = db ∧ body.refresh_token = "" ∧
      ∃ t, db.oauth_refresh_tokens.find? (fun t => t.Token = P.sha256Hex r.refresh_token) =
          some t ∧
        ∀ (ops : List Op) (amb2 : Ambient), amb2.faults.getRefreshToken = false →
          ¬ amb2.nowCheck > t.ExpiresAt →
          ¬ HashRevoked (run P db2 ops) (P.sha256Hex r.refresh_token) →
          RefreshValid P amb2 (run P db2 ops) r := by
  obtain ⟨hdb, hempty, t, hfind, -, hcid, -⟩ := refresh_exchange_result hg h
  refine ⟨hdb, hempty, t, hfind, ?_⟩
  intro ops amb2 hf hexp hnr
  rw [hdb] at hnr ⊢
  obtain ⟨t1, hfind1, h1, h2, -⟩ :=
    run_find_record P ops db _ _ _ _ ⟨t, hfind, hcid, rfl, rfl⟩
  have hrev : t1.Revoked = false := by
    cases hr : t1.Revoked with
    | false => rfl
    | true => exact absurd ⟨t1, hfind1, hr⟩ hnr
  exact ⟨hf, t1, hfind1, hrev, by rw [h2]; exact hexp, h1⟩

theorem refresh_exchange_keeps_store_witness :
    ∃ body db2,
      tokenHandler stubPrimitives (sampleAmbient 1200) sampleDB sampleRefreshRequest =
        (.tokenJSON body, db2) ∧
      db2 = sampleDB ∧ body.refresh_token = "" ∧
      (tokenHandler stubPrimitives (sampleAmbient 605800) db2 sampleRefreshRequest).1.isToken =
        true := by
  have hx : ∃ body db2,
      tokenHandler stubPrimitives (sampleAmbient 1200) sampleDB sampleRefreshRequest =
        (.tokenJSON body, db2) ∧
      (tokenHandler stubPrimitives (sampleAmbient 605800) db2 sampleRefreshRequest).1.isToken =
        true :=
    ⟨_, _, rfl, rfl⟩
  obtain ⟨body, db2, h, h2⟩ := hx
  obtain ⟨hdb, hempty, -⟩ := refresh_exchange_keeps_store stubPrimitives (sampleAmbient 1200)
    sampleDB db2 sampleRefreshRequest body rfl h
  exact ⟨body, db2, h, hdb, hempty, h2⟩

/-- C16: splitting a scope string on the comma, joining the list with the
comma and splitting again gives the same list; so, after a token response to
the `authorization_code` grant and any sequence of calls, a token response to
the `refresh_token` grant for the refresh token of the first response carries
an access token with the same scope list as the access token of the first. -/
theorem refreshed_scope_equals_granted_scope (P : Primitives) (amb1 amb2 : Ambient)
    (db db1 db3 : DB) (r1 r2 : TokenRequest) (body1 body2 : TokenResponse) (ops : List Op)
    (hg1 : r1.grant_type = "authorization_code")
    (h1 : tokenHandler P amb1 db r1 = (.tokenJSON body1, db1))
    (hg2 : r2.grant_type = "refresh_token") (hraw : r2.refresh_token = body1.refresh_token)
    (h2 : tokenHandler P amb2 (run P db1 ops) r2 = (.tokenJSON body2, db3)) :
    (∀ s, stringsSplit (stringsJoin (stringsSplit s ',') ",") ',' = stringsSplit s ',') ∧
      body2.access_token.claims.Scopes = body1.access_token.claims.Scopes := by
  refine ⟨stringsSplit_join_split, ?_⟩
  obtain ⟨a, -, -, hfresh, hdb, -, u, -, -, htok1⟩ := code_exchange_result hg1 h1
  obtain ⟨-, hclaims1, -⟩ := generateAccessToken_ok htok1
  have hinit : ∃ t, db1.oauth_refresh_tokens.find?
      (fun t => t.Token = P.sha256Hex body1.refresh_token) = some t ∧
      t.ClientID = a.ClientID ∧ t.ExpiresAt = amb1.nowStore + refreshTokenDuration ∧
      t.Scopes = a.Scopes := by
    rw [hdb]
    simp only [List.find?_append, hfresh]
    simp
  obtain ⟨t1, hfind1, -, -, hsc⟩ := run_find_record P ops db1 _ _ _ _ hinit
  obtain ⟨-, -, t, hfind, -, -, htok2⟩ := refresh_exchange_result hg2 h2
  rw [hraw, hfind1] at hfind
  cases hfind
  obtain ⟨-, hclaims2, -⟩ := generateAccessToken_ok htok2
  rw [hclaims1, hclaims2, hsc]

theorem refreshed_scope_equals_granted_scope_witness :
    ∃ body1 db1 body2 db3,
      tokenHandler stubPrimitives (sampleAmbient 1200) sampleDB sampleCodeRequest =
        (.tokenJSON body1, db1) ∧
      tokenHandler stubPrimitives (sampleAmbient 1300) (run stubPrimitives db1 sampleOpsBetween)
          { sampleRefreshRequest with
            refresh_token := "AAECAwQFBgcICQoLDA0ODxAREhMUFRYXGBkaGxwdHh8=" } =
        (.tokenJSON body2, db3) ∧
      body2.access_token.claims.Scopes = body1.access_token.claims.Scopes ∧
      body1.access_token.claims.Scopes = ["read", "write"] := by
  have hx : ∃ body1 db1 body2 db3,
      tokenHandler stubPrimitives (sampleAmbient 1200) sampleDB sampleCodeRequest =
        (.tokenJSON body1, db1) ∧
      body1.refresh_token = "AAECAwQFBgcICQoLDA0ODxAREhMUFRYXGBkaGxwdHh8=" ∧
      body1.access_token.claims.Scopes = ["read", "write"] ∧
      tokenHandler stubPrimitives (sampleAmbient 1300) (run stubPrimitives db1 sampleOpsBetween)
          { sampleRefreshRequest with
            refresh_token := "AAECAwQFBgcICQoLDA0ODxAREhMUFRYXGBkaGxwdHh8=" } =
        (.tokenJSON body2, db3) :=
    ⟨_, _, _, _, rfl, rfl, rfl, rfl⟩
  obtain ⟨body1, db1, body2, db3, h1, hr, hs, h2⟩ := hx
  exact ⟨body1, db1, body2, db3, h1, h2,
    (refreshed_scope_equals_granted_scope stubPrimitives (sampleAmbient 1200)
      (sampleAmbient 1300) sampleDB db1 db3 sampleCodeRequest _ body1 body2 sampleOpsBetween rfl
      h1 rfl hr.symm h2).2, hs⟩

/-! ## Minted claims and the members of the token response -/

/-- C17: when signing does not fail, `generateAccessToken` called at clock
reading `amb.nowExp` returns a token whose claims have expiry
`amb.nowExp + 3600` seconds, the configured issuer, the decimal rendering
of the user id as subject, and the user id, email, client id and scope list
given; and every token response of the token handler has `expires_in`
3600. -/
theorem minted_claims (P : Primitives) (amb : Ambient) (userID : Int) (email clientID : String)
    (scopes : List String) (hs : amb.faults.signedString = false) :
    (∃ tok, generateAccessToken P amb userID email clientID scopes = .ok tok ∧
        tok.claims.Registered.ExpiresAt = some (amb.nowExp + 3600) ∧
        tok.claims.Registered.Issuer = "aplikasi-oauth-saya.com" ∧
        tok.claims.Registered.Subject = toString userID ∧
        tok.claims.UserID = userID ∧ tok.claims.Email = email ∧
        tok.claims.ClientID = clientID ∧ tok.claims.Scopes = scopes) ∧
      ∀ (amb1 : Ambient) (db db2 : DB) (r : TokenRequest) (body : TokenResponse),
        tokenHandler P amb1 db r = (.tokenJSON body, db2) → body.expires_in = 3600 := by
  constructor
  · have hgen : ∃ tok, generateAccessToken P amb userID email clientID scopes = .ok tok := by
      simp [generateAccessToken, hs]
    obtain ⟨tok, hgen⟩ := hgen
    obtain ⟨-, hclaims, -⟩ := generateAccessToken_ok hgen
    refine ⟨tok, hgen, ?_⟩
    rw [hclaims]
    exact ⟨rfl, rfl, rfl, rfl, rfl, rfl, rfl⟩
  · intro amb1 db db2 r body h
    rcases tokenHandler_token h with ⟨a, db1, user, -, -, -, -, hi⟩ | ⟨t, user, -, -, -, hi⟩
    · rw [(issueTokens_token hi).2.2.1]
      rfl
    · rw [(issueTokens_token hi).2.2.1]
      rfl

theorem minted_claims_witness :
    (sampleAmbient 1200).faults.signedString = false ∧
      ∃ tok, generateAccessToken stubPrimitives (sampleAmbient 1200) 42 "user@example.com"
            "app" ["read", "write"] = .ok tok ∧
        tok.claims.Registered.ExpiresAt = some 4800 ∧
        tok.claims.Registered.Subject = "42" := by
  obtain ⟨tok, h, hexp, -, hsub, -⟩ :=
    (minted_claims stubPrimitives (sampleAmbient 1200) 42 "user@example.com" "app"
      ["read", "write"] rfl).1
  exact ⟨rfl, tok, h, hexp, hsub⟩

/-- C18: every token response has the token type `Bearer`; for the
`authorization_code` grant its refresh token is the raw token whose digest
was stored by this call, a string of 44 characters; for the `refresh_token`
grant, where no token is minted and nothing is stored, the response still has
the member `refresh_token`, with the empty string as its value (the comment
of line 673 says the member is sent only when a token was minted or
rotated). -/
theorem token_response_members (P : Primitives) (amb : Ambient) (db db2 : DB)
    (r : TokenRequest) (body : TokenResponse)
    (h : tokenHandler P amb db r = (.tokenJSON body, db2)) :
    body.token_type = "Bearer" ∧
      (r.grant_type = "authorization_code" ∨ r.grant_type = "refresh_token") ∧
      (r.grant_type = "authorization_code" →
        body.refresh_token.length = 44 ∧
        ∃ t, db2.oauth_refresh_tokens = db.oauth_refresh_tokens ++ [t] ∧
          t.Token = P.sha256Hex body.refresh_token) ∧
      (r.grant_type = "refresh_token" → body.refresh_token = "" ∧ db2 = db) := by
  have htype : body.token_type = "Bearer" := by
    rcases tokenHandler_token h with ⟨a, db1, user, -, -, -, -, hi⟩ | ⟨t, user, -, -, -, hi⟩
    · exact (issueTokens_token hi).2.1
    · exact (issueTokens_token hi).2.1
  have hgrant : r.grant_type = "authorization_code" ∨ r.grant_type = "refresh_token" := by
    rcases tokenHandler_token h with ⟨a, db1, user, hg, -⟩ | ⟨t, user, hg, -⟩
    · exact Or.inl hg
    · exact Or.inr hg
  refine ⟨htype, hgrant, ?_, ?_⟩
  · intro hg
    obtain ⟨a, -, -, -, hdb, hraw, -⟩ := code_exchange_result hg h
    refine ⟨generateSecureRandomString_length hraw, ?_⟩
    rw [hdb]
    exact ⟨_, rfl, rfl⟩
  · intro hg
    obtain ⟨hdb, hempty, -⟩ := refresh_exchange_result hg h
    exact ⟨hempty, hdb⟩

theorem token_response_members_witness :
    ∃ body db2,
      tokenHandler stubPrimitives (sampleAmbient 1200) sampleDB sampleRefreshRequest =
        (.tokenJSON body, db2) ∧
      body.token_type = "Bearer" ∧ body.refresh_token = "" := by
  have hx : ∃ body db2,
      tokenHandler stubPrimitives (sampleAmbient 1200) sampleDB sampleRefreshRequest =
        (.tokenJSON body, db2) :=
    ⟨_, _, rfl⟩
  obtain ⟨body, db2, h⟩ := hx
  obtain ⟨h1, -, -, h2⟩ := token_response_members stubPrimitives (sampleAmbient 1200) sampleDB
    db2 sampleRefreshRequest body h
  exact ⟨body, db2, h, h1, (h2 rfl).1⟩

/-! ## The authorize endpoint -/

/-- C19: a GET authorize request is answered with the login form exactly when
`client_id`, `response_type` and `redirect_uri` are non-empty,
`response_type` is `code`, the client lookup finds a client and
`redirect_uri` is equal to one of the redirect URIs of that client; every
other GET authorize request is answered with status 400; no GET authorize
request changes the database.  The lookup `WHERE client_id = ?` finds the
first client whose id the collation of the table takes as equal to the
submitted one; the redirect URI is compared by the Go code, as a string. -/
theorem authorize_get_login_form_iff (P : Primitives) (amb : Ambient) (db : DB)
    (r : AuthorizeRequest) (hm : r.Method = "GET") :
    ((authorizeHandler P amb db r).1.isLoginPage = true ↔ AuthorizeValid P amb db r) ∧
      (¬ AuthorizeValid P amb db r →
        ∃ msg, (authorizeHandler P amb db r).1 = .httpError msg 400) ∧
      (authorizeHandler P amb db r).2 = db := by
  by_cases h1 : r.client_id = "" ∨ r.response_type = "" ∨ r.redirect_uri = ""
  · have hnot : ¬ AuthorizeValid P amb db r := by
      rintro ⟨a, b, c, -⟩
      rcases h1 with h | h | h
      · exact a h
      · exact b h
      · exact c h
    have he : authorizeHandler P amb db r =
        (.httpError "Parameter client_id, response_type, dan redirect_uri diperlukan" 400,
          db) := by
      simp [authorizeHandler, hm, h1]
    rw [he]
    exact ⟨⟨fun h => (by cases h), fun h => absurd h hnot⟩, fun _ => ⟨_, rfl⟩, rfl⟩
  · have h1' := h1
    simp only [not_or] at h1'
    obtain ⟨ha, hb, hc⟩ := h1'
    by_cases h2 : r.response_type = "code"
    · cases hget : getOAuthClient P amb db r.client_id with
      | error e =>
        have hnot : ¬ AuthorizeValid P amb db r := by
          rintro ⟨-, -, -, -, hf, c, hfind, -⟩
          simp [getOAuthClient, hf, hfind] at hget
        have he : authorizeHandler P amb db r = (.httpError "client_id tidak valid" 400, db) := by
          simp [authorizeHandler, hm, ha, hc, h2, hget]
        rw [he]
        exact ⟨⟨fun h => (by cases h), fun h => absurd h hnot⟩, fun _ => ⟨_, rfl⟩, rfl⟩
      | ok c =>
        obtain ⟨hf, hfind⟩ := getOAuthClient_ok hget
        by_cases h3 : r.redirect_uri ∈ c.RedirectURIs
        · have hvalid : AuthorizeValid P amb db r := ⟨ha, hb, hc, h2, hf, c, hfind, h3⟩
          have hany : (c.RedirectURIs.any fun uri => decide (uri = r.redirect_uri)) = true := by
            rw [List.any_eq_true]
            exact ⟨_, h3, by simp⟩
          have he : (authorizeHandler P amb db r).1.isLoginPage = true ∧
              (authorizeHandler P amb db r).2 = db := by
            simp [authorizeHandler, hm, ha, hc, h2, hget, hany, Response.isLoginPage]
          exact ⟨⟨fun _ => hvalid, fun _ => he.1⟩, fun h => absurd hvalid h, he.2⟩
        · have hnot : ¬ AuthorizeValid P amb db r := by
            rintro ⟨-, -, -, -, -, c1, hfind1, hmem⟩
            rw [hfind] at hfind1
            cases hfind1
            exact h3 hmem
          have hany : (c.RedirectURIs.any fun uri => decide (uri = r.redirect_uri)) = false := by
            rw [List.any_eq_false]
            intro x hx hdec
            simp only [decide_eq_true_eq] at hdec
            exact h3 (hdec ▸ hx)
          have he : authorizeHandler P amb db r =
              (.httpError "redirect_uri tidak valid untuk klien ini" 400, db) := by
            simp [authorizeHandler, hm, ha, hc, h2, hget, hany]
          rw [he]
          exact ⟨⟨fun h => (by cases h), fun h => absurd h hnot⟩, fun _ => ⟨_, rfl⟩, rfl⟩
    · have hnot : ¬ AuthorizeValid P amb db r := by
        rintro ⟨-, -, -, h, -⟩
        exact h2 h
      have he : authorizeHandler P amb db r = (.httpError "response_type harus code" 400, db) := by
        simp [authorizeHandler, hm, ha, hb, hc, h2]
      rw [he]
      exact ⟨⟨fun h => (by cases h), fun h => absurd h hnot⟩, fun _ => ⟨_, rfl⟩, rfl⟩

theorem authorize_get_login_form_iff_witness :
    AuthorizeValid stubPrimitives (sampleAmbient 1200) sampleDB sampleAuthorizeGet ∧
      (authorizeHandler stubPrimitives (sampleAmbient 1200) sampleDB
        sampleAuthorizeGet).1.isLoginPage = true ∧
      (authorizeHandler stubPrimitives (sampleAmbient 1200) sampleDB
        { sampleAuthorizeGet with redirect_uri := "https://app.example/cb/more" }).1 =
        .httpError "redirect_uri tidak valid untuk klien ini" 400 ∧
      (authorizeHandler stubPrimitives (sampleAmbient 1200) sampleDB
        { sampleAuthorizeGet with redirect_uri := "https://app.example" }).1 =
        .httpError "redirect_uri tidak valid untuk klien ini" 400 ∧
      (authorizeHandler stubPrimitives (sampleAmbient 1200) sampleDB
        { sampleAuthorizeGet with redirect_uri := "HTTPS://APP.EXAMPLE/CB" }).1 =
        .httpError "redirect_uri tidak valid untuk klien ini" 400 ∧
      AuthorizeValid stubPrimitives (sampleAmbient 1200) sampleDB
        { sampleAuthorizeGet with client_id := "APP" } ∧
      (authorizeHandler stubPrimitives (sampleAmbient 1200) sampleDB
        { sampleAuthorizeGet with client_id := "APP" }).1.isLoginPage = true ∧
      ¬ AuthorizeValid stubPrimitives (sampleAmbient 1200) sampleDB
        { sampleAuthorizeGet with client_id := "nobody" } ∧
      (authorizeHandler stubPrimitives (sampleAmbient 1200) sampleDB
        { sampleAuthorizeGet with client_id := "nobody" }).1 =
        .httpError "client_id tidak valid" 400 := by
  have hv : AuthorizeValid stubPrimitives (sampleAmbient 1200) sampleDB sampleAuthorizeGet :=
    ⟨by decide, by decide, by decide, rfl, rfl, _, rfl, by decide⟩
  have hv2 : AuthorizeValid stubPrimitives (sampleAmbient 1200) sampleDB
      { sampleAuthorizeGet with client_id := "APP" } :=
    ⟨by decide, by decide, by decide, rfl, rfl, _, rfl, by decide⟩
  have hv3 : ¬ AuthorizeValid stubPrimitives (sampleAmbient 1200) sampleDB
      { sampleAuthorizeGet with client_id := "nobody" } := by
    rintro ⟨-, -, -, -, -, c, hfind, -⟩
    have hnone : sampleDB.oauth_clients.find? (fun c =>
        stubPrimitives.collate c.ClientID = stubPrimitives.collate "nobody") = none := by
      decide
    rw [hnone] at hfind
    cases hfind
  exact ⟨hv,
    (authorize_get_login_form_iff stubPrimitives (sampleAmbient 1200) sampleDB
      sampleAuthorizeGet rfl).1.mpr hv, rfl, rfl, rfl, hv2,
    (authorize_get_login_form_iff stubPrimitives (sampleAmbient 1200) sampleDB
      { sampleAuthorizeGet with client_id := "APP" } rfl).1.mpr hv2, hv3, rfl⟩

/-- C20, at the failing input: for every escaping function (and every
collation under which the submitted email is that of no stored user), the
failed login whose `client_id` field is `app&state=forged` stores nothing and
is answered with a redirect to the authorize page in which `response_type`
and `client_id` stand as submitted, unescaped, so that the query of the
location has `client_id=app` and a first `state=forged`, while
`redirect_uri`, `scope`, `state` and the error text pass through the escaping
function. -/
theorem failed_login_redirect_unescaped (P : Primitives)
    (hno : ∀ u ∈ sampleDB.user, P.collate u.Email ≠ P.collate ampersandLogin.email) :
    authorizeHandler P (sampleAmbient 1200) sampleDB ampersandLogin =
      (.redirect
        ("/oauth/authorize?response_type=code&client_id=app&state=forged&redirect_uri=" ++
          P.queryEscape "https://app.example/cb" ++ "&scope=" ++ P.queryEscape "read" ++
          "&state=" ++ P.queryEscape "xyz" ++ "&error=" ++
          P.queryEscape "Email atau password salah.") 302,
       sampleDB) := by
  have hf : sampleDB.user.find? (fun u => P.collate u.Email = P.collate ampersandLogin.email) =
      none := by
    rw [List.find?_eq_none]
    intro u hmem
    simpa using hno u hmem
  have hu : getUserByEmail P (sampleAmbient 1200) sampleDB ampersandLogin.email =
      .error .noRows := by
    unfold getUserByEmail
    rw [hf]
    rfl
  have hm : ampersandLogin.Method = "POST" := rfl
  have hne : ¬ ("POST" = "GET") := by decide
  unfold authorizeHandler
  simp only [hm, hne, if_false, if_true, hu]
  rfl

theorem failed_login_redirect_unescaped_witness :
    (∀ u ∈ sampleDB.user,
        stubPrimitives.collate u.Email ≠ stubPrimitives.collate ampersandLogin.email) ∧
      authorizeHandler stubPrimitives (sampleAmbient 1200) sampleDB ampersandLogin =
        (.redirect
          ("/oauth/authorize?response_type=code&client_id=app&state=forged&redirect_uri=" ++
            "https://app.example/cb&scope=read&state=xyz&error=Email atau password salah.") 302,
         sampleDB) := by
  have hno : ∀ u ∈ sampleDB.user,
      stubPrimitives.collate u.Email ≠ stubPrimitives.collate ampersandLogin.email := by
    decide
  exact ⟨hno, failed_login_redirect_unescaped stubPrimitives hno⟩

end OAuth2

namespace OAuth2

/-! ## Issuing an authorization code -/

theorem storeAuthCode_record {P : Primitives} {amb : Ambient} {db db1 : DB} {code cid : String}
    {uid : Int}
    {uri sc : String} (h : storeAuthCode P amb db code cid uid uri sc = .ok db1) :
    db1 = { db with oauth_auth_codes := db.oauth_auth_codes ++
      [{ ID := db.oauth_auth_codes.length + 1, Code := code, ClientID := cid, UserID := uid,
         RedirectURI := uri, Scopes := sc, ExpiresAt := amb.nowStore + authCodeDuration,
         Used := false }] } ∧
      ∀ a ∈ db.oauth_auth_codes, P.collate a.Code ≠ P.collate code := by
  unfold storeAuthCode at h
  simp only [] at h
  split at h
  · cases h
  · split at h
    · cases h
    · rename_i hdup
      split at h
      · cases h
      · split at h
        · cases h
        · cases h
          refine ⟨rfl, fun a ha hc => hdup ?_⟩
          rw [List.any_eq_true]
          exact ⟨a, ha, by simpa using hc⟩

/-- The response of `issueTokens` does not depend on the code table. -/
theorem issueTokens_response_codes (P : Primitives) (amb : Ambient) (db : DB)
    (codes : List AuthCode) (g cid : String) (u : User) (sc : List String) :
    (issueTokens P amb { db with oauth_auth_codes := codes } g cid u sc).1 =
      (issueTokens P amb db g cid u sc).1 := by
  unfold issueTokens storeRefreshToken
  simp only []
  split
  · rfl
  · split
    · split
      · rfl
      · split_ifs <;> rfl
    · rfl

/-- The response of the token handler to a request whose code is found
before a record is appended to the code table is the same after. -/
theorem tokenHandler_response_append (P : Primitives) (amb : Ambient) (db : DB)
    (r : TokenRequest) (b : AuthCode) {a : AuthCode}
    (hfind : db.oauth_auth_codes.find? (fun x => P.collate x.Code = P.collate r.code) = some a) :
    (tokenHandler P amb { db with oauth_auth_codes := db.oauth_auth_codes ++ [b] } r).1 =
      (tokenHandler P amb db r).1 := by
  have hfind1 : (db.oauth_auth_codes ++ [b]).find?
      (fun x => P.collate x.Code = P.collate r.code) = some a := by
    rw [List.find?_append, hfind]
    rfl
  have hcheck : checkAuthCode P amb { db with oauth_auth_codes := db.oauth_auth_codes ++ [b] }
      r.code r.client_id r.redirect_uri =
      checkAuthCode P amb db r.code r.client_id r.redirect_uri := by
    unfold checkAuthCode getAuthCode
    simp only [hfind1, hfind]
  have hfin : ∀ x, (finishAuthCodeGrant P amb
      { db with oauth_auth_codes := db.oauth_auth_codes ++ [b] } r x).1 =
      (finishAuthCodeGrant P amb db r x).1 := by
    intro x
    unfold finishAuthCodeGrant markAuthCodeAsUsed selectUserByID
    by_cases hm : amb.faults.markAuthCodeAsUsed = true
    · simp [hm]
    · by_cases hs : amb.faults.selectUserByID = true
      · simp [hm, hs]
      · cases hfu : db.user.find? (fun u => u.ID = x.UserID) with
        | none => simp [hm, hs, hfu]
        | some u =>
          simp only [if_neg hm, if_neg hs, hfu]
          exact (issueTokens_response_codes P amb db _ _ _ _ _).trans
            (issueTokens_response_codes P amb db _ _ _ _ _).symm
  have hfin2 : ∀ x, (finishRefreshGrant P amb
      { db with oauth_auth_codes := db.oauth_auth_codes ++ [b] } r x).1 =
      (finishRefreshGrant P amb db r x).1 := by
    intro x
    unfold finishRefreshGrant selectUserByID
    by_cases hs : amb.faults.selectUserByID = true
    · simp [hs]
    · cases hfu : db.user.find? (fun u => u.ID = x.UserID) with
      | none => simp [hs, hfu]
      | some u =>
        simp only [if_neg hs, hfu]
        exact issueTokens_response_codes P amb db _ _ _ _ _
  have hcheck2 : checkRefreshToken P amb
      { db with oauth_auth_codes := db.oauth_auth_codes ++ [b] } r.refresh_token r.client_id =
      checkRefreshToken P amb db r.refresh_token r.client_id := rfl
  have hclient : getOAuthClient P amb { db with oauth_auth_codes := db.oauth_auth_codes ++ [b] }
      r.client_id = getOAuthClient P amb db r.client_id := rfl
  unfold tokenHandler
  simp only [hclient, hcheck, hcheck2]
  split
  · rfl
  · split
    · rfl
    · split
      · rfl
      · split
        · split
          · rfl
          · exact hfin _
        · split
          · split
            · rfl
            · exact hfin2 _
          · rfl

/-- The state change of a call of the authorize handler is one successful
call of `storeAuthCode`, made on a form submission after a successful login,
with the submitted client id, redirect URI and scope and the id of the user. -/
theorem authorizeHandler_store (P : Primitives) (amb : Ambient) (db : DB)
    (r : AuthorizeRequest) :
    (authorizeHandler P amb db r).2 = db ∨
      ∃ user code, r.Method = "POST" ∧ getUserByEmail P amb db r.email = .ok user ∧
        checkPassword P r.password user.Password = true ∧
        generateSecureRandomString amb.rand 32 = .ok code ∧
        storeAuthCode P amb db code r.client_id user.ID r.redirect_uri r.scope =
          .ok (authorizeHandler P amb db r).2 := by
  unfold authorizeHandler
  split
  · left
    simp only []
    split_ifs <;> try rfl
    split
    · rfl
    · split_ifs <;> rfl
  · split
    · rename_i hm
      simp only []
      split
      · exact Or.inl rfl
      · rename_i user hu
        split
        · exact Or.inl rfl
        · rename_i hpw
          split
          · exact Or.inl rfl
          · rename_i code hcode
            split
            · exact Or.inl rfl
            · rename_i db1 hst
              right
              refine ⟨user, code, hm, hu, by simpa using hpw, hcode, ?_⟩
              split <;> exact hst
    · exact Or.inl rfl

/-- C22: a call of the authorize handler that changes the database issues
one code: the code table gains exactly one record, appended, with the fresh
code value, the submitted client id, redirect URI and scope, the id of the
logged-in user, `used` false and expiry ten minutes (600 s) after the clock
reading of the issuance, and no other table changes.  Every record stored
before is unchanged (none had the new code value, nor a value that the
collation of the table takes as equal to it), a code that was redeemable
before is redeemable after, and every token request presenting a
code stored before is answered after the issuance as it would have been
answered before it. -/
theorem issued_code_is_one_new_record (P : Primitives) (amb : Ambient) (db : DB)
    (r : AuthorizeRequest) (hchange : (authorizeHandler P amb db r).2 ≠ db) :
    ∃ user code, getUserByEmail P amb db r.email = .ok user ∧
      generateSecureRandomString amb.rand 32 = .ok code ∧
      (authorizeHandler P amb db r).2.oauth_auth_codes = db.oauth_auth_codes ++
        [{ ID := db.oauth_auth_codes.length + 1, Code := code, ClientID := r.client_id,
           UserID := user.ID, RedirectURI := r.redirect_uri, Scopes := r.scope,
           ExpiresAt := amb.nowStore + 600, Used := false }] ∧
      (authorizeHandler P amb db r).2.user = db.user ∧
      (authorizeHandler P amb db r).2.oauth_clients = db.oauth_clients ∧
      (authorizeHandler P amb db r).2.oauth_refresh_tokens = db.oauth_refresh_tokens ∧
      (∀ a ∈ db.oauth_auth_codes, a.Code ≠ code ∧ P.collate a.Code ≠ P.collate code) ∧
      ∀ (amb2 : Ambient) (r2 : TokenRequest),
        (Redeemable P amb2 db r2 → Redeemable P amb2 (authorizeHandler P amb db r).2 r2) ∧
        ((∃ a, db.oauth_auth_codes.find? (fun x => P.collate x.Code = P.collate r2.code) =
            some a) →
          (tokenHandler P amb2 (authorizeHandler P amb db r).2 r2).1 =
            (tokenHandler P amb2 db r2).1) := by
  rcases authorizeHandler_store P amb db r with h | ⟨user, code, -, hu, -, hcode, hst⟩
  · exact absurd h hchange
  · obtain ⟨hdb, hfresh⟩ := storeAuthCode_record hst
    refine ⟨user, code, hu, hcode, ?_, ?_, ?_, ?_,
      fun a ha => ⟨fun he => hfresh a ha (congrArg P.collate he), hfresh a ha⟩, ?_⟩
    · rw [hdb]
      rfl
    · rw [hdb]
    · rw [hdb]
    · rw [hdb]
    · intro amb2 r2
      constructor
      · rintro ⟨hf, a, hfind, hrest⟩
        refine ⟨hf, a, ?_, hrest⟩
        rw [hdb]
        show (db.oauth_auth_codes ++ _).find? _ = _
        rw [List.find?_append, hfind]
        rfl
      · rintro ⟨a, hfind⟩
        rw [hdb]
        exact tokenHandler_response_append P amb2 db r2 _ hfind

theorem issued_code_is_one_new_record_witness :
    (authorizeHandler stubPrimitives (sampleAmbient 1250) sampleDB sampleLogin).2 ≠ sampleDB ∧
      (authorizeHandler stubPrimitives (sampleAmbient 1250) sampleDB
          sampleLogin).2.oauth_auth_codes =
        [sampleCode,
         { ID := 2, Code := "AAECAwQFBgcICQoLDA0ODxAREhMUFRYXGBkaGxwdHh8=", ClientID := "app",
           UserID := 1, RedirectURI := "https://app.example/cb", Scopes := "read",
           ExpiresAt := 1850, Used := false }] ∧
      Redeemable stubPrimitives (sampleAmbient 1300)
        (authorizeHandler stubPrimitives (sampleAmbient 1250) sampleDB sampleLogin).2
        sampleCodeRequest := by
  have hne : (authorizeHandler stubPrimitives (sampleAmbient 1250) sampleDB sampleLogin).2 ≠
      sampleDB := by decide
  have hr : Redeemable stubPrimitives (sampleAmbient 1300) sampleDB sampleCodeRequest :=
    ⟨rfl, sampleCode, rfl, rfl, by decide, rfl, rfl⟩
  obtain ⟨user, code, -, -, -, -, -, -, -, hstay⟩ :=
    issued_code_is_one_new_record stubPrimitives (sampleAmbient 1250) sampleDB sampleLogin hne
  exact ⟨hne, rfl, (hstay (sampleAmbient 1300) sampleCodeRequest).1 hr⟩

end OAuth2

namespace OAuth2

/-! ## Revocation is idempotent -/

theorem setRevokedWhere_twice (h : String) (t : RefreshToken) :
    RefreshToken.setRevokedWhere h (RefreshToken.setRevokedWhere h t) =
      RefreshToken.setRevokedWhere h t := by
  by_cases ht : t.Token = h
  · simp [RefreshToken.setRevokedWhere, ht]
  · simp [RefreshToken.setRevokedWhere, ht]

/-- C23: a call of `revokeRefreshToken` whose statement is executed returns no
error for every raw token, stored or not; a second call on its result returns
that result; it changes no table but the refresh-token table, where the
records whose stored hash is the digest of the raw token get `revoked` true
and every other record, and every other field, stays as it is; when no
record has that hash, or every record that has it is revoked already, the
database is returned as it was. -/
theorem revoke_is_idempotent (P : Primitives) (amb amb2 : Ambient) (db : DB) (raw : String)
    (h1 : amb.faults.revokeRefreshToken = false)
    (h2 : amb2.faults.revokeRefreshToken = false) :
    ∃ db1, revokeRefreshToken P amb db raw = .ok db1 ∧
      revokeRefreshToken P amb2 db1 raw = .ok db1 ∧
      db1.user = db.user ∧ db1.oauth_clients = db.oauth_clients ∧
      db1.oauth_auth_codes = db.oauth_auth_codes ∧
      db1.oauth_refresh_tokens = db.oauth_refresh_tokens.map
        (fun t => if t.Token = P.sha256Hex raw then { t with Revoked := true } else t) ∧
      ((∀ t ∈ db.oauth_refresh_tokens, t.Token = P.sha256Hex raw → t.Revoked = true) →
        db1 = db) := by
  refine ⟨{ db with oauth_refresh_tokens :=
      db.oauth_refresh_tokens.map (RefreshToken.setRevokedWhere (P.sha256Hex raw)) },
    ?_, ?_, rfl, rfl, rfl, rfl, ?_⟩
  · simp [revokeRefreshToken, hashStringSHA256, h1]
  · simp only [revokeRefreshToken, hashStringSHA256, h2, List.map_map]
    have hf : RefreshToken.setRevokedWhere (P.sha256Hex raw) ∘
        RefreshToken.setRevokedWhere (P.sha256Hex raw) =
        RefreshToken.setRevokedWhere (P.sha256Hex raw) :=
      funext (setRevokedWhere_twice _)
    rw [hf]
    rfl
  · intro hall
    have hmap : db.oauth_refresh_tokens.map (RefreshToken.setRevokedWhere (P.sha256Hex raw)) =
        db.oauth_refresh_tokens := by
      conv_rhs => rw [← List.map_id db.oauth_refresh_tokens]
      apply List.map_congr_left
      intro t ht
      by_cases hh : t.Token = P.sha256Hex raw
      · exact setRevokedWhere_of_revoked _ (hall t ht hh)
      · simp [RefreshToken.setRevokedWhere, hh]
    rw [hmap]

theorem revoke_is_idempotent_witness :
    (sampleAmbient 1300).faults.revokeRefreshToken = false ∧
      ∃ db1, revokeRefreshToken stubPrimitives (sampleAmbient 1300) sampleDB "rt-1" = .ok db1 ∧
        revokeRefreshToken stubPrimitives (sampleAmbient 1400) db1 "rt-1" = .ok db1 ∧
        db1.oauth_refresh_tokens = [{ sampleRefreshToken with Revoked := true }] ∧
        revokeRefreshToken stubPrimitives (sampleAmbient 1300) sampleDB "unknown" =
          .ok sampleDB := by
  obtain ⟨db1, ha, hb, -, -, -, hc, -⟩ :=
    revoke_is_idempotent stubPrimitives (sampleAmbient 1300) (sampleAmbient 1400) sampleDB
      "rt-1" rfl rfl
  exact ⟨rfl, db1, ha, hb, by rw [hc]; rfl, rfl⟩

/-! ## A failed exchange keeps the code used -/

theorem finishAuthCodeGrant_marked (P : Primitives) {amb : Ambient} (db : DB) (r : TokenRequest)
    (a : AuthCode) (hm : amb.faults.markAuthCodeAsUsed = false) :
    (finishAuthCodeGrant P amb db r a).2.oauth_auth_codes =
      db.oauth_auth_codes.map (AuthCode.setUsedWhere P r.code) := by
  unfold finishAuthCodeGrant markAuthCodeAsUsed
  simp only [hm, Bool.false_eq_true, if_false]
  split
  · rfl
  · exact (issueTokens_tables P amb _ _ _ _ _).1

theorem issueTokens_failed (P : Primitives) (amb : Ambient) (db : DB) (g cid : String)
    (u : User) (sc : List String) (h : (issueTokens P amb db g cid u sc).1.isToken = false) :
    (issueTokens P amb db g cid u sc).2 = db := by
  revert h
  unfold issueTokens
  split
  · intro _; rfl
  · simp only []
    split
    · split
      · intro _; rfl
      · split
        · intro _; rfl
        · intro h; cases h
    · intro h; cases h

theorem finishAuthCodeGrant_failed (P : Primitives) (amb : Ambient) (db : DB) (r : TokenRequest)
    (a : AuthCode) (h : (finishAuthCodeGrant P amb db r a).1.isToken = false) :
    (finishAuthCodeGrant P amb db r a).2.oauth_refresh_tokens = db.oauth_refresh_tokens := by
  revert h
  unfold finishAuthCodeGrant
  split
  · intro _; rfl
  · rename_i db1 hm
    split
    · intro _
      exact (markAuthCodeAsUsed_ok hm).1
    · intro h
      rw [issueTokens_failed P amb _ _ _ _ _ h]
      exact (markAuthCodeAsUsed_ok hm).1

/-- C27: a token request of an authenticated client whose code passes the
redemption check and is marked used, and which is not answered with a token
because a later step fails, is answered with status 500; the code is marked
used in the database it leaves and no refresh token is stored; every later
token request presenting that code (or a value that the collation of the
code table takes as equal to it), after any sequence of calls, with any
client, redirect URI and clock reading, is not answered with a token. -/
theorem failed_exchange_keeps_code_used (P : Primitives) (amb : Ambient) (db : DB)
    (r : TokenRequest) (a : AuthCode) (hp : r.parseFormError = false)
    (ha : Authenticated P amb db r) (hg : r.grant_type = "authorization_code")
    (hc : checkAuthCode P amb db r.code r.client_id r.redirect_uri = some a)
    (hm : amb.faults.markAuthCodeAsUsed = false)
    (hfail : (tokenHandler P amb db r).1.isToken = false) :
    (∃ msg, (tokenHandler P amb db r).1 = .httpError msg 500) ∧
      (tokenHandler P amb db r).2.oauth_auth_codes =
        db.oauth_auth_codes.map (AuthCode.setUsedWhere P r.code) ∧
      (∃ b, (tokenHandler P amb db r).2.oauth_auth_codes.find?
          (fun x => P.collate x.Code = P.collate r.code) =
          some b ∧ b.Used = true) ∧
      (tokenHandler P amb db r).2.oauth_refresh_tokens = db.oauth_refresh_tokens ∧
      ∀ (ops : List Op) (amb2 : Ambient) (r2 : TokenRequest),
        r2.grant_type = "authorization_code" → P.collate r2.code = P.collate r.code →
        (tokenHandler P amb2 (run P (tokenHandler P amb db r).2 ops) r2).1.isToken = false := by
  have he := tokenHandler_code_some hp ha hg hc
  rw [he] at hfail ⊢
  obtain ⟨-, hf, -⟩ := checkAuthCode_some hc
  obtain ⟨b, hb, hu⟩ := find_setUsedWhere_self hf
  have hcodes := finishAuthCodeGrant_marked P db r a hm
  have hdead : CodeDead P (finishAuthCodeGrant P amb db r a).2 r.code 0 :=
    ⟨b, by rw [hcodes]; exact hb, Or.inl hu⟩
  refine ⟨?_, hcodes, ⟨b, by rw [hcodes]; exact hb, hu⟩,
    finishAuthCodeGrant_failed P amb db r a hfail, ?_⟩
  · rcases finishAuthCodeGrant_response P amb db r a with h | h
    · rw [hfail] at h
      cases h
    · exact h
  · intro ops amb2 r2 hg2 hcode
    have h2 := codeDead_congr hcode.symm (run_codeDead P ops _ _ _ hdead)
    exact (tokenHandler_dead P hg2 h2 (Nat.zero_le _)).1

theorem failed_exchange_keeps_code_used_witness :
    Authenticated stubPrimitives (signingDownAmbient 1200) sampleDB sampleCodeRequest ∧
      checkAuthCode stubPrimitives (signingDownAmbient 1200) sampleDB "code-1" "app"
          "https://app.example/cb" =
        some sampleCode ∧
      tokenHandler stubPrimitives (signingDownAmbient 1200) sampleDB sampleCodeRequest =
        (.httpError "Gagal membuat access token" 500,
         { sampleDB with oauth_auth_codes := [{ sampleCode with Used := true }] }) ∧
      (tokenHandler stubPrimitives (sampleAmbient 1210)
        (tokenHandler stubPrimitives (signingDownAmbient 1200) sampleDB sampleCodeRequest).2
        sampleCodeRequest).1.isToken = false := by
  have ha : Authenticated stubPrimitives (signingDownAmbient 1200) sampleDB sampleCodeRequest :=
    ⟨_, rfl, rfl⟩
  have hc : checkAuthCode stubPrimitives (signingDownAmbient 1200) sampleDB sampleCodeRequest.code
      sampleCodeRequest.client_id sampleCodeRequest.redirect_uri = some sampleCode := rfl
  exact ⟨ha, hc, rfl,
    (failed_exchange_keeps_code_used stubPrimitives (signingDownAmbient 1200) sampleDB
      sampleCodeRequest sampleCode rfl ha rfl hc rfl rfl).2.2.2.2 [] (sampleAmbient 1210)
      sampleCodeRequest rfl rfl⟩

end OAuth2

namespace OAuth2

/-! ## The redirect after a successful login -/

/-- C21: a form submission whose login succeeds and whose code is stored is
answered, when `url.Parse` accepts the submitted redirect URI, with a
redirect (302) to that URI with the query parameter `code` set to the code
just stored and, for a non-empty state, `state` set to the submitted state;
when `url.Parse` rejects the submitted redirect URI, the error is dropped
and the handler dereferences the nil URL: no redirect is written, and the
code stays stored. -/
theorem login_redirect_or_nil_dereference (P : Primitives) (amb : Ambient) (db db1 : DB)
    (r : AuthorizeRequest) (user : User) (code : String) (hm : r.Method = "POST")
    (hu : getUserByEmail P amb db r.email = .ok user)
    (hpw : checkPassword P r.password user.Password = true)
    (hcode : generateSecureRandomString amb.rand 32 = .ok code)
    (hst : storeAuthCode P amb db code r.client_id user.ID r.redirect_uri r.scope = .ok db1) :
    (P.urlParse r.redirect_uri = true →
        authorizeHandler P amb db r =
          (.redirect (P.urlWithQuery r.redirect_uri
            ([("code", code)] ++ if r.state ≠ "" then [("state", r.state)] else [])) 302,
           db1)) ∧
      (P.urlParse r.redirect_uri = false →
        authorizeHandler P amb db r = (.nilDereference, db1)) := by
  constructor
  · intro hparse
    simp [authorizeHandler, hm, hu, hpw, hcode, hst, hparse]
  · intro hparse
    simp [authorizeHandler, hm, hu, hpw, hcode, hst, hparse]

theorem login_redirect_or_nil_dereference_witness :
    Parse (fun _ => true) ":" = false ∧
      authorizeHandler (netURLPrimitives (fun _ => true)) (sampleAmbient 1250) sampleDB
          colonRedirectLogin =
        (.nilDereference,
         { sampleDB with oauth_auth_codes :=
            [sampleCode,
             { ID := 2, Code := "AAECAwQFBgcICQoLDA0ODxAREhMUFRYXGBkaGxwdHh8=",
               ClientID := "app", UserID := 1, RedirectURI := ":", Scopes := "read",
               ExpiresAt := 1850, Used := false }] }) ∧
      (Response.nilDereference).status = none :=
  ⟨rfl,
   (login_redirect_or_nil_dereference (netURLPrimitives (fun _ => true)) (sampleAmbient 1250)
      sampleDB _ colonRedirectLogin
      { ID := 1, Email := "user@example.com", Password := "bcrypt:password123" }
      "AAECAwQFBgcICQoLDA0ODxAREhMUFRYXGBkaGxwdHh8=" rfl rfl rfl rfl rfl).2 rfl,
   rfl⟩

/-! ## Client registration -/

/-- C24, at the counterexample: `url.ParseRequestURI` accepts the bare path
`/cb` whatever the authority parser accepts (no authority is parsed), and the
registration whose only redirect URI is `/cb` is answered with status 201
and stores the client with that redirect URI, here with an authority parser
that rejects everything. -/
theorem bare_path_redirect_uri_registered :
    (∀ parseAuthority, ParseRequestURI parseAuthority "/cb" = true) ∧
      registerClientHandler (netURLPrimitives (fun _ => false)) (sampleAmbient 1000) sampleDB
          (some barePathRegistration) =
        (.createdJSON [("client_id", "7c9e6679-7425-40de-944b-e07fc1f90ae7"),
                       ("client_secret", "AAECAwQFBgcICQoLDA0ODxAREhMUFRYXGBkaGxwdHh8="),
                       ("client_name", "Other")],
         { sampleDB with oauth_clients := sampleDB.oauth_clients ++
            [{ ID := 2, ClientID := "7c9e6679-7425-40de-944b-e07fc1f90ae7",
               ClientSecretHash := "bcrypt:AAECAwQFBgcICQoLDA0ODxAREhMUFRYXGBkaGxwdHh8=",
               ClientName := "Other", RedirectURIs := ["/cb"] }] }) :=
  ⟨fun _ => rfl, rfl⟩

theorem createOAuthClient_record {P : Primitives} {amb : Ambient} {db db1 : DB} {name : String}
    {uris : List String} {c : OAuthClient} {sec : String}
    (h : createOAuthClient P amb db name uris = .ok (c, sec, db1)) :
    ∃ hash, db1 = { db with oauth_clients := db.oauth_clients ++
        [{ ID := db.oauth_clients.length + 1, ClientID := amb.uuid, ClientSecretHash := hash,
           ClientName := name, RedirectURIs := uris }] } ∧
      c.ClientID = amb.uuid ∧ c.ClientName = name := by
  unfold createOAuthClient at h
  simp only [] at h
  split at h
  · cases h
  · split at h
    · cases h
    · split_ifs at h <;>
      · simp only [Except.ok.injEq, Prod.mk.injEq] at h
        obtain ⟨rfl, -, rfl⟩ := h
        exact ⟨_, rfl, rfl, rfl⟩

/-- The three outcomes of a registration: status 400 without a new client
when the client name is empty, the redirect URI list is empty or an entry is
rejected by the parser of `P`; otherwise status 201 with exactly one new
client, or status 500 without one when a later step fails. -/
theorem registerClientHandler_outcome (P : Primitives) (amb : Ambient) (db : DB)
    (body : ClientRegistration) :
    ((body.ClientName = "" ∨ body.RedirectURIs = [] ∨
          ∃ uri ∈ body.RedirectURIs, P.parseRequestURI uri = false) →
        (∃ msg, (registerClientHandler P amb db (some body)).1 = .httpError msg 400) ∧
          (registerClientHandler P amb db (some body)).2 = db) ∧
      (¬ (body.ClientName = "" ∨ body.RedirectURIs = [] ∨
            ∃ uri ∈ body.RedirectURIs, P.parseRequestURI uri = false) →
        (registerClientHandler P amb db (some body) =
            (.httpError "Gagal mendaftarkan klien" 500, db)) ∨
          ∃ secret hash,
            registerClientHandler P amb db (some body) =
              (.createdJSON [("client_id", amb.uuid), ("client_secret", secret),
                             ("client_name", body.ClientName)],
               { db with oauth_clients := db.oauth_clients ++
                  [{ ID := db.oauth_clients.length + 1, ClientID := amb.uuid,
                     ClientSecretHash := hash, ClientName := body.ClientName,
                     RedirectURIs := body.RedirectURIs }] })) := by
  by_cases h1 : body.ClientName = "" ∨ body.RedirectURIs.length = 0
  · have he : registerClientHandler P amb db (some body) =
        (.httpError "Nama klien dan minimal satu redirect URI diperlukan" 400, db) := by
      simp only [registerClientHandler, if_pos h1]
    constructor
    · intro _
      rw [he]
      exact ⟨⟨_, rfl⟩, rfl⟩
    · intro hn
      exfalso
      apply hn
      rcases h1 with h | h
      · exact Or.inl h
      · exact Or.inr (Or.inl (List.length_eq_zero.mp h))
  · by_cases h2 : (body.RedirectURIs.any fun uri => !P.parseRequestURI uri) = true
    · have he : registerClientHandler P amb db (some body) =
          (.httpError "Redirect URI tidak valid" 400, db) := by
        simp only [registerClientHandler, if_neg h1, if_pos h2]
      constructor
      · intro _
        rw [he]
        exact ⟨⟨_, rfl⟩, rfl⟩
      · intro hn
        exfalso
        apply hn
        rw [List.any_eq_true] at h2
        obtain ⟨uri, hmem, hbad⟩ := h2
        exact Or.inr (Or.inr ⟨uri, hmem, by simpa using hbad⟩)
    · have hvalid : ¬ (body.ClientName = "" ∨ body.RedirectURIs = [] ∨
          ∃ uri ∈ body.RedirectURIs, P.parseRequestURI uri = false) := by
        rintro (h | h | ⟨uri, hmem, hbad⟩)
        · exact h1 (Or.inl h)
        · exact h1 (Or.inr (by rw [h]; rfl))
        · apply h2
          rw [List.any_eq_true]
          exact ⟨uri, hmem, by simp [hbad]⟩
      constructor
      · intro h
        exact absurd h hvalid
      · intro _
        cases hc : createOAuthClient P amb db body.ClientName body.RedirectURIs with
        | error e =>
          left
          simp only [registerClientHandler, if_neg h1, if_neg h2, hc]
        | ok res =>
          obtain ⟨c, sec, db1⟩ := res
          obtain ⟨hash, hdb, hid, hname⟩ := createOAuthClient_record hc
          right
          refine ⟨sec, hash, ?_⟩
          simp only [registerClientHandler, if_neg h1, if_neg h2, hc, hid, hname, hdb]

/-! ## What `url.ParseRequestURI` accepts -/

theorem getSchemeFrom_no_colon (rawURL : List Char) :
    ∀ (cs : List Char) (i : Nat), ':' ∉ cs →
      getSchemeFrom rawURL i cs = .ok ([], rawURL) ∨
        ∃ e, getSchemeFrom rawURL i cs = .error e := by
  intro cs
  induction cs with
  | nil => intro i _; exact Or.inl rfl
  | cons c cs ih =>
    intro i h
    have hc : c ≠ ':' := fun he => h (he ▸ List.mem_cons_self _ _)
    have hcs : ':' ∉ cs := fun he => h (List.mem_cons_of_mem _ he)
    unfold getSchemeFrom
    split_ifs
    · exact ih _ hcs
    · exact Or.inl rfl
    · exact ih _ hcs
    · exact Or.inl rfl

theorem stringsCut_fst (sep : Char) (s : List Char) :
    (stringsCut s sep).1 = s.takeWhile (fun c => c ≠ sep) := by
  unfold stringsCut
  rw [List.span_eq_take_drop]
  cases h : s.dropWhile (fun c => decide (c ≠ sep)) with
  | nil =>
    have := List.takeWhile_append_dropWhile (fun c => decide (c ≠ sep)) s
    rw [h, List.append_nil] at this
    simp only [this]
  | cons x xs => rfl

theorem takeWhile_head (p : Char → Bool) (s : List Char) (h : s.head? ≠ some '/') :
    (s.takeWhile p).head? ≠ some '/' := by
  cases s with
  | nil => simp
  | cons c cs =>
    rw [List.takeWhile_cons]
    split
    · exact h
    · simp

theorem dropLast_head (s : List Char) (h : s.head? ≠ some '/') :
    s.dropLast.head? ≠ some '/' := by
  cases s with
  | nil => simp
  | cons c cs =>
    cases cs with
    | nil => simp
    | cons d ds => exact h

/-- An argument that does not start with a slash and has no colon (so no
scheme), other than `*`, is rejected. -/
theorem ParseRequestURI_relative (pa : List Char → Bool) (s : String) (hstar : s ≠ "*")
    (hslash : s.data.head? ≠ some '/') (hcolon : ':' ∉ s.data) :
    ParseRequestURI pa s = false := by
  have hstar2 : s.data ≠ ['*'] := fun h => hstar (String.ext h)
  unfold ParseRequestURI parse
  split_ifs with h1 h2
  · rfl
  · rfl
  · rcases getSchemeFrom_no_colon s.data s.data 0 hcolon with h | ⟨e, h⟩
    · unfold getScheme
      rw [h]
      simp only []
      have hrest : (if s.data.getLast? = some '?' ∧ s.data.count '?' = 1 then s.data.dropLast
          else (stringsCut s.data '?').1).head? ≠ some '/' := by
        split
        · exact dropLast_head _ hslash
        · rw [stringsCut_fst]
          exact takeWhile_head _ _ hslash
      rw [if_neg (fun hh => hh.2 rfl), if_pos ⟨hrest, trivial⟩]
    · unfold getScheme
      rw [h]

theorem unescapeOK_no_percent (s : List Char) (h : '%' ∉ s) : unescapeOK s = true := by
  induction s with
  | nil => rfl
  | cons c cs ih =>
    have hc : c ≠ '%' := fun he => h (he ▸ List.mem_cons_self _ _)
    unfold unescapeOK
    rw [if_neg hc]
    exact ih (fun he => h (List.mem_cons_of_mem _ he))

/-- An argument that starts with a slash and has no control character, no
question mark and no percent sign is accepted, whatever the authority parser
accepts. -/
theorem ParseRequestURI_path (pa : List Char → Bool) (s : String)
    (hslash : s.data.head? = some '/') (hctl : stringContainsCTLByte s.data = false)
    (hq : '?' ∉ s.data) (hpct : '%' ∉ s.data) :
    ParseRequestURI pa s = true := by
  obtain ⟨cs, hs⟩ : ∃ cs, s.data = '/' :: cs := by
    cases hd : s.data with
    | nil => rw [hd] at hslash; cases hslash
    | cons c cs =>
      rw [hd] at hslash
      simp only [List.head?_cons, Option.some.injEq] at hslash
      exact ⟨cs, by rw [hslash]⟩
  have hne : s.data ≠ [] := by rw [hs]; simp
  have hstar : s.data ≠ ['*'] := by rw [hs]; simp
  have hsch : getScheme s.data = .ok ([], s.data) := by
    rw [hs]
    rfl
  have hlast : ¬ (s.data.getLast? = some '?' ∧ s.data.count '?' = 1) := by
    rintro ⟨h, -⟩
    exact hq (List.mem_of_getLast?_eq_some h)
  have hcut : (stringsCut s.data '?').1 = s.data := by
    rw [stringsCut_fst]
    exact List.takeWhile_eq_self_iff.mpr
      (fun x hx => decide_eq_true (fun hxs => hq (hxs ▸ hx)))
  unfold ParseRequestURI parse
  rw [hctl]
  simp only [Bool.false_eq_true, if_false, hne, false_and, hstar, hsch, if_neg hlast, hcut]
  rw [if_neg (fun hh => hh.1 hslash), if_neg (fun hh => hh.1 hslash),
    if_neg (fun hh => hh.1 hslash)]
  have hno : ¬ (((([] : List Char) ≠ [] ∨ (!true) = true ∧ List.take 3 s.data ≠ ['/', '/', '/'])) ∧
      List.take 2 s.data = ['/', '/']) := by
    rintro ⟨h | h, -⟩
    · exact h rfl
    · exact absurd h.1 (by decide)
  rw [if_neg hno, unescapeOK_no_percent _ hpct]
  rfl

theorem getSchemeFrom_alpha (rawURL rest : List Char) :
    ∀ (pre : List Char) (i : Nat), (∀ c ∈ pre, c.isAlpha = true) → 0 < i + pre.length →
      getSchemeFrom rawURL i (pre ++ ':' :: rest) = .ok (rawURL.take (i + pre.length), rest) := by
  intro pre
  induction pre with
  | nil =>
    intro i _ hpos
    have hi : i ≠ 0 := by
      simp only [List.length_nil, Nat.add_zero] at hpos
      omega
    have h1 : (':' : Char).isAlpha = false := by decide
    have h2 : ¬ ((':' : Char).isDigit = true ∨ ':' = '+' ∨ ':' = '-' ∨ ':' = '.') := by decide
    simp only [List.nil_append, getSchemeFrom, h1, Bool.false_eq_true, if_false, h2, if_true,
      if_neg hi, List.length_nil, Nat.add_zero]
  | cons c cs ih =>
    intro i h _
    have hc : c.isAlpha = true := h c (List.mem_cons_self _ _)
    have hcs : ∀ x ∈ cs, x.isAlpha = true := fun x hx => h x (List.mem_cons_of_mem _ hx)
    have hstep : getSchemeFrom rawURL i (c :: cs ++ ':' :: rest) =
        getSchemeFrom rawURL (i + 1) (cs ++ ':' :: rest) := by
      show getSchemeFrom rawURL i (c :: (cs ++ ':' :: rest)) = _
      rw [getSchemeFrom, if_pos hc]
    rw [hstep, ih (i + 1) hcs (by omega)]
    have hlen : i + 1 + cs.length = i + (c :: cs).length := by
      simp only [List.length_cons]
      omega
    rw [hlen]

/-- An absolute URI `scheme://authority/path`, with a scheme of letters, no
control character, `?` or percent sign, is accepted exactly when the
authority parser accepts its authority. -/
theorem ParseRequestURI_absolute (pa : List Char → Bool) (scheme authority path : List Char)
    (hs : scheme ≠ []) (halpha : ∀ c ∈ scheme, c.isAlpha = true)
    (hauth : '/' ∉ authority) (hpath : path = [] ∨ path.head? = some '/')
    (hctl : stringContainsCTLByte (scheme ++ ':' :: '/' :: '/' :: (authority ++ path)) = false)
    (hq : '?' ∉ authority ++ path) (hpct : '%' ∉ path) :
    ParseRequestURI pa (String.mk (scheme ++ ':' :: '/' :: '/' :: (authority ++ path))) =
      pa authority := by
  obtain ⟨c, cs, hsc⟩ : ∃ c cs, scheme = c :: cs := by
    cases scheme with
    | nil => exact absurd rfl hs
    | cons c cs => exact ⟨c, cs, rfl⟩
  have hne : scheme ++ ':' :: '/' :: '/' :: (authority ++ path) ≠ [] := by
    rw [hsc]; simp
  have hstar : scheme ++ ':' :: '/' :: '/' :: (authority ++ path) ≠ ['*'] := by
    rw [hsc]
    cases cs <;> simp
  have hsch : getScheme (scheme ++ ':' :: '/' :: '/' :: (authority ++ path)) =
      .ok (scheme, '/' :: '/' :: (authority ++ path)) := by
    unfold getScheme
    rw [getSchemeFrom_alpha _ _ scheme 0 halpha (by rw [hsc]; simp)]
    simp
  have hq2 : '?' ∉ '/' :: '/' :: (authority ++ path) := by
    intro h
    rcases List.mem_cons.mp h with h | h
    · exact absurd h (by decide)
    · rcases List.mem_cons.mp h with h | h
      · exact absurd h (by decide)
      · exact hq h
  have hlast : ¬ (('/' :: '/' :: (authority ++ path)).getLast? = some '?' ∧
      ('/' :: '/' :: (authority ++ path)).count '?' = 1) := by
    rintro ⟨h, -⟩
    exact hq2 (List.mem_of_getLast?_eq_some h)
  have hcut : (stringsCut ('/' :: '/' :: (authority ++ path)) '?').1 =
      '/' :: '/' :: (authority ++ path) := by
    rw [stringsCut_fst]
    exact List.takeWhile_eq_self_iff.mpr
      (fun x hx => decide_eq_true (fun hxs => hq2 (hxs ▸ hx)))
  have hcut2 : (stringsCut (authority ++ path) '/').1 = authority := by
    rw [stringsCut_fst]
    have hall : ∀ x ∈ authority, (decide (x ≠ '/')) = true :=
      fun x hx => decide_eq_true (fun hxs => hauth (hxs ▸ hx))
    rw [List.takeWhile_append_of_pos hall]
    rcases hpath with h | h
    · rw [h]; simp
    · cases path with
      | nil => simp
      | cons d ds =>
        simp only [List.head?_cons, Option.some.injEq] at h
        rw [h]
        simp
  unfold ParseRequestURI parse
  rw [hctl]
  simp only [Bool.false_eq_true, if_false, hne, false_and, hstar, hsch, if_neg hlast, hcut]
  have hhead : ¬ (('/' :: '/' :: (authority ++ path)).head? ≠ some '/') := fun h => h rfl
  rw [if_neg (fun hh => hhead hh.1), if_neg (fun hh => hhead hh.1),
    if_neg (fun hh => hhead hh.1), if_pos ⟨Or.inl hs, rfl⟩]
  simp only [List.drop_succ_cons, List.drop_zero, hcut2, List.drop_left,
    unescapeOK_no_percent _ hpct]
  cases pa authority <;> rfl

/-- C24, amended: with `url.ParseRequestURI` as the parser, a registration is
answered with status 400 and creates no client when the client name is
empty, the redirect URI list is empty or an entry is rejected by that
parser; otherwise it is answered with status 201 and exactly one client is
stored, with the name and the redirect URIs of the request, or a later step
fails and it is answered with status 500 and creates no client.  The parser
rejects the empty string, `cb` and every other entry that does not start
with a slash and has no colon, except `*`; it accepts `/cb` and every other
entry that starts with a slash and has no control character, question mark
or percent sign; and it accepts an absolute URI `scheme://authority/path`
(a scheme of letters, no control character, question mark or percent sign)
exactly when the authority is accepted by the authority parser of the
library.  So a registration with the entry `cb` or an empty entry is answered
with status 400. -/
theorem registration_rejects_what_the_parser_rejects (P : Primitives)
    (parseAuthority : List Char → Bool)
    (hparse : P.parseRequestURI = ParseRequestURI parseAuthority) (amb : Ambient) (db : DB)
    (body : ClientRegistration) :
    ((body.ClientName = "" ∨ body.RedirectURIs = [] ∨
          ∃ uri ∈ body.RedirectURIs, ParseRequestURI parseAuthority uri = false) →
        (∃ msg, (registerClientHandler P amb db (some body)).1 = .httpError msg 400) ∧
          (registerClientHandler P amb db (some body)).2 = db) ∧
      (¬ (body.ClientName = "" ∨ body.RedirectURIs = [] ∨
            ∃ uri ∈ body.RedirectURIs, ParseRequestURI parseAuthority uri = false) →
        (registerClientHandler P amb db (some body) =
            (.httpError "Gagal mendaftarkan klien" 500, db)) ∨
          ∃ secret hash,
            registerClientHandler P amb db (some body) =
              (.createdJSON [("client_id", amb.uuid), ("client_secret", secret),
                             ("client_name", body.ClientName)],
               { db with oauth_clients := db.oauth_clients ++
                  [{ ID := db.oauth_clients.length + 1, ClientID := amb.uuid,
                     ClientSecretHash := hash, ClientName := body.ClientName,
                     RedirectURIs := body.RedirectURIs }] })) ∧
      ParseRequestURI parseAuthority "" = false ∧
      ParseRequestURI parseAuthority "cb" = false ∧
      ParseRequestURI parseAuthority "/cb" = true ∧
      (∀ s : String, s ≠ "*" → s.data.head? ≠ some '/' → ':' ∉ s.data →
        ParseRequestURI parseAuthority s = false) ∧
      (∀ s : String, s.data.head? = some '/' → stringContainsCTLByte s.data = false →
        '?' ∉ s.data → '%' ∉ s.data → ParseRequestURI parseAuthority s = true) ∧
      (∀ scheme authority path : List Char, scheme ≠ [] →
        (∀ c ∈ scheme, c.isAlpha = true) → '/' ∉ authority →
        path = [] ∨ path.head? = some '/' →
        stringContainsCTLByte (scheme ++ ':' :: '/' :: '/' :: (authority ++ path)) = false →
        '?' ∉ authority ++ path → '%' ∉ path →
        ParseRequestURI parseAuthority
            (String.mk (scheme ++ ':' :: '/' :: '/' :: (authority ++ path))) =
          parseAuthority authority) ∧
      ("" ∈ body.RedirectURIs ∨ "cb" ∈ body.RedirectURIs →
        (∃ msg, (registerClientHandler P amb db (some body)).1 = .httpError msg 400) ∧
          (registerClientHandler P amb db (some body)).2 = db) := by
  have hout := registerClientHandler_outcome P amb db body
  rw [hparse] at hout
  have hempty : ParseRequestURI parseAuthority "" = false := rfl
  have hcb : ParseRequestURI parseAuthority "cb" = false := rfl
  refine ⟨hout.1, hout.2, hempty, hcb, rfl, ?_, ?_, ?_, ?_⟩
  · intro s h1 h2 h3
    exact ParseRequestURI_relative parseAuthority s h1 h2 h3
  · intro s h1 h2 h3 h4
    exact ParseRequestURI_path parseAuthority s h1 h2 h3 h4
  · intro scheme authority path h1 h2 h3 h4 h5 h6 h7
    exact ParseRequestURI_absolute parseAuthority scheme authority path h1 h2 h3 h4 h5 h6 h7
  · intro h
    apply hout.1
    rcases h with h | h
    · exact Or.inr (Or.inr ⟨"", h, hempty⟩)
    · exact Or.inr (Or.inr ⟨"cb", h, hcb⟩)

theorem registration_rejects_what_the_parser_rejects_witness :
    (netURLPrimitives (fun _ => true)).parseRequestURI = ParseRequestURI (fun _ => true) ∧
      registerClientHandler (netURLPrimitives (fun _ => true)) (sampleAmbient 1000) sampleDB
          (some relativePathRegistration) =
        (.httpError "Redirect URI tidak valid" 400, sampleDB) ∧
      registerClientHandler (netURLPrimitives (fun _ => true)) (sampleAmbient 1000) sampleDB
          (some { relativePathRegistration with RedirectURIs := [""] }) =
        (.httpError "Redirect URI tidak valid" 400, sampleDB) ∧
      (∃ msg, (registerClientHandler (netURLPrimitives (fun _ => true)) (sampleAmbient 1000)
          sampleDB (some relativePathRegistration)).1 = .httpError msg 400) ∧
      (registerClientHandler (netURLPrimitives (fun _ => true)) (sampleAmbient 1000) sampleDB
          (some absoluteRegistration)).2 =
        { sampleDB with oauth_clients := sampleDB.oauth_clients ++
            [{ ID := 2, ClientID := "7c9e6679-7425-40de-944b-e07fc1f90ae7",
               ClientSecretHash := "bcrypt:AAECAwQFBgcICQoLDA0ODxAREhMUFRYXGBkaGxwdHh8=",
               ClientName := "Other", RedirectURIs := ["https://other.example/cb"] }] } ∧
      registerClientHandler (netURLPrimitives (fun _ => false)) (sampleAmbient 1000) sampleDB
          (some absoluteRegistration) =
        (.httpError "Redirect URI tidak valid" 400, sampleDB) :=
  ⟨rfl, rfl, rfl,
    ((registration_rejects_what_the_parser_rejects (netURLPrimitives (fun _ => true))
      (fun _ => true) rfl (sampleAmbient 1000) sampleDB
      relativePathRegistration).2.2.2.2.2.2.2.2 (Or.inr (by decide))).1,
    rfl, rfl⟩

end OAuth2

namespace OAuth2

/-! ## Base64 encoding and decoding -/

theorem EncodeToString_eq_encodeWith (l : List (Fin 256)) :
    EncodeToString l = encodeWith encodeURL l := by
  induction l using EncodeToString.induct with
  | case1 => rfl
  | case2 a => rfl
  | case3 a b => rfl
  | case4 a b c rest ih =>
    simp only [EncodeToString, encodeWith, ih, b64]

set_option maxRecDepth 100000 in
theorem goodAlphabet_encodeURL : GoodAlphabet encodeURL := by
  unfold GoodAlphabet
  decide

set_option maxRecDepth 100000 in
theorem goodAlphabet_encodeStd : GoodAlphabet encodeStd := by
  unfold GoodAlphabet
  decide

theorem decodeQuanta_encodeWith {alphabet : List Char} (hgood : GoodAlphabet alphabet)
    (l : List (Fin 256)) : decodeQuanta alphabet (encodeWith alphabet l) = some l := by
  induction l using encodeWith.induct alphabet with
  | case1 => rfl
  | case2 a =>
    have ha := a.isLt
    obtain ⟨h1, -⟩ := hgood (a.val / 4) (by omega)
    obtain ⟨h2, -⟩ := hgood (a.val % 4 * 16) (by omega)
    simp only [encodeWith, decodeQuanta, h1, h2, if_true, and_self]
    congr 2
    apply Fin.ext
    simp only [Fin.ofNat, Fin.val_mk]
    omega
  | case3 a b =>
    have ha := a.isLt
    have hb := b.isLt
    obtain ⟨h1, -⟩ := hgood (a.val / 4) (by omega)
    obtain ⟨h2, -⟩ := hgood (a.val % 4 * 16 + b.val / 16) (by omega)
    obtain ⟨h3, h3ne, -⟩ := hgood (b.val % 16 * 4) (by omega)
    simp only [encodeWith, decodeQuanta, h1, h2, h3, if_neg h3ne, if_true]
    congr 2
    · apply Fin.ext
      simp only [Fin.ofNat, Fin.val_mk]
      omega
    · congr 1
      apply Fin.ext
      simp only [Fin.ofNat, Fin.val_mk]
      omega
  | case4 a b c rest ih =>
    have ha := a.isLt
    have hb := b.isLt
    have hc := c.isLt
    obtain ⟨h1, -⟩ := hgood (a.val / 4) (by omega)
    obtain ⟨h2, -⟩ := hgood (a.val % 4 * 16 + b.val / 16) (by omega)
    obtain ⟨h3, h3ne, -⟩ := hgood (b.val % 16 * 4 + c.val / 64) (by omega)
    obtain ⟨h4, h4ne, -⟩ := hgood (c.val % 64) (by omega)
    simp only [encodeWith, decodeQuanta, h1, h2, h3, h4, if_neg h3ne, if_neg h4ne, ih,
      Option.map_some']
    congr 2
    · apply Fin.ext
      simp only [Fin.ofNat, Fin.val_mk]
      omega
    · congr 1
      · apply Fin.ext
        simp only [Fin.ofNat, Fin.val_mk]
        omega
      · congr 1
        apply Fin.ext
        simp only [Fin.ofNat, Fin.val_mk]
        omega

/-- The shape of an encoding: characters of the alphabet, then as many
padding characters as bytes are missing from the last group of three. -/
theorem encodeWith_shape (alphabet : List Char) (l : List (Fin 256)) :
    ∃ body, encodeWith alphabet l = body ++ List.replicate ((3 - l.length % 3) % 3) '=' ∧
      ∀ ch ∈ body, ∃ n, n < 64 ∧ ch = alphabet.getD n '=' := by
  induction l using encodeWith.induct alphabet with
  | case1 => exact ⟨[], rfl, by simp⟩
  | case2 a =>
    have ha := a.isLt
    refine ⟨[alphabet.getD (a.val / 4) '=', alphabet.getD (a.val % 4 * 16) '='], rfl, ?_⟩
    intro ch hch
    simp only [List.mem_cons, List.mem_singleton, List.not_mem_nil, or_false] at hch
    rcases hch with h | h
    · exact ⟨_, by omega, h⟩
    · exact ⟨_, by omega, h⟩
  | case3 a b =>
    have ha := a.isLt
    have hb := b.isLt
    refine ⟨[alphabet.getD (a.val / 4) '=', alphabet.getD (a.val % 4 * 16 + b.val / 16) '=',
      alphabet.getD (b.val % 16 * 4) '='], rfl, ?_⟩
    intro ch hch
    simp only [List.mem_cons, List.mem_singleton, List.not_mem_nil, or_false] at hch
    rcases hch with h | h | h
    · exact ⟨_, by omega, h⟩
    · exact ⟨_, by omega, h⟩
    · exact ⟨_, by omega, h⟩
  | case4 a b c rest ih =>
    have ha := a.isLt
    have hb := b.isLt
    have hc := c.isLt
    obtain ⟨body, hbody, hall⟩ := ih
    refine ⟨alphabet.getD (a.val / 4) '=' :: alphabet.getD (a.val % 4 * 16 + b.val / 16) '=' ::
      alphabet.getD (b.val % 16 * 4 + c.val / 64) '=' :: alphabet.getD (c.val % 64) '=' :: body,
      ?_, ?_⟩
    · simp only [encodeWith, hbody, List.length_cons, List.cons_append]
      have : (rest.length + 1 + 1 + 1) % 3 = rest.length % 3 := by omega
      rw [this]
    · intro ch hch
      simp only [List.mem_cons] at hch
      rcases hch with h | h | h | h | h
      · exact ⟨_, by omega, h⟩
      · exact ⟨_, by omega, h⟩
      · exact ⟨_, by omega, h⟩
      · exact ⟨_, by omega, h⟩
      · exact hall ch h

theorem encodeWith_no_line_break {alphabet : List Char} (hgood : GoodAlphabet alphabet)
    (l : List (Fin 256)) :
    (encodeWith alphabet l).filter (fun c => c ≠ '\n' ∧ c ≠ '\r') = encodeWith alphabet l := by
  rw [List.filter_eq_self]
  intro ch hch
  obtain ⟨body, hbody, hall⟩ := encodeWith_shape alphabet l
  rw [hbody, List.mem_append] at hch
  rcases hch with h | h
  · obtain ⟨n, hn, rfl⟩ := hall ch h
    obtain ⟨-, -, h1, h2⟩ := hgood n hn
    exact decide_eq_true ⟨h1, h2⟩
  · rw [List.eq_of_mem_replicate h]
    decide

/-- Decoding undoes encoding. -/
theorem DecodeString_encodeWith {alphabet : List Char} (hgood : GoodAlphabet alphabet)
    (l : List (Fin 256)) : DecodeString alphabet (encodeWith alphabet l) = some l := by
  unfold DecodeString
  rw [encodeWith_no_line_break hgood, decodeQuanta_encodeWith hgood]

theorem encodeWith_injective {alphabet : List Char} (hgood : GoodAlphabet alphabet)
    {l1 l2 : List (Fin 256)} (h : encodeWith alphabet l1 = encodeWith alphabet l2) : l1 = l2 := by
  have h1 := DecodeString_encodeWith hgood l1
  rw [h, DecodeString_encodeWith hgood l2] at h1
  exact (Option.some.inj h1).symm

set_option maxRecDepth 100000 in
theorem encodeURL_characters :
    ∀ n, n < 64 → (encodeURL.getD n '=').isAlphanum = true ∨ encodeURL.getD n '=' = '-' ∨
      encodeURL.getD n '=' = '_' := by
  decide

/-- C25: when the read of the random source succeeds, for every length `n`
`generateSecureRandomString` returns the padded URL-safe base64 encoding of
the `n` bytes read: a string of 4·⌈n/3⌉ characters, made of letters, digits,
`-` and `_` followed by the padding characters `=` of the last group, which
`DecodeString` of the same encoding turns back into the `n` bytes; so a call
that returns the same string has read the same number of the same bytes; for
`n` = 32 the string has 44 characters and stands for 32 bytes, 256 bits. -/
theorem secure_random_string_is_base64url (rand : RandSource) (n : Nat)
    (h : rand.fails = false) :
    ∃ s, generateSecureRandomString rand n = .ok s ∧
      s.data = EncodeToString ((List.range n).map rand.byte) ∧
      s.length = 4 * ((n + 2) / 3) ∧
      (∃ body, s.data = body ++ List.replicate ((3 - n % 3) % 3) '=' ∧
        ∀ ch ∈ body, ch.isAlphanum = true ∨ ch = '-' ∨ ch = '_') ∧
      DecodeString encodeURL s.data = some ((List.range n).map rand.byte) ∧
      (∀ (rand2 : RandSource) (n2 : Nat), generateSecureRandomString rand2 n2 = .ok s →
        n2 = n ∧ ∀ i, i < n → rand2.byte i = rand.byte i) ∧
      (n = 32 → s.length = 44 ∧ 8 * ((List.range n).map rand.byte).length = 256) := by
  have hgen : generateSecureRandomString rand n =
      .ok (String.mk (EncodeToString ((List.range n).map rand.byte))) := by
    simp [generateSecureRandomString, h]
  refine ⟨_, hgen, rfl, generateSecureRandomString_length hgen, ?_, ?_, ?_, ?_⟩
  · obtain ⟨body, hbody, hall⟩ := encodeWith_shape encodeURL ((List.range n).map rand.byte)
    refine ⟨body, ?_, ?_⟩
    · rw [EncodeToString_eq_encodeWith, hbody]
      simp
    · intro ch hch
      obtain ⟨m, hm, rfl⟩ := hall ch hch
      exact encodeURL_characters m hm
  · show DecodeString encodeURL (EncodeToString _) = _
    rw [EncodeToString_eq_encodeWith, DecodeString_encodeWith goodAlphabet_encodeURL]
  · intro rand2 n2 h2
    unfold generateSecureRandomString at h2
    split at h2
    · cases h2
    · simp only [Except.ok.injEq] at h2
      have h3 := congrArg String.data h2
      simp only [EncodeToString_eq_encodeWith] at h3
      have hl := encodeWith_injective goodAlphabet_encodeURL h3
      have hlen := congrArg List.length hl
      simp only [List.length_map, List.length_range] at hlen
      refine ⟨hlen, fun i hi => ?_⟩
      subst hlen
      have := congrArg (fun l => l.get? i) hl
      simpa [hi] using this
  · intro hn
    subst hn
    refine ⟨generateSecureRandomString_length hgen, ?_⟩
    simp

theorem secure_random_string_is_base64url_witness :
    (sampleAmbient 0).rand.fails = false ∧
      generateSecureRandomString (sampleAmbient 0).rand 32 =
        .ok "AAECAwQFBgcICQoLDA0ODxAREhMUFRYXGBkaGxwdHh8=" ∧
      ∃ s, generateSecureRandomString (sampleAmbient 0).rand 2 = .ok s ∧ s.length = 4 ∧
        DecodeString encodeURL s.data = some [0, 1] := by
  obtain ⟨s, hs, -, hlen, -, hdec, -⟩ :=
    secure_random_string_is_base64url (sampleAmbient 0).rand 2 rfl
  exact ⟨rfl, rfl, s, hs, hlen, hdec⟩

end OAuth2

namespace OAuth2

/-! ## Bytes of encoded text -/

theorem utf8EncodeChar_ascii (c : Char) (h : c.toNat < 128) :
    (String.utf8EncodeChar c).map (fun b => (Fin.ofNat b.toNat : Fin 256)) =
      [Fin.ofNat c.toNat] := by
  have hv : c.val ≤ 0x7f := by
    rw [UInt32.le_def]
    show c.val.toNat ≤ 127
    have : c.toNat = c.val.toNat := rfl
    omega
  simp only [String.utf8EncodeChar, hv, if_true, List.map_cons, List.map_nil]
  congr 1
  apply Fin.ext
  simp only [Fin.ofNat, UInt32.toUInt8, Nat.toUInt8, UInt8.ofNat, UInt8.toNat, Char.toNat]
  simp

theorem goBytes_ascii (s : List Char) (h : ∀ c ∈ s, c.toNat < 128) :
    goBytes s = s.map (fun c => (Fin.ofNat c.toNat : Fin 256)) := by
  induction s with
  | nil => rfl
  | cons c cs ih =>
    have h1 := utf8EncodeChar_ascii c (h c (List.mem_cons_self c cs))
    have h2 := ih (fun x hx => h x (List.mem_cons_of_mem c hx))
    unfold goBytes at h2 ⊢
    simp only [List.flatMap_cons, List.map_append, h1, h2, List.map_cons]
    rfl

set_option maxRecDepth 100000 in
theorem encodeURL_ascii : ∀ n, n < 64 → (encodeURL.getD n '=').toNat < 128 := by
  decide

theorem EncodeToString_ascii (l : List (Fin 256)) : ∀ c ∈ EncodeToString l, c.toNat < 128 := by
  intro c hc
  rw [EncodeToString_eq_encodeWith] at hc
  obtain ⟨body, hbody, hall⟩ := encodeWith_shape encodeURL l
  rw [hbody, List.mem_append] at hc
  rcases hc with h | h
  · obtain ⟨n, hn, rfl⟩ := hall c h
    exact encodeURL_ascii n hn
  · rw [List.eq_of_mem_replicate h]
    decide

theorem goBytes_EncodeToString_length (l : List (Fin 256)) :
    (goBytes (EncodeToString l)).length = 4 * ((l.length + 2) / 3) := by
  rw [goBytes_ascii _ (EncodeToString_ascii l), List.length_map, EncodeToString_length]

end OAuth2

namespace APIKeys

open OAuth2

/-! ## The key generator of the API-key demo -/

/-- C26: when the read of the random source succeeds, `generateAPIKey` returns
the key made of the bytes of the given prefix, an underscore and the padded
URL-safe base64 encoding of the random bytes read, as many as requested and
32 for a request of zero or less; the stored prefix is the first 8 bytes of
the key when the key has more than 8 bytes and the whole key otherwise, so
it is an initial segment of the key; for the prefix `myapp` it is `myapp_`
followed by the first two characters of the encoding. -/
theorem generated_key_and_stored_part (rand : RandSource) (keyPrefix : List (Fin 256))
    (length : Int) (h : rand.fails = false) :
    ∃ key stored, generateAPIKey rand keyPrefix length = .ok (key, stored) ∧
      key = keyPrefix ++ goBytes ['_'] ++
        goBytes (EncodeToString
          ((List.range (if length ≤ 0 then 32 else length).toNat).map rand.byte)) ∧
      ((List.range (if length ≤ 0 then 32 else length).toNat).map rand.byte).length =
        (if length ≤ 0 then 32 else length.toNat) ∧
      (key.length > 8 → stored = key.take 8) ∧ (key.length ≤ 8 → stored = key) ∧
      (∃ rest, key = stored ++ rest) ∧
      (keyPrefix = goBytes "myapp".data →
        stored = goBytes "myapp_".data ++
          (goBytes (EncodeToString
            ((List.range (if length ≤ 0 then 32 else length).toNat).map rand.byte))).take 2 ∧
        stored.length = 8) := by
  have hn : 1 ≤ (if length ≤ 0 then (32 : Int) else length).toNat := by
    split <;> omega
  obtain ⟨enc, henc⟩ : ∃ enc, enc = goBytes (EncodeToString
      ((List.range (if length ≤ 0 then (32 : Int) else length).toNat).map rand.byte)) := ⟨_, rfl⟩
  have hlen : enc.length = 4 * (((if length ≤ 0 then (32 : Int) else length).toNat + 2) / 3) := by
    rw [henc, goBytes_EncodeToString_length, List.length_map, List.length_range]
  obtain ⟨key, hkey⟩ : ∃ key, key = keyPrefix ++ goBytes ['_'] ++ enc := ⟨_, rfl⟩
  have hgen : generateAPIKey rand keyPrefix length =
      .ok (key, if key.length > 8 then key.take 8 else key) := by
    simp only [generateAPIKey, h, Bool.false_eq_true, if_false, apiKeyPrefixLength, hkey, henc]
  rw [← henc, ← hkey]
  refine ⟨key, _, hgen, rfl, ?_, ?_, ?_, ?_, ?_⟩
  · rw [List.length_map, List.length_range]
    split <;> rfl
  · intro hk
    rw [if_pos hk]
  · intro hk
    rw [if_neg (by omega)]
  · by_cases hk : key.length > 8
    · rw [if_pos hk]
      exact ⟨_, (List.take_append_drop _ _).symm⟩
    · rw [if_neg hk]
      exact ⟨[], (List.append_nil _).symm⟩
  · intro hp
    have h6 : goBytes "myapp".data ++ goBytes ['_'] = goBytes "myapp_".data := by decide
    have h6l : (goBytes "myapp_".data).length = 6 := by decide
    have hkey2 : key = goBytes "myapp_".data ++ enc := by rw [hkey, hp, h6]
    have hk : key.length > 8 := by
      rw [hkey2, List.length_append, h6l, hlen]
      omega
    have htake : key.take 8 = goBytes "myapp_".data ++ enc.take 2 := by
      rw [hkey2, List.take_append_eq_append_take, h6l,
        List.take_of_length_le (by rw [h6l]; decide)]
    rw [if_pos hk, htake]
    refine ⟨rfl, ?_⟩
    rw [List.length_append, h6l, List.length_take, hlen]
    omega

theorem generated_key_and_stored_part_witness :
    (sampleAmbient 0).rand.fails = false ∧
      generateAPIKey (sampleAmbient 0).rand (goBytes "myapp".data) 32 =
        .ok (goBytes "myapp_AAECAwQFBgcICQoLDA0ODxAREhMUFRYXGBkaGxwdHh8=".data,
             goBytes "myapp_AA".data) ∧
      generateAPIKey (sampleAmbient 0).rand (goBytes "k".data) 0 =
        .ok (goBytes "k_AAECAwQFBgcICQoLDA0ODxAREhMUFRYXGBkaGxwdHh8=".data,
             goBytes "k_AAECAw".data) ∧
      ∃ key stored, generateAPIKey (sampleAmbient 0).rand [] 1 = .ok (key, stored) ∧
        (key.length ≤ 8 → stored = key) := by
  obtain ⟨key, stored, hk, -, -, -, hle, -⟩ :=
    generated_key_and_stored_part (sampleAmbient 0).rand [] 1 rfl
  exact ⟨rfl, rfl, rfl, key, stored, hk, hle⟩

end APIKeys

namespace OAuth2

/-! ## The scope list of an access token -/

theorem splitChars_length (c : Char) (l : List Char) :
    (splitChars c l).length = l.count c + 1 := by
  induction l with
  | nil => rfl
  | cons x xs ih =>
    unfold splitChars
    split
    · rename_i hx
      simp only [List.length_cons, ih, hx, List.count_cons_self]
    · rename_i hx
      have hc : (x :: xs).count c = xs.count c := List.count_cons_of_ne (Ne.symm hx) xs
      split
      · rename_i hs
        exact absurd hs (splitChars_ne_nil c xs)
      · rename_i w ws hs
        rw [hs] at ih
        rw [hc, ← ih]
        rfl

theorem stringsSplit_length (s : String) :
    (stringsSplit s ',').length = s.data.count ',' + 1 := by
  unfold stringsSplit
  rw [List.length_map, splitChars_length]

/-- C28, at the counterexample: the code exchange of a code stored with the
empty scope string is answered with an access token whose scope list is the
one-element list of the empty string, and that of a code stored with the
scope string `read,read` with an access token whose scope list has `read`
twice. -/
theorem scope_list_keeps_empty_and_repeated_tokens :
    (∃ body db2,
        tokenHandler stubPrimitives (sampleAmbient 1200) (scopeDB "") sampleCodeRequest =
          (.tokenJSON body, db2) ∧
        body.access_token.claims.Scopes = [""]) ∧
      ∃ body db2,
        tokenHandler stubPrimitives (sampleAmbient 1200) (scopeDB "read,read")
            sampleCodeRequest = (.tokenJSON body, db2) ∧
          body.access_token.claims.Scopes = ["read", "read"] :=
  ⟨⟨_, _, rfl, by decide⟩, _, _, rfl, by decide⟩

/-- C28, amended: the scope list of the access token of every token response
is the scope string stored with the redeemed code, or with the record of the
presented refresh token, split at every comma: it is not empty, it has one
element more than the string has commas, joining it with commas gives the
stored string, and for the empty stored string it is the one-element list of
the empty string. -/
theorem scope_list_is_split_of_stored_string (P : Primitives) (amb : Ambient) (db db2 : DB)
    (r : TokenRequest) (body : TokenResponse)
    (h : tokenHandler P amb db r = (.tokenJSON body, db2)) :
    ∃ s : String,
      ((r.grant_type = "authorization_code" ∧
          ∃ a, db.oauth_auth_codes.find? (fun a => P.collate a.Code = P.collate r.code) =
            some a ∧ a.Scopes = s) ∨
        (r.grant_type = "refresh_token" ∧
          ∃ t, db.oauth_refresh_tokens.find? (fun t => t.Token = P.sha256Hex r.refresh_token) =
              some t ∧ t.Scopes = s)) ∧
      body.access_token.claims.Scopes = stringsSplit s ',' ∧
      body.access_token.claims.Scopes ≠ [] ∧
      body.access_token.claims.Scopes.length = s.data.count ',' + 1 ∧
      stringsJoin body.access_token.claims.Scopes "," = s ∧
      (s = "" → body.access_token.claims.Scopes = [""]) := by
  have key : ∀ s : String, body.access_token.claims.Scopes = stringsSplit s ',' →
      body.access_token.claims.Scopes = stringsSplit s ',' ∧
      body.access_token.claims.Scopes ≠ [] ∧
      body.access_token.claims.Scopes.length = s.data.count ',' + 1 ∧
      stringsJoin body.access_token.claims.Scopes "," = s ∧
      (s = "" → body.access_token.claims.Scopes = [""]) := by
    intro s hs
    refine ⟨hs, ?_, ?_, ?_, ?_⟩
    · intro hnil
      have := stringsSplit_length s
      rw [← hs, hnil] at this
      simp at this
    · rw [hs, stringsSplit_length]
    · rw [hs, stringsJoin_stringsSplit]
    · intro he
      rw [hs, he]
      rfl
  rcases tokenHandler_token h with ⟨a, db1, user, hg, hc, -, -, hi⟩ | ⟨t, user, hg, hc, -, hi⟩
  · obtain ⟨-, hfind, -⟩ := checkAuthCode_some hc
    obtain ⟨-, hclaims, -⟩ := generateAccessToken_ok (issueTokens_token hi).1
    refine ⟨a.Scopes, Or.inl ⟨hg, a, hfind, rfl⟩, key _ ?_⟩
    rw [hclaims]
  · obtain ⟨-, hfind, -⟩ := checkRefreshToken_some hc
    obtain ⟨-, hclaims, -⟩ := generateAccessToken_ok (issueTokens_token hi).1
    refine ⟨t.Scopes, Or.inr ⟨hg, t, hfind, rfl⟩, key _ ?_⟩
    rw [hclaims]

theorem scope_list_is_split_of_stored_string_witness :
    ∃ body db2,
      tokenHandler stubPrimitives (sampleAmbient 1200) sampleDB sampleCodeRequest =
        (.tokenJSON body, db2) ∧
      body.access_token.claims.Scopes = ["read", "write"] := by
  have hx : ∃ body db2,
      tokenHandler stubPrimitives (sampleAmbient 1200) sampleDB sampleCodeRequest =
        (.tokenJSON body, db2) :=
    ⟨_, _, rfl⟩
  obtain ⟨body, db2, h⟩ := hx
  obtain ⟨s, hs, hsplit, -⟩ := scope_list_is_split_of_stored_string stubPrimitives
    (sampleAmbient 1200) sampleDB db2 sampleCodeRequest body h
  refine ⟨body, db2, h, ?_⟩
  rcases hs with ⟨-, a, hfind, rfl⟩ | ⟨hg, -⟩
  · have ha : a = sampleCode := by
      have : sampleDB.oauth_auth_codes.find? (fun a =>
          stubPrimitives.collate a.Code = stubPrimitives.collate sampleCodeRequest.code) =
          some sampleCode := rfl
      rw [this] at hfind
      exact (Option.some.inj hfind).symm
    rw [hsplit, ha]
    decide
  · exact absurd hg (by decide)

end OAuth2

namespace JWTDemo

open OAuth2 (Primitives Ambient User Credentials Response stubPrimitives sampleAmbient)

/-! ## The password length check of the JWT demo -/

theorem utf8ByteSize_go_ge (l : List Char) : l.length ≤ String.utf8ByteSize.go l := by
  induction l with
  | nil => exact Nat.le_refl _
  | cons c cs ih =>
    have hc := Char.utf8Size_pos c
    simp only [String.utf8ByteSize.go, List.length_cons]
    omega

theorem length_le_utf8ByteSize (s : String) : s.length ≤ s.utf8ByteSize :=
  utf8ByteSize_go_ge s.data

/-- C30: for a non-empty email and password, `registerHandler` answers with
the too-short rejection exactly when the password has fewer than 6 bytes in
UTF-8; so a password of at least 6 characters passes the check, but so does
the password `ééé`, which has 3 characters and 6 bytes: the registration
with it is answered with status 201 and the user is stored. -/
theorem password_length_check_counts_bytes :
    (∀ (P : Primitives) (amb : Ambient) (users : List User) (email password : String),
        email ≠ "" → password ≠ "" →
        ((registerHandler P amb users (some { Email := email, Password := password })).1 =
            passwordTooShort ↔ password.utf8ByteSize < 6) ∧
        (6 ≤ password.length →
          (registerHandler P amb users (some { Email := email, Password := password })).1 ≠
            passwordTooShort)) ∧
      "ééé".length = 3 ∧ "ééé".utf8ByteSize = 6 ∧
      registerHandler stubPrimitives (sampleAmbient 1000) []
          (some { Email := "new@example.com", Password := "ééé" }) =
        (.createdJSON [("message", "Pengguna 'new@example.com' berhasil dibuat."),
                       ("user_id", "1"), ("email", "new@example.com")],
         [{ ID := 1, Email := "new@example.com", Password := "bcrypt:ééé" }]) := by
  refine ⟨?_, by decide, by decide, by decide⟩
  intro P amb users email password he hp
  have hiff : (registerHandler P amb users (some { Email := email, Password := password })).1 =
      passwordTooShort ↔ password.utf8ByteSize < 6 := by
    by_cases hlen : password.utf8ByteSize < 6
    · simp [registerHandler, he, hp, hlen, passwordTooShort]
    · simp only [registerHandler, he, hp, hlen, or_self, if_false, passwordTooShort, iff_false]
      split
      · split <;> simp
      · simp
  refine ⟨hiff, fun h6 => ?_⟩
  rw [Ne, hiff]
  have := length_le_utf8ByteSize password
  omega

end JWTDemo

namespace BasicAuth

open OAuth2

/-! ## Parsing of Basic-auth credentials -/

theorem span_ne_append {α : Type} [DecidableEq α] (sep : α) (a b : List α) (h : sep ∉ a) :
    (a ++ sep :: b).span (fun c => c ≠ sep) = (a, sep :: b) := by
  rw [List.span_eq_take_drop]
  have hall : ∀ x ∈ a, (decide (x ≠ sep)) = true := by
    intro x hx
    exact decide_eq_true (fun hxs => h (hxs ▸ hx))
  have h1 : (a ++ sep :: b).takeWhile (fun c => decide (c ≠ sep)) = a := by
    rw [List.takeWhile_append_of_pos hall]
    simp
  have h2 : (a ++ sep :: b).dropWhile (fun c => decide (c ≠ sep)) = sep :: b := by
    rw [List.dropWhile_append_of_pos hall]
    simp
  rw [h1, h2]

theorem span_ne_of_not_mem {α : Type} [DecidableEq α] (sep : α) (s : List α) (h : sep ∉ s) :
    s.span (fun c => c ≠ sep) = (s, []) := by
  rw [List.span_eq_take_drop]
  have hall : ∀ x ∈ s, (decide (x ≠ sep)) = true := by
    intro x hx
    exact decide_eq_true (fun hxs => h (hxs ▸ hx))
  rw [List.takeWhile_eq_self_iff.mpr hall, List.dropWhile_eq_nil_iff.mpr hall]

theorem exists_first_sep {α : Type} [DecidableEq α] (sep : α) (s : List α) (h : sep ∈ s) :
    ∃ b, s = s.takeWhile (fun c => c ≠ sep) ++ sep :: b ∧
      sep ∉ s.takeWhile (fun c => c ≠ sep) := by
  induction s with
  | nil => cases h
  | cons x xs ih =>
    by_cases hx : x = sep
    · refine ⟨xs, ?_, ?_⟩
      · simp [List.takeWhile_cons, hx]
      · simp [List.takeWhile_cons, hx]
    · have hmem : sep ∈ xs := by
        rcases List.mem_cons.mp h with h1 | h1
        · exact absurd h1.symm hx
        · exact h1
      obtain ⟨b, hb, hnot⟩ := ih hmem
      refine ⟨b, ?_, ?_⟩
      · simp only [List.takeWhile_cons, ne_eq, hx, not_false_eq_true, decide_True,
          if_true, List.cons_append]
        exact congrArg (List.cons x) hb
      · simp only [List.takeWhile_cons, ne_eq, hx, not_false_eq_true, decide_True, if_true,
          List.mem_cons, not_or]
        exact ⟨fun h2 => hx h2.symm, hnot⟩

/-- Function `SplitN` cuts at the first separator. -/
theorem stringsSplitN2_append {α : Type} [DecidableEq α] (sep : α) (a b : List α)
    (h : sep ∉ a) : stringsSplitN2 (a ++ sep :: b) sep = [a, b] := by
  unfold stringsSplitN2
  rw [span_ne_append sep a b h]

/-- Function `SplitN` returns a sequence without the separator whole. -/
theorem stringsSplitN2_of_not_mem {α : Type} [DecidableEq α] (sep : α) (s : List α)
    (h : sep ∉ s) : stringsSplitN2 s sep = [s] := by
  unfold stringsSplitN2
  rw [span_ne_of_not_mem sep s h]

/-- A word that is `basic` up to the case of its ASCII letters is mapped to
`basic` by `strings.ToLower`, whatever the table outside ASCII. -/
theorem stringsToLower_basic (unicodeToLower : Char → Char) (scheme : List Char)
    (h : scheme.map Char.toLower = "basic".data) :
    stringsToLower unicodeToLower scheme = "basic".data ∧ ' ' ∉ scheme := by
  have hmem : ∀ c ∈ scheme, c.toLower ∈ "basic".data := by
    intro c hc
    rw [← h]
    exact List.mem_map_of_mem _ hc
  have hascii : ∀ c ∈ scheme, c.toNat < 128 := by
    intro c hc
    have h1 := hmem c hc
    by_contra hge
    have hsame : c.toLower = c := by
      simp only [Char.toLower]
      rw [if_neg (by omega)]
    rw [hsame] at h1
    have : ∀ x ∈ "basic".data, x.toNat < 128 := by decide
    exact hge (this c h1)
  constructor
  · unfold stringsToLower
    rw [← h]
    apply List.map_congr_left
    intro c hc
    rw [if_pos (hascii c hc)]
  · intro hsp
    have := hmem ' ' hsp
    revert this
    decide

/-- What the middleware does with a header whose first word lower-cases to
`basic` and whose second part decodes. -/
theorem basicAuthMiddleware_of_payload (unicodeToLower : Char → Char)
    (findUserByemail : List (Fin 256) → Option String)
    (verifyPassword : List (Fin 256) → String → Bool) (scheme text : List Char)
    (payload : List (Fin 256)) (hsp : ' ' ∉ scheme)
    (hs : stringsToLower unicodeToLower scheme = "basic".data)
    (hd : DecodeString encodeStd text = some payload) :
    basicAuthMiddleware unicodeToLower findUserByemail verifyPassword
        (String.mk (scheme ++ ' ' :: text)) =
      if (stringsSplitN2 payload (58 : Fin 256)).length ≠ 2 ∨
          (stringsSplitN2 payload (58 : Fin 256)).getD 0 [] = [] ∨
          (stringsSplitN2 payload (58 : Fin 256)).getD 1 [] = [] then missingCredentials
      else
        match findUserByemail ((stringsSplitN2 payload (58 : Fin 256)).getD 0 []) with
        | none => userNotFound
        | some hash =>
          if !verifyPassword ((stringsSplitN2 payload (58 : Fin 256)).getD 1 []) hash then
            wrongPassword
          else .next := by
  have hne : String.mk (scheme ++ ' ' :: text) ≠ "" := by
    intro h
    have := congrArg String.data h
    simp at this
  have hparts : ¬ (([scheme, text] : List (List Char)).length ≠ 2 ∨
      stringsToLower unicodeToLower (([scheme, text] : List (List Char)).getD 0 []) ≠
        "basic".data) := by
    rintro (h | h)
    · exact h rfl
    · exact h hs
  unfold basicAuthMiddleware
  simp only [if_neg hne, stringsSplitN2_append ' ' scheme text hsp, if_neg hparts]
  show (match DecodeString encodeStd text with
    | none => invalidBase64
    | some payload => _) = _
  rw [hd]

/-- C29: for every word that is `basic` up to the case of its letters, every
non-empty email without a colon byte and every non-empty password (which may
contain colon bytes), the middleware parses the header made of the word, a
space and the standard base64 encoding of `email:password` to exactly that
email and that password: it looks up the user with that email and, when one
is found, verifies that password against the stored hash, answering 401 when
there is no such user or the password does not verify and calling the next
handler otherwise.  Whatever the user table and the password check, the
middleware answers a header that is empty, has no space, or whose first word
does not lower-case to `basic` with status 401, a header with such a word
whose second part is not valid base64 with status 400, and one whose decoded
payload has no colon, or nothing before or nothing after its first colon,
with status 400; none of them reaches the next handler. -/
theorem basic_credentials_roundtrip (unicodeToLower : Char → Char) (scheme : String)
    (email password : List (Fin 256)) (hs : scheme.data.map Char.toLower = "basic".data)
    (he : email ≠ []) (hc : (58 : Fin 256) ∉ email) (hp : password ≠ []) :
    (∀ (findUserByemail : List (Fin 256) → Option String)
        (verifyPassword : List (Fin 256) → String → Bool),
      basicAuthMiddleware unicodeToLower findUserByemail verifyPassword
          (basicHeader scheme email password) =
        match findUserByemail email with
        | none => .httpError true "Kredensial tidak valid (pengguna tidak ditemukan)." 401
        | some hash =>
          if verifyPassword password hash = true then .next
          else .httpError true "Kredensial tidak valid (password salah)." 401) ∧
      basicAuthMiddleware unicodeToLower (fun e => if e = email then some "" else none)
          (fun p _ => decide (p = password)) (basicHeader scheme email password) = .next ∧
      (∀ (findUserByemail : List (Fin 256) → Option String)
          (verifyPassword : List (Fin 256) → String → Bool) (header : String),
        header = "" ∨ ' ' ∉ header.data ∨
          stringsToLower unicodeToLower (header.data.takeWhile (fun c => c ≠ ' ')) ≠
            "basic".data →
        basicAuthMiddleware unicodeToLower findUserByemail verifyPassword header =
            .httpError true "Header otorisasi tidak ditemukan." 401 ∨
          basicAuthMiddleware unicodeToLower findUserByemail verifyPassword header =
            .httpError true "Tipe otorisasi tidak valid. Harap gunakan Basic Auth." 401) ∧
      (∀ (findUserByemail : List (Fin 256) → Option String)
          (verifyPassword : List (Fin 256) → String → Bool) (text : List Char),
        DecodeString encodeStd text = none →
        basicAuthMiddleware unicodeToLower findUserByemail verifyPassword
            (String.mk (scheme.data ++ ' ' :: text)) =
          .httpError false "Format kredensial tidak valid (base64 decode error)." 400) ∧
      (∀ (findUserByemail : List (Fin 256) → Option String)
          (verifyPassword : List (Fin 256) → String → Bool) (text : List Char)
          (payload : List (Fin 256)),
        DecodeString encodeStd text = some payload →
        (58 : Fin 256) ∉ payload ∨ (∃ rest, payload = 58 :: rest) ∨
          (∃ before, (58 : Fin 256) ∉ before ∧ payload = before ++ [58]) →
        basicAuthMiddleware unicodeToLower findUserByemail verifyPassword
            (String.mk (scheme.data ++ ' ' :: text)) =
          .httpError false "email atau password tidak ada dalam kredensial." 400) := by
  obtain ⟨hlow, hsp⟩ := stringsToLower_basic unicodeToLower scheme.data hs
  have hfirst : ∀ (findUserByemail : List (Fin 256) → Option String)
      (verifyPassword : List (Fin 256) → String → Bool),
      basicAuthMiddleware unicodeToLower findUserByemail verifyPassword
          (basicHeader scheme email password) =
        match findUserByemail email with
        | none => .httpError true "Kredensial tidak valid (pengguna tidak ditemukan)." 401
        | some hash =>
          if verifyPassword password hash = true then .next
          else .httpError true "Kredensial tidak valid (password salah)." 401 := by
    intro findUserByemail verifyPassword
    have hd := DecodeString_encodeWith goodAlphabet_encodeStd (email ++ [58] ++ password)
    have hh : basicHeader scheme email password =
        String.mk (scheme.data ++ ' ' :: encodeWith encodeStd (email ++ [58] ++ password)) := by
      unfold basicHeader
      apply String.ext
      simp
    rw [hh, basicAuthMiddleware_of_payload unicodeToLower _ _ _ _ _ hsp hlow hd]
    have hsplit : stringsSplitN2 (email ++ [58] ++ password) (58 : Fin 256) =
        [email, password] := by
      rw [List.append_assoc]
      exact stringsSplitN2_append 58 email password hc
    rw [hsplit]
    have hok : ¬ (([email, password] : List (List (Fin 256))).length ≠ 2 ∨
        ([email, password] : List (List (Fin 256))).getD 0 [] = [] ∨
        ([email, password] : List (List (Fin 256))).getD 1 [] = []) := by
      rintro (h | h | h)
      · exact h rfl
      · exact he h
      · exact hp h
    rw [if_neg hok]
    show (match findUserByemail email with
      | none => userNotFound
      | some hash => if !verifyPassword password hash then wrongPassword else .next) = _
    cases findUserByemail email with
    | none => rfl
    | some hash =>
      cases hv : verifyPassword password hash <;> simp [hv, wrongPassword]
  refine ⟨hfirst, ?_, ?_, ?_, ?_⟩
  · rw [hfirst]
    simp
  · intro findUserByemail verifyPassword header hbad
    by_cases hempty : header = ""
    · left
      unfold basicAuthMiddleware
      rw [if_pos hempty]
      rfl
    · right
      unfold basicAuthMiddleware
      rw [if_neg hempty]
      by_cases hspace : ' ' ∈ header.data
      · obtain ⟨b, hb, hnot⟩ := exists_first_sep ' ' header.data hspace
        have hlower : stringsToLower unicodeToLower
            (header.data.takeWhile (fun c => c ≠ ' ')) ≠ "basic".data := by
          rcases hbad with h | h | h
          · exact absurd h hempty
          · exact absurd hspace h
          · exact h
        have hparts : stringsSplitN2 header.data ' ' =
            [header.data.takeWhile (fun c => c ≠ ' '), b] := by
          conv_lhs => rw [hb]
          exact stringsSplitN2_append ' ' _ b hnot
        simp only [hparts]
        exact if_pos (Or.inr hlower)
      · simp only [stringsSplitN2_of_not_mem ' ' header.data hspace]
        simp [invalidType]
  · intro findUserByemail verifyPassword text hd
    unfold basicAuthMiddleware
    have hne : String.mk (scheme.data ++ ' ' :: text) ≠ "" := by
      intro h
      have := congrArg String.data h
      simp at this
    simp only [if_neg hne, stringsSplitN2_append ' ' scheme.data text hsp]
    simp [hlow, hd, invalidBase64]
  · intro findUserByemail verifyPassword text payload hd hbad
    rw [basicAuthMiddleware_of_payload unicodeToLower _ _ _ _ _ hsp hlow hd]
    rcases hbad with h | ⟨rest, rfl⟩ | ⟨before, hb, rfl⟩
    · rw [stringsSplitN2_of_not_mem 58 payload h]
      simp [missingCredentials]
    · have := stringsSplitN2_append (58 : Fin 256) [] rest (by simp)
      simp only [List.nil_append] at this
      rw [this]
      simp [missingCredentials]
    · rw [stringsSplitN2_append (58 : Fin 256) before [] hb]
      simp [missingCredentials]

theorem basic_credentials_roundtrip_witness :
    "BaSiC".data.map Char.toLower = "basic".data ∧
      basicHeader "BaSiC" (goBytes "user@example.com".data) (goBytes "pass:word".data) =
        "BaSiC dXNlckBleGFtcGxlLmNvbTpwYXNzOndvcmQ=" ∧
      basicAuthMiddleware id sampleFindUser sampleVerifyPassword
        "BaSiC dXNlckBleGFtcGxlLmNvbTpwYXNzOndvcmQ=" = .next ∧
      basicAuthMiddleware id sampleFindUser sampleVerifyPassword
        "Basic dXNlckBleGFtcGxlLmNvbTpwYXNzd29yZA==" = wrongPassword ∧
      basicAuthMiddleware id sampleFindUser sampleVerifyPassword
        "Basic bm9ib2R5QGV4YW1wbGUuY29tOnBhc3M6d29yZA==" = userNotFound ∧
      basicAuthMiddleware id sampleFindUser sampleVerifyPassword "" = headerMissing ∧
      basicAuthMiddleware id sampleFindUser sampleVerifyPassword
        "Bearer dXNlckBleGFtcGxlLmNvbTpwYXNzOndvcmQ=" = invalidType ∧
      basicAuthMiddleware id sampleFindUser sampleVerifyPassword
        "BasicdXNlckBleGFtcGxlLmNvbTpwYXNzOndvcmQ=" = invalidType ∧
      basicAuthMiddleware id sampleFindUser sampleVerifyPassword
        "Basic dXNlckBleGFtcGxlLmNvbTpwYXNzOndvcmQ" = invalidBase64 ∧
      basicAuthMiddleware id sampleFindUser sampleVerifyPassword
        "Basic dXNlckBleGFtcGxlLmNvbQ==" = missingCredentials ∧
      basicAuthMiddleware id sampleFindUser sampleVerifyPassword
        "Basic OnNlY3JldA==" = missingCredentials ∧
      basicAuthMiddleware id sampleFindUser sampleVerifyPassword
        "Basic dXNlckBleGFtcGxlLmNvbTo=" = missingCredentials := by
  have hh : basicHeader "BaSiC" (goBytes "user@example.com".data) (goBytes "pass:word".data) =
      "BaSiC dXNlckBleGFtcGxlLmNvbTpwYXNzOndvcmQ=" := by decide
  have h := (basic_credentials_roundtrip id "BaSiC" (goBytes "user@example.com".data)
    (goBytes "pass:word".data) (by decide) (by decide) (by decide) (by decide)).1
    sampleFindUser sampleVerifyPassword
  rw [hh] at h
  refine ⟨by decide, hh, ?_, rfl, rfl, rfl, rfl, rfl, rfl, rfl, rfl, rfl⟩
  rw [h]
  rfl

end BasicAuth
